import Mathlib

/-! # ARK persistent loop kernel: host controller and emitted device loop

A shallow embedding of `ark/gpu/gpu_loop_kernel.cc`.

* The host-mapped iteration flag is one `Int` cell of the controller state.
  The device runs concurrently with the host, so a busy-wait on the flag is
  given the stores the device lands on the flag between two successive host
  loads (`Ticks`): entry `some v` means the device stored `v` before the next
  load, `none` means the cell was left alone.  The list is the observation
  window; a busy-wait that is still spinning when the window ends has outcome
  `Outcome.spinning`.
* Calls into the driver and the communication layer are recorded, in program
  order, as a list of `Event`s next to the controller state.
* C++ exceptions (`ERR`, `GLOG`, `GLOG_DRV`) and a member call through a null
  `stream_` are outcomes of a call; the state they leave behind is kept.
-/

namespace ark

/-! ## Driver types -/

/-- Status of `GpuStream::query()` (`gpuError`). -/
inductive gpuError where
  | gpuSuccess
  | gpuErrorNotReady
  | other (code : Nat)
  deriving DecidableEq, Repr

/-- Status of `gpuModuleGetGlobal` (`gpuDrvError`). -/
inductive gpuDrvError where
  | gpuDrvSuccess
  | gpuErrorNotFound
  | other (code : Nat)
  deriving DecidableEq, Repr

/-- Device address (`GpuPtr`). -/
abbrev GpuPtr := Nat

/-- Identity of a `std::shared_ptr<GpuStream>`; the null pointer is `none`. -/
abbrev Stream := Option Nat

/-- Value of a `float` that is only stored and handed back. -/
abbrev Msec := Int

/-- Spin budget of `wait()`: `#define MAX_LOOP_COUNTER 10000000`. -/
def MAX_LOOP_COUNTER : Int := 10000000

/-- Device stores landing on the flag between successive host loads. -/
abbrev Ticks := List (Option Int)

/-! ## Controller state -/

/-- Host-side fields of `GpuLoopKernel` that the lifecycle calls read or write. -/
structure GpuLoopKernel where
  /-- Result of `is_compiled()`. -/
  compiled : Bool
  /-- Content of the host-mapped `int` behind `flag_`. -/
  flag : Int
  /-- The bound stream `stream_`. -/
  stream_ : Stream
  /-- The member `is_recording_`. -/
  is_recording_ : Bool
  /-- The member `elapsed_msec_`. -/
  elapsed_msec_ : Msec
  deriving DecidableEq, Repr

/-- Symbols of the compiled module that `load()` resolves by name. -/
inductive Symbol where
  /-- The name `ARK_LSS_NAME`. -/
  | lss
  /-- The name `ARK_BUF_NAME`. -/
  | buf
  /-- The name `ARK_LSS_NAME "_0"`. -/
  | lss_0
  /-- The name `ARK_LSS_NAME "_1"`. -/
  | lss_1
  /-- The name `ARK_BUF_NAME + std::to_string(i)`. -/
  | data_buf (i : Int)
  /-- The name `"_ARK_PROXY_CHANS"`. -/
  | proxy_chans
  /-- The name `"_ARK_SM_CHANS"`. -/
  | sm_chans
  deriving DecidableEq, Repr

/-- What a `memcpy_htod` copies to the device. -/
inductive Payload where
  /-- The array `std::array<int, 4> data` of four zeros. -/
  | zeros4
  /-- One pointer value (`sizeof(GpuPtr)` bytes). -/
  | pointer (value : Nat)
  /-- `bytes` bytes starting at host address `ref`, unmodified. -/
  | table (ref : Nat) (bytes : Nat)
  deriving DecidableEq, Repr

/-- The `LOG(WARN, ..)` messages of the controller. -/
inductive Warning where
  /-- Message "Ignore launching twice." -/
  | ignore_launching_twice
  /-- Message "Stream is finished but the loop flag is still set." -/
  | flag_still_set
  /-- Message "wait() is delayed by a stream query. Regarding timing
  measurements may be inaccurate." -/
  | delayed_by_query
  deriving DecidableEq, Repr

/-- Externally visible actions of the host controller. -/
inductive Event where
  /-- The call `atomicLoadRelaxed(flag_->ref<int>())` returned `v`. -/
  | atomicLoad (v : Int)
  /-- The call `atomicStoreRelaxed(flag_->ref<int>(), v)`. -/
  | atomicStore (v : Int)
  /-- The call `stream_->query()` returned `r`. -/
  | query (r : gpuError)
  /-- The call `stream_->sync()`. -/
  | sync
  /-- The call `timer_begin_->record(stream)`. -/
  | record_begin (stream : Nat)
  /-- The call `timer_end_->record(stream)`. -/
  | record_end (stream : Nat)
  /-- The call `timer_end_->elapsed_msec(*timer_begin_)`. -/
  | elapsed
  /-- The call `ctx_->get_comm_sw()->launch_request_loop()`. -/
  | launch_request_loop
  /-- The call `ctx_->get_comm_sw()->stop_request_loop()`. -/
  | stop_request_loop
  /-- The call `GpuKernel::launch(stream)`: the device program is submitted. -/
  | kernel_launch (stream : Nat)
  /-- The call `gpuModuleGetGlobal(.., name)` returned `r`. -/
  | getGlobal (name : Symbol) (r : gpuDrvError)
  /-- The call `memcpy_htod((void*)dst, 0, .., 0, ..)`; `dst = none` is an
  address variable that no lookup has written. -/
  | memcpy_htod (dst : Option GpuPtr) (src : Payload)
  /-- A `LOG(WARN, ..)` line. -/
  | warn (msg : Warning)
  deriving DecidableEq, Repr

/-- How a call ended. -/
inductive Outcome (α : Type) where
  /-- The call returned `a`. -/
  | ret (a : α)
  /-- Raised by `ERR(InvalidUsageError, ..)`. -/
  | InvalidUsageError
  /-- Raised by `GLOG(res)` for the stream status `res`. -/
  | GpuError (res : gpuError)
  /-- Raised by `GLOG_DRV(res)` for the driver status `res`. -/
  | DrvError (res : gpuDrvError)
  /-- Member call through a null `stream_`. -/
  | nullDeref
  /-- Integer division by zero. -/
  | divByZero
  /-- Still inside a busy-wait when the observation window ended. -/
  | spinning
  deriving DecidableEq, Repr

/-- Result of a call: how it ended, the controller state it left, and the
actions it performed in program order. -/
structure Ret (α : Type) where
  res : Outcome α
  st : GpuLoopKernel
  ev : List Event

/-- Prefix the actions of a result with one earlier action. -/
def Ret.after {α : Type} (e : Event) (r : Ret α) : Ret α :=
  { r with ev := e :: r.ev }

/-! ## `run` and `poll` -/

/-- The statement `while (atomicLoadRelaxed(flag) > 0) {}` followed by
`atomicStoreRelaxed(flag, iter)`.  Each load takes the next entry of the
window. -/
def runLoop (iter : Int) (s : GpuLoopKernel) : Ticks → Ret Unit
  | [] => ⟨.spinning, s, []⟩
  | w :: ws =>
    let v := w.getD s.flag
    if v > 0 then
      (runLoop iter { s with flag := v } ws).after (.atomicLoad v)
    else
      ⟨.ret (), { s with flag := iter }, [.atomicLoad v, .atomicStore iter]⟩

/-- The method `GpuLoopKernel::run(int iter)`.  The first load reads the cell
as it is. -/
def run (iter : Int) (s : GpuLoopKernel) (ws : Ticks) : Ret Unit :=
  if iter > 0 then
    runLoop iter s (none :: ws)
  else
    ⟨.ret (), s, []⟩

/-- The method `GpuLoopKernel::poll()`. -/
def poll (s : GpuLoopKernel) : Ret Bool :=
  ⟨.ret (decide (s.flag ≤ 0)), s, [.atomicLoad s.flag]⟩

/-! ## `launch`, `wait`, `stop`, `get_elapsed_msec` -/

/-- The method `GpuLoopKernel::launch(stream, disable_timing)`. -/
def launch (stream : Stream) (disable_timing : Bool) (s : GpuLoopKernel) :
    Ret Unit :=
  let s := { s with elapsed_msec_ := -1 }
  if !s.compiled then
    ⟨.InvalidUsageError, s, []⟩
  else
    match stream with
    | none => ⟨.InvalidUsageError, s, []⟩
    | some st =>
      if s.stream_ ≠ none then
        if s.stream_ = some st then
          ⟨.ret (), s, [.warn .ignore_launching_twice]⟩
        else
          ⟨.InvalidUsageError, s, []⟩
      else
        let e1 := if !disable_timing then [Event.record_begin st] else []
        let s := { s with flag := 0 }
        let s := { s with stream_ := some st }
        let e2 := if !disable_timing then [Event.record_end st] else []
        let s := if !disable_timing then { s with is_recording_ := true } else s
        ⟨.ret (), s,
          e1 ++ [.launch_request_loop, .atomicStore 0, .kernel_launch st] ++ e2⟩

/-- Modelled from the spec: the macro `GLOG` (its header is not part of the
sources) on a status that is neither success nor not-ready, "any other status
is a fatal device error, propagated immediately". -/
def GLOG (res : gpuError) (s : GpuLoopKernel) : Ret Unit :=
  ⟨.GpuError res, s, []⟩

/-- The loop of `GpuLoopKernel::wait()`, entered with spin budget `cnt` and
`q` stream queries already made.  Every load takes the next entry of the
window; `query q` is the status the `q`-th `stream_->query()` reports. -/
def waitLoop (query : Nat → gpuError) :
    Ticks → GpuLoopKernel → Int → Nat → Ret Unit
  | [], s, _, _ => ⟨.spinning, s, []⟩
  | w :: ws, s, cnt, q =>
    let v := w.getD s.flag
    let s := { s with flag := v }
    if v > 0 then
      let cnt := cnt - 1
      if cnt > 0 then
        (waitLoop query ws s cnt q).after (.atomicLoad v)
      else
        match s.stream_ with
        | none => ⟨.nullDeref, s, [.atomicLoad v]⟩
        | some _ =>
          let res := query q
          if res = .gpuSuccess then
            match ws with
            | [] => ⟨.spinning, s, [.atomicLoad v, .query res]⟩
            | w2 :: _ =>
              let v2 := w2.getD s.flag
              let s := { s with flag := v2 }
              if v2 > 0 then
                ⟨.ret (), s,
                  [.atomicLoad v, .query res, .atomicLoad v2, .warn .flag_still_set]⟩
              else
                ⟨.ret (), s,
                  [.atomicLoad v, .query res, .atomicLoad v2, .warn .delayed_by_query]⟩
          else if res = .gpuErrorNotReady then
            ((waitLoop query ws s MAX_LOOP_COUNTER (q + 1)).after (.query res)).after
              (.atomicLoad v)
          else
            ((GLOG res s).after (.query res)).after (.atomicLoad v)
    else
      ⟨.ret (), s, [.atomicLoad v]⟩

/-- The method `GpuLoopKernel::wait()`.  The first load reads the cell as it
is. -/
def wait (query : Nat → gpuError) (s : GpuLoopKernel) (ws : Ticks) : Ret Unit :=
  waitLoop query (none :: ws) s MAX_LOOP_COUNTER 0

/-- The method `GpuLoopKernel::stop()`; `interval` is what
`timer_end_->elapsed_msec(*timer_begin_)` measures when it is called. -/
def stop (query : Nat → gpuError) (interval : Msec) (s : GpuLoopKernel)
    (ws : Ticks) : Ret Unit :=
  let r := wait query s ws
  match r.res with
  | .ret () =>
    let s := { r.st with flag := -1 }
    match s.stream_ with
    | none => ⟨.nullDeref, s, r.ev ++ [.atomicStore (-1)]⟩
    | some _ =>
      let e := if s.is_recording_ then [Event.elapsed] else []
      let s :=
        if s.is_recording_ then
          { s with elapsed_msec_ := interval, is_recording_ := false }
        else s
      let s := { s with stream_ := none }
      ⟨.ret (), s, r.ev ++ [.atomicStore (-1), .sync] ++ e ++ [.stop_request_loop]⟩
  | _ => r

/-- The method `GpuLoopKernel::get_elapsed_msec()`. -/
def get_elapsed_msec (s : GpuLoopKernel) : Ret Msec :=
  if s.is_recording_ then
    ⟨.InvalidUsageError, s, []⟩
  else
    ⟨.ret s.elapsed_msec_, s, []⟩

/-! ## The emitted device loop

The constructor emits the kernel text; lines `for (;;) {` .. `}` of it are
embedded here as the actions of one thread.  Every thread of the grid runs
the same text; `designated` says whether the thread is the one with
`threadIdx.x == 0 && blockIdx.x == 0`.  The grid state is the counter `*_it`
and the global `_ITER`; a grid-wide barrier `ark::sync_gpu` makes the value
the designated thread wrote to `_ITER` the one every thread reads after it.
The counter is host-mapped: the window of a poll lists the stores the host
lands on it between two successive device loads. -/

/-- Actions of one thread of the emitted kernel. -/
inductive DevEvent where
  /-- The call `ark::atomicLoadRelaxed(_it)` returned `v`. -/
  | atomicLoad (v : Int)
  /-- The assignment `_ITER = iter`. -/
  | set_ITER (iter : Int)
  /-- The barrier `ark::sync_gpu<num_sm>(..)`. -/
  | sync_gpu
  /-- The call `ark_loop_body(_buf, _i)`. -/
  | ark_loop_body (_i : Int)
  /-- The call `ark::atomicStoreRelaxed(_it, v)`. -/
  | atomicStore (v : Int)
  /-- The statement `return;`. -/
  | ret
  deriving DecidableEq, Repr

/-- Grid state of the emitted kernel. -/
structure DevState where
  /-- Content of the counter `*_it`. -/
  it : Int
  /-- The device global `_ITER`. -/
  _ITER : Int
  deriving DecidableEq, Repr

/-- Where a thread stands at the end of one pass of `for (;;)`. -/
inductive DevOutcome where
  /-- The pass ran to its closing brace; the next pass starts. -/
  | next
  /-- The thread executed `return;`. -/
  | returned
  /-- The designated thread is still in its `while` when the window ends. -/
  | polling
  deriving DecidableEq, Repr

/-- Result of one pass: outcome, grid state, this thread's actions, and the
rest of the window. -/
structure DevRet where
  res : DevOutcome
  st : DevState
  ev : List DevEvent
  rest : Ticks

/-- The statement `while ((iter = ark::atomicLoadRelaxed(_it)) == 0) {}` of the
designated thread: the values loaded (`none` while still polling at the end of
the window, else the final nonzero `iter`), and the rest of the window. -/
def pollIt : Ticks → Int → List Int × Option Int × Ticks
  | [], _ => ([], none, [])
  | h :: hs, it =>
    let iter := h.getD it
    if iter == 0 then
      let r := pollIt hs iter
      (iter :: r.1, r.2.1, r.2.2)
    else
      ([iter], some iter, hs)

/-- The statement `for (int _i = 0; _i < _ITER; ++_i) { ark_loop_body(_buf, _i);
ark::sync_gpu(..); }` continued from `_i`, unrolled at most `n` times. -/
def innerLoop (_ITER : Int) : Nat → Int → List DevEvent
  | 0, _ => []
  | n + 1, _i =>
    if _i < _ITER then
      .ark_loop_body _i :: .sync_gpu :: innerLoop _ITER n (_i + 1)
    else
      []

/-- One pass of the emitted `for (;;)` as executed by one thread. -/
def outerPass (designated : Bool) (d : DevState) (hs : Ticks) : DevRet :=
  -- if (threadIdx.x == 0 && blockIdx.x == 0) { while (..) {}  _ITER = iter; }
  let p := pollIt (none :: hs) d.it
  let own (l : List DevEvent) : List DevEvent := if designated then l else []
  match p.2.1 with
  | none =>
    ⟨.polling, { d with it := (p.1.getLast?).getD d.it },
      own (p.1.map .atomicLoad), p.2.2⟩
  | some iter =>
    let d := { d with it := iter, _ITER := iter }
    let pre := own (p.1.map .atomicLoad ++ [.set_ITER iter]) ++ [.sync_gpu]
    if d._ITER < 0 then
      ⟨.returned, d, pre ++ [.ret], p.2.2⟩
    else
      let body := innerLoop d._ITER d._ITER.toNat 0
      ⟨.next, { d with it := 0 },
        pre ++ body ++ own [.atomicStore 0] ++ [.sync_gpu], p.2.2⟩

/-- The emitted `for (;;)` loop, at most `fuel` passes of it. -/
def deviceLoop (designated : Bool) : Nat → DevState → Ticks → DevRet
  | 0, d, hs => ⟨.next, d, [], hs⟩
  | fuel + 1, d, hs =>
    let r := outerPass designated d hs
    match r.res with
    | .next =>
      let r2 := deviceLoop designated fuel r.st r.rest
      { r2 with ev := r.ev ++ r2.ev }
    | _ => r

/-! ## `load` -/

/-- What `load()` reads from `ctx_`, `get_env()`, the compiled module and the
communication layer. -/
structure LoadEnv where
  /-- The setting `get_env().num_ranks_per_host`. -/
  num_ranks_per_host : Int
  /-- The rank `ctx_->gpu_id()`. -/
  gpu_id : Int
  /-- The size `ctx_->world_size()`. -/
  world_size : Int
  /-- The pointer `ctx_->get_data_memory()->ref()`. -/
  data_memory : Nat
  /-- The pointer `ctx_->get_data_memory(i)->ref()`; `0` is the null pointer. -/
  data_memory_of : Int → Nat
  /-- The lookup `gpuModuleGetGlobal(&addr, &tmp, module_, name)`: its status
  and, on success, the address it writes to `addr`. -/
  gpuModuleGetGlobal : Symbol → gpuDrvError × GpuPtr
  /-- The count `comm->get_proxy_channels_num()`. -/
  proxy_channels_num : Int
  /-- The pointer `comm->get_proxy_channels_ref()`. -/
  proxy_channels_ref : Nat
  /-- The size `comm->get_proxy_channels_bytes()`. -/
  proxy_channels_bytes : Nat
  /-- The count `comm->get_sm_channels_num()`. -/
  sm_channels_num : Int
  /-- The pointer `comm->get_sm_channels_ref()`. -/
  sm_channels_ref : Nat
  /-- The size `comm->get_sm_channels_bytes()`. -/
  sm_channels_bytes : Nat

/-- Result of 32-bit two's-complement `int` arithmetic. -/
def int32 (x : Int) : Int := (x + 2147483648) % 4294967296 - 2147483648

/-- A run of statements: the actions performed and, when the run was left by
an exception or a fault, how. -/
abbrev Block := List Event × Option (Outcome Unit)

/-- Sequencing of two runs of statements. -/
def Block.andThen (a b : Block) : Block :=
  match a.2 with
  | some _ => a
  | none => (a.1 ++ b.1, b.2)

/-- Modelled from the spec: the macro `GLOG_DRV` (its header is not part of the
sources) around a lookup, "any other lookup failure is fatal and aborts the
`load()`": a status other than success is raised. -/
def GLOG_DRV (name : Symbol) (r : gpuDrvError) : Block :=
  ([.getGlobal name r], if r = .gpuDrvSuccess then none else some (.DrvError r))

/-- Lines 121-127 of `load()`: the two mandatory lookups, then zeroing the
barrier state and writing the data-buffer pointer. -/
def loadGlobals (c : LoadEnv) : Block :=
  let lss := c.gpuModuleGetGlobal .lss
  let buf := c.gpuModuleGetGlobal .buf
  (GLOG_DRV .lss lss.1).andThen <|
  (GLOG_DRV .buf buf.1).andThen <|
  ([.memcpy_htod (some lss.2) .zeros4,
    .memcpy_htod (some buf.2) (.pointer c.data_memory)], none)

/-- Lines 131-138 and 139-145 of `load()`: the optional barrier state `name`. -/
def loadOptionalLss (c : LoadEnv) (name : Symbol) : Block :=
  let ret := c.gpuModuleGetGlobal name
  if ret.1 = .gpuDrvSuccess then
    ([.getGlobal name ret.1, .memcpy_htod (some ret.2) .zeros4], none)
  else if ret.1 ≠ .gpuErrorNotFound then
    GLOG_DRV name ret.1
  else
    ([.getGlobal name ret.1], none)

/-- Body of the peer loop of `load()` (lines 152-167) for rank `i`. -/
def loadPeer (c : LoadEnv) (i : Int) : List Event :=
  let data_buf_value := c.data_memory_of i
  if data_buf_value = 0 then
    []
  else
    let _e := c.gpuModuleGetGlobal (.data_buf i)
    if _e.1 = .gpuErrorNotFound then
      [.getGlobal (.data_buf i) _e.1]
    else
      -- data_buf_ptr holds an address only if the lookup wrote one
      let data_buf_ptr := if _e.1 = .gpuDrvSuccess then some _e.2 else none
      [.getGlobal (.data_buf i) _e.1,
       .memcpy_htod data_buf_ptr (.pointer data_buf_value)]

/-- The loop `for (int i = ..; i < (nodes_id + 1) * nrph && i < world_size; i++)`
of `load()` continued from `i`, unrolled at most `n` times; `hi` is the value of
`(nodes_id + 1) * nrph`. -/
def loadPeers (c : LoadEnv) (hi : Int) : Nat → Int → List Event
  | 0, _ => []
  | n + 1, i =>
    if i < hi ∧ i < c.world_size then
      loadPeer c i ++ loadPeers c hi n (int32 (i + 1))
    else
      []

/-- Lines 147-168 of `load()`: raw data-buffer pointers of the ranks of this
host. -/
def loadDataBufs (c : LoadEnv) : Block :=
  let nrph := c.num_ranks_per_host
  if nrph = 0 then
    ([], some .divByZero)
  else
    let nodes_id := int32 (Int.tdiv c.gpu_id nrph)
    let lo := int32 (nodes_id * nrph)
    let hi := int32 (int32 (nodes_id + 1) * nrph)
    (loadPeers c hi (hi - lo).toNat lo, none)

/-- Lines 171-179 and 180-188 of `load()`: one channel-descriptor table. -/
def loadChannels (c : LoadEnv) (num : Int) (name : Symbol) (ref bytes : Nat) :
    Block :=
  if num > 0 then
    let channel_addr := c.gpuModuleGetGlobal name
    (GLOG_DRV name channel_addr.1).andThen
      ([.memcpy_htod (some channel_addr.2) (.table ref bytes)], none)
  else
    ([], none)

/-- The method `GpuLoopKernel::load()`. -/
def load (c : LoadEnv) (query : Nat → gpuError) (s : GpuLoopKernel)
    (ws : Ticks) : Ret Unit :=
  if !s.compiled then
    ⟨.InvalidUsageError, s, []⟩
  else if s.stream_ ≠ none then
    wait query s ws
  else
    let b :=
      (loadGlobals c).andThen <|
      (loadOptionalLss c .lss_0).andThen <|
      (loadOptionalLss c .lss_1).andThen <|
      (loadDataBufs c).andThen <|
      (loadChannels c c.proxy_channels_num .proxy_chans
        c.proxy_channels_ref c.proxy_channels_bytes).andThen <|
      (loadChannels c c.sm_channels_num .sm_chans
        c.sm_channels_ref c.sm_channels_bytes)
    ⟨b.2.getD (.ret ()), s, b.1⟩

/-! ## Reachable controller states -/

/-- Controller states reachable from a fresh controller (no stream bound, no
timed run in flight) through the lifecycle calls, however each call ended. -/
inductive Reachable : GpuLoopKernel → Prop where
  | init (s : GpuLoopKernel) :
      s.stream_ = none → s.is_recording_ = false → Reachable s
  | load (c : LoadEnv) (query : Nat → gpuError) (ws : Ticks) {s : GpuLoopKernel} :
      Reachable s → Reachable (load c query s ws).st
  | launch (stream : Stream) (disable_timing : Bool) {s : GpuLoopKernel} :
      Reachable s → Reachable (launch stream disable_timing s).st
  | run (iter : Int) (ws : Ticks) {s : GpuLoopKernel} :
      Reachable s → Reachable (run iter s ws).st
  | poll {s : GpuLoopKernel} : Reachable s → Reachable (poll s).st
  | wait (query : Nat → gpuError) (ws : Ticks) {s : GpuLoopKernel} :
      Reachable s → Reachable (wait query s ws).st
  | stop (query : Nat → gpuError) (interval : Msec) (ws : Ticks)
      {s : GpuLoopKernel} :
      Reachable s → Reachable (stop query interval s ws).st
  | get_elapsed_msec {s : GpuLoopKernel} :
      Reachable s → Reachable (get_elapsed_msec s).st

/-! ## Vocabulary of the statements -/

/-- The values successive loads of a cell holding `flag` return over a window. -/
def loadsOf : Ticks → Int → List Int
  | [], _ => []
  | w :: ws, flag => w.getD flag :: loadsOf ws (w.getD flag)

/-- A controller that was launched on stream `1`, stopped, and now holds the
stop sentinel. -/
def stopped : GpuLoopKernel := ⟨true, -1, none, false, -1⟩

/-- A controller running on stream `1` with a batch of three in flight. -/
def busy : GpuLoopKernel := ⟨true, 3, some 1, true, -1⟩

/-- Invariant of the controller: a bound stream means the kernel is compiled
and the stored interval is the `-1` that `launch` wrote, and a timed run is in
flight only while a stream is bound. -/
def Inv (s : GpuLoopKernel) : Prop :=
  (s.stream_ ≠ none → s.compiled = true ∧ s.elapsed_msec_ = -1) ∧
  (s.is_recording_ = true → s.stream_ ≠ none)

/-- Put a list of earlier actions in front of the actions of a result. -/
def Ret.afterAll {α : Type} (es : List Event) (r : Ret α) : Ret α :=
  { r with ev := es ++ r.ev }

/-- Content of a cell holding `flag` after the stores of a window. -/
def flagAfter : Ticks → Int → Int
  | [], flag => flag
  | w :: ws, flag => flagAfter ws (w.getD flag)

/-- A window of 9,999,999 entries over which the device leaves the flag alone. -/
def quietWindow : Ticks := List.replicate 9999999 none

/-- A compiled controller on which nothing was called yet. -/
def fresh : GpuLoopKernel := ⟨true, 0, none, false, -1⟩

/-- A controller after a timed run on stream `1` whose `stop()` measured an
interval of 42. -/
def measured : GpuLoopKernel := ⟨true, -1, none, false, 42⟩

/-- Controller states between a call and the following `stop()`: those
reached from `s0` through calls other than `stop`, however each call ended. -/
inductive BeforeStop (s0 : GpuLoopKernel) : GpuLoopKernel → Prop where
  | start : BeforeStop s0 s0
  | load (c : LoadEnv) (query : Nat → gpuError) (ws : Ticks) {s : GpuLoopKernel} :
      BeforeStop s0 s → BeforeStop s0 (load c query s ws).st
  | launch (stream : Stream) (disable_timing : Bool) {s : GpuLoopKernel} :
      BeforeStop s0 s → BeforeStop s0 (launch stream disable_timing s).st
  | run (iter : Int) (ws : Ticks) {s : GpuLoopKernel} :
      BeforeStop s0 s → BeforeStop s0 (run iter s ws).st
  | poll {s : GpuLoopKernel} : BeforeStop s0 s → BeforeStop s0 (poll s).st
  | wait (query : Nat → gpuError) (ws : Ticks) {s : GpuLoopKernel} :
      BeforeStop s0 s → BeforeStop s0 (wait query s ws).st
  | get_elapsed_msec {s : GpuLoopKernel} :
      BeforeStop s0 s → BeforeStop s0 (get_elapsed_msec s).st

/-- Whether an action writes device memory. -/
def Event.isDeviceWrite : Event → Bool
  | .memcpy_htod _ _ => true
  | _ => false

/-- Whether an action is a symbol lookup. -/
def Event.isLookup : Event → Bool
  | .getGlobal _ _ => true
  | _ => false

/-- Whether an action is the lookup or the copy of a channel-descriptor
table. -/
def Event.isChannel : Event → Bool
  | .getGlobal .proxy_chans _ => true
  | .getGlobal .sm_chans _ => true
  | .memcpy_htod _ (.table _ _) => true
  | _ => false

/-- Rank 3 of four ranks, two per host.  Rank 2 has a data buffer at 202 and
rank 3 one at 203; the module has every symbol but the second barrier state
and the slot of rank 2; one proxy channel, no SM channel. -/
def healthyEnv : LoadEnv where
  num_ranks_per_host := 2
  gpu_id := 3
  world_size := 4
  data_memory := 203
  data_memory_of := fun i => if i = 2 then 202 else if i = 3 then 203 else 0
  gpuModuleGetGlobal := fun name =>
    match name with
    | .lss => (.gpuDrvSuccess, 10)
    | .buf => (.gpuDrvSuccess, 20)
    | .lss_0 => (.gpuDrvSuccess, 30)
    | .data_buf 3 => (.gpuDrvSuccess, 73)
    | .proxy_chans => (.gpuDrvSuccess, 80)
    | .sm_chans => (.gpuDrvSuccess, 90)
    | _ => (.gpuErrorNotFound, 0)
  proxy_channels_num := 1
  proxy_channels_ref := 900
  proxy_channels_bytes := 64
  sm_channels_num := 0
  sm_channels_ref := 901
  sm_channels_bytes := 0

/-- The environment `healthyEnv` in which the lookup of the slot of rank 3
fails with a driver status 700, which is neither success nor not-found. -/
def faultyEnv : LoadEnv :=
  { healthyEnv with
    gpuModuleGetGlobal := fun name =>
      match name with
      | .data_buf 3 => (.other 700, 0)
      | _ => healthyEnv.gpuModuleGetGlobal name }

/-- First rank of the host of this device: `nodes_id * nrph` with
`nodes_id = gpu_id / nrph`. -/
def hostFirst (c : LoadEnv) : Int :=
  Int.tdiv c.gpu_id c.num_ranks_per_host * c.num_ranks_per_host

/-- The ranks from `hostFirst` up to, and not including, the smaller of
`hostFirst + nrph` and the world size, in increasing order. -/
def peerRanks (c : LoadEnv) : List Int :=
  (List.range
    (min (hostFirst c + c.num_ranks_per_host) c.world_size - hostFirst c).toNat).map
    (fun (j : Nat) => hostFirst c + (j : Int))

/-- The statements of `load()` after its two guards (lines 116-188), in
program order. -/
def loadBlocks (c : LoadEnv) : Block :=
  (loadGlobals c).andThen <|
  (loadOptionalLss c .lss_0).andThen <|
  (loadOptionalLss c .lss_1).andThen <|
  (loadDataBufs c).andThen <|
  (loadChannels c c.proxy_channels_num .proxy_chans
    c.proxy_channels_ref c.proxy_channels_bytes).andThen <|
  (loadChannels c c.sm_channels_num .sm_chans
    c.sm_channels_ref c.sm_channels_bytes)

/-! ## Operations (`ops/ops_common.cc`) -/

/-- The tag `OpArgType` of an operation argument. -/
inductive OpArgType where
  | OP_ARG_INT
  | OP_ARG_INT64
  | OP_ARG_UINT64
  | OP_ARG_BOOL
  | OP_ARG_FLOAT
  deriving DecidableEq, Repr

/-- Modelled from the spec: the values of the enumerators of `OpArgType`,
whose declaration is in a header outside the sources; they are numbered in
the order in which the source lists them in its constructors and switches. -/
def OpArgType.code : OpArgType → Int
  | .OP_ARG_INT => 0
  | .OP_ARG_INT64 => 1
  | .OP_ARG_UINT64 => 2
  | .OP_ARG_BOOL => 3
  | .OP_ARG_FLOAT => 4

/-- The comparisons `==` and `<` of the machine on `float` values, which are
carried as their bit patterns. -/
structure FloatCmp where
  eq : Nat → Nat → Bool
  lt : Nat → Nat → Bool

/-- The class `OpArg`: a tag and a value of the tagged type. -/
inductive OpArg where
  /-- Built by `OpArg(int arg)`. -/
  | int (val : Int)
  /-- Built by `OpArg(DimType arg)`. -/
  | int64 (val : Int)
  /-- Built by `OpArg(uint64_t arg)`. -/
  | uint64 (val : Nat)
  /-- Built by `OpArg(bool arg)`. -/
  | bool (val : Bool)
  /-- Built by `OpArg(float arg)`. -/
  | float (val : Nat)
  deriving DecidableEq, Repr

/-- The member `type` of an `OpArg`. -/
def OpArg.type : OpArg → OpArgType
  | .int _ => .OP_ARG_INT
  | .int64 _ => .OP_ARG_INT64
  | .uint64 _ => .OP_ARG_UINT64
  | .bool _ => .OP_ARG_BOOL
  | .float _ => .OP_ARG_FLOAT

/-- The function `operator<(const OpArg &, const OpArg &)`. -/
def OpArg.lt (fc : FloatCmp) (oa1 oa2 : OpArg) : Bool :=
  if oa1.type ≠ oa2.type then
    decide (oa1.type.code < oa2.type.code)
  else
    match oa1, oa2 with
    | .int a, .int b => decide (a < b)
    | .int64 a, .int64 b => decide (a < b)
    | .uint64 a, .uint64 b => decide (a < b)
    | .bool a, .bool b => !a && b
    | .float a, .float b => fc.lt a b
    | _, _ => false

/-- The function `operator==(const OpArg &, const OpArg &)`. -/
def OpArg.eq (fc : FloatCmp) (oa1 oa2 : OpArg) : Bool :=
  if oa1.type ≠ oa2.type then
    false
  else
    match oa1, oa2 with
    | .int a, .int b => decide (a = b)
    | .int64 a, .int64 b => decide (a = b)
    | .uint64 a, .uint64 b => decide (a = b)
    | .bool a, .bool b => decide (a = b)
    | .float a, .float b => fc.eq a b
    | _, _ => false

/-- The class `Op` of `ops_common.cc`; `type` and `prec_type` are the values
of their enumerators, the dependencies are tensor addresses. -/
structure Op where
  type : Int
  prec_type : Int
  in_deps : List Nat
  out_deps : List Nat
  args : List OpArg
  name : String
  gran_lev : Int

/-- The loop `for (i = 0; i < op1.args.size(); ++i)` of `operator<` on the
arguments still to compare; `none` is a read of `op2.args[i]` past its end. -/
def Op.argsLt (fc : FloatCmp) : List OpArg → List OpArg → Option Bool
  | [], _ => some false
  | _ :: _, [] => none
  | a :: as, b :: bs =>
    if OpArg.eq fc a b then Op.argsLt fc as bs else some (OpArg.lt fc a b)

/-- The loop `for (i = 0; i < op1.args.size(); ++i)` of `operator==` on the
arguments still to compare; `none` is a read of `op2.args[i]` past its end. -/
def Op.argsEq (fc : FloatCmp) : List OpArg → List OpArg → Option Bool
  | [], _ => some true
  | _ :: _, [] => none
  | a :: as, b :: bs =>
    if OpArg.eq fc a b then Op.argsEq fc as bs else some false

/-- The function `operator<(const Op &, const Op &)`. -/
def Op.lt (fc : FloatCmp) (op1 op2 : Op) : Option Bool :=
  if op1.type ≠ op2.type then
    some (decide (op1.type < op2.type))
  else if op1.prec_type ≠ op2.prec_type then
    some (decide (op1.prec_type < op2.prec_type))
  else
    Op.argsLt fc op1.args op2.args

/-- The function `operator==(const Op &, const Op &)`. -/
def Op.eq (fc : FloatCmp) (op1 op2 : Op) : Option Bool :=
  if op1.type ≠ op2.type then
    some false
  else if op1.prec_type ≠ op2.prec_type then
    some false
  else
    Op.argsEq fc op1.args op2.args

/-! ## Scheduling records (`sched/sched_opseq.h`) -/

/-- Modelled from the spec: the class `SchedOp`, declared outside the sources:
one entry of "an ordered list of (operation, resolved config) pairs", with
what the config resolves to for the operation: warp count, shared-memory
bytes, the tile-dimension triple and the (rows, cols) dims. -/
structure SchedOp where
  op : Op
  num_warps : Nat
  smem_bytes : Nat
  tdims : Int × Int × Int
  fdims : Int × Int

/-- The class `SchedOpSeq`; `tdims` is the `std::array<int, 3>`. -/
structure SchedOpSeq where
  id : Int
  seq : List SchedOp
  seq_fdims : List (Int × Int)
  num_warps : Nat
  smem_bytes : Nat
  tdims : Int × Int × Int

/-- The method `is_virtual()`. -/
def SchedOpSeq.is_virtual (s : SchedOpSeq) : Bool := s.num_warps == 0

/-- The method `get_tdims_size()`: `tdims[0] * tdims[1] * tdims[2]` in `int`. -/
def SchedOpSeq.get_tdims_size (s : SchedOpSeq) : Int :=
  int32 (int32 (s.tdims.1 * s.tdims.2.1) * s.tdims.2.2)

/-- The method `get_tdim_x()`: `tdims[2]`. -/
def SchedOpSeq.get_tdim_x (s : SchedOpSeq) : Int := s.tdims.2.2

/-- The method `get_tdim_y()`: `tdims[1]`. -/
def SchedOpSeq.get_tdim_y (s : SchedOpSeq) : Int := s.tdims.2.1

/-- The method `get_tdim_z()`: `tdims[0]`. -/
def SchedOpSeq.get_tdim_z (s : SchedOpSeq) : Int := s.tdims.1

/-- The method `get_tdim_xz()`: `tdims[0] * tdims[2]` in `int`. -/
def SchedOpSeq.get_tdim_xz (s : SchedOpSeq) : Int :=
  int32 (s.tdims.1 * s.tdims.2.2)

/-- The struct `Sched`; `opseq = none` is the null pointer (a global sync). -/
structure Sched where
  opseq : Option Nat
  sm_b : Int
  sm_e : Int
  th_b : Int
  th_e : Int
  alpha : Int
  beta : Int
  deriving DecidableEq, Repr

/-- Modelled from the spec: whether an assignment applies to a thread of a
unit; the code that reads a `Sched` is outside the sources.  The assignment
is "a binding ... to a half-open hardware-unit range `[unit_b, unit_e)`, a
half-open thread range `[th_b, th_e)`"; the struct's own comment reads
`if (sm_b <= blockIdx.x < sm_e) and (th_b <= threadIdx.x < th_e)`. -/
def Sched.active (s : Sched) (blockIdx threadIdx : Int) : Bool :=
  decide (s.sm_b ≤ blockIdx ∧ blockIdx < s.sm_e ∧
    s.th_b ≤ threadIdx ∧ threadIdx < s.th_e)

/-- Modelled from the spec: the tile instance a unit serves; the code that
reads a `Sched` is outside the sources.  "The logical tile instance served by
unit `u` is `alpha*(u-unit_b)+beta`"; the struct's own comment reads
`do run opseq(alpha * (blockIdx.x - sm_b) + beta)`.  Taken in `int`. -/
def Sched.tile (s : Sched) (blockIdx : Int) : Int :=
  int32 (int32 (s.alpha * int32 (blockIdx - s.sm_b)) + s.beta)

/-! ## Reductions (`ops/ops_reduce.cc`) -/

/-- The operation types the reduction constructors pass to `ReduceOp`. -/
inductive ReduceOpType where
  | OP_REDUCE_E_SUM
  | OP_REDUCE_E_MEAN
  | OP_REDUCE_E_MAX
  | OP_REDUCE_W_SUM
  | OP_REDUCE_W_MEAN
  | OP_REDUCE_W_MAX
  deriving DecidableEq, Repr

/-- A reduction operation as its constructor leaves it: the type, the number
of dimensions of the shape of `inputs[0]`, and the argument `axis`. -/
structure ReduceOp where
  type : ReduceOpType
  input_ndims : Int
  axis : Int
  deriving DecidableEq, Repr

/-- The string each `function_name(cfg)` override passes on as `type`. -/
def ReduceOp.type_str (op : ReduceOp) : List Char :=
  match op.type with
  | .OP_REDUCE_W_SUM => ['w', '_', 's', 'u', 'm']
  | .OP_REDUCE_E_SUM => ['e', '_', 's', 'u', 'm']
  | .OP_REDUCE_W_MAX => ['w', '_', 'm', 'a', 'x']
  | .OP_REDUCE_E_MAX => ['e', '_', 'm', 'a', 'x']
  | .OP_REDUCE_W_MEAN => ['w', '_', 'm', 'e', 'a', 'n']
  | .OP_REDUCE_E_MEAN => ['e', '_', 'm', 'e', 'a', 'n']

/-- Lines 39-49 of `ReduceOp::function_name`: the axis translated into the 4-D
representation, or `none` when `CHECK(axis == 3)` fails. -/
def ReduceOp.function_name_axis (op : ReduceOp) : Option Int :=
  let axis := int32 (op.axis + int32 (4 - op.input_ndims))
  if op.type_str.head? = some 'w' then
    if axis = 3 then some axis else none
  else
    some axis

/-- The method `Model::reduce_sum`, as the operation it creates; `ndims` is
`input->shape.ndims()`. -/
def Model.reduce_sum (ndims axis : Int) : ReduceOp :=
  if axis = int32 (ndims - 1) then
    ⟨.OP_REDUCE_W_SUM, ndims, axis⟩
  else
    ⟨.OP_REDUCE_E_SUM, ndims, axis⟩

/-- The method `Model::reduce_mean`, as the operation it creates. -/
def Model.reduce_mean (ndims axis : Int) : ReduceOp :=
  if axis = int32 (ndims - 1) then
    ⟨.OP_REDUCE_W_MEAN, ndims, axis⟩
  else
    ⟨.OP_REDUCE_E_MEAN, ndims, axis⟩

/-- The method `Model::reduce_max`, as the operation it creates. -/
def Model.reduce_max (ndims axis : Int) : ReduceOp :=
  if axis = int32 (ndims - 1) then
    ⟨.OP_REDUCE_W_MAX, ndims, axis⟩
  else
    ⟨.OP_REDUCE_E_MAX, ndims, axis⟩

/-! ## Send and receive (`ops/ops_sendrecv.cc`) -/

/-- The operation types `Model::send` and `Model::recv` create. -/
inductive SendRecvType where
  | OP_SEND
  | OP_RECV
  deriving DecidableEq, Repr

/-- What `create_op` is called with by `Model::send` and `Model::recv`: the
type and the arguments `{id, gpu, bytes}`. -/
structure SendRecvOp where
  type : SendRecvType
  id : Int
  gpu : Int
  bytes : Nat
  deriving DecidableEq, Repr

/-- Modelled from the spec: the method `Tensor::ldims_bytes()`, declared
outside the sources: the size in bytes of the tensor's buffer, the number of
elements of its leading dimensions times the size of an element. -/
def ldims_bytes (ldims : List Nat) (elem_bytes : Nat) : Nat :=
  ldims.prod * elem_bytes

/-- Modelled from the spec: the macro `LOGERR`, from a header outside the
sources: it logs the message and raises, so the call "reports an error". -/
def LOGERR {α : Type} : Option α := none

/-- The method `Model::send`; `max_bytes` is `input->ldims_bytes()`. -/
def Model.send (max_bytes : Nat) (id gpu_dst : Int) (bytes : Nat) :
    Option SendRecvOp :=
  if max_bytes < bytes then
    LOGERR
  else
    let bytes := if bytes = 0 then max_bytes else bytes
    some ⟨.OP_SEND, id, gpu_dst, bytes⟩

/-- The method `Model::recv`; `max_bytes` is `input->ldims_bytes()`. -/
def Model.recv (max_bytes : Nat) (id gpu_src : Int) (bytes : Nat) :
    Option SendRecvOp :=
  if max_bytes < bytes then
    LOGERR
  else
    let bytes := if bytes = 0 then max_bytes else bytes
    some ⟨.OP_RECV, id, gpu_src, bytes⟩

/-! ## The GELU kernel (`include/kernels/activation.h`) -/

/-- The constants `N`, `C`, `H`, `W` of a dimension type such as `InDims`. -/
structure Vec where
  N : Int
  C : Int
  H : Int
  W : Int
  deriving DecidableEq, Repr

/-- The offset `Gelu<InDims, OutDims>::compute` adds to `out` (lines 16-17). -/
def Gelu.out_offset (_InDims OutDims : Vec) (idx_n idx_c idx_h idx_w : Int) : Int :=
  idx_n * OutDims.C * OutDims.H * OutDims.W +
    idx_c * OutDims.H * OutDims.W + idx_h * OutDims.W + idx_w

/-- The offset `Gelu<InDims, OutDims>::compute` adds to `in` (lines 19-20). -/
def Gelu.in_offset (_InDims OutDims : Vec) (idx_n idx_c idx_h idx_w : Int) : Int :=
  idx_n * OutDims.C * OutDims.H * OutDims.W +
    idx_c * OutDims.H * OutDims.W + idx_h * OutDims.W + idx_w

/-- Row-major element offset of `(n, c, h, w)` in a tensor with the leading
dimensions `d`. -/
def rowMajor (d : Vec) (n c h w : Int) : Int :=
  ((n * d.C + c) * d.H + h) * d.W + w

/-! ## GEMM configurations (`include/kernels/gemm_cutlass.h`) -/

/-- The architecture tags `cutlass::arch::Sm..`. -/
inductive ArchTag where
  | Sm60
  | Sm70
  | Sm80
  | Sm90
  deriving DecidableEq, Repr

/-- The element types of the specializations. -/
inductive Element where
  | half_t
  | bfloat16_t
  | float
  deriving DecidableEq, Repr

/-- The type `cutlass::gemm::GemmShape<M, N, K>`. -/
structure GemmShape where
  M : Nat
  N : Nat
  K : Nat
  deriving DecidableEq, Repr

/-- The template arguments of `cutlass::gemm::device::Gemm` that vary between
the specializations: operand element types, output and accumulator element
types, architecture tag, threadblock, warp and instruction shapes, stages. -/
structure Gemm where
  ElementA : Element
  ElementB : Element
  ElementOutput : Element
  ElementAccumulator : Element
  ArchTag : ArchTag
  ThreadblockShape : GemmShape
  WarpShape : GemmShape
  InstructionShape : GemmShape
  Stages : Nat
  deriving DecidableEq, Repr

/-- One partial specialization of `GemmConfiguration`: the source line of its
`struct`, its key (architecture tag, element types of A, B and C, shape) and
the `Gemm` it defines. -/
structure GemmConfiguration where
  line : Nat
  ArchTag : ArchTag
  ElementA : Element
  ElementB : Element
  ElementC : Element
  Shape : GemmShape
  Gemm : Gemm
  deriving DecidableEq, Repr

/-- The specializations of `GemmConfiguration` the header compiles, in source
order (the three for `Sm90` stand between `#if 0` and `#endif`). -/
def GemmConfigurations : List GemmConfiguration :=
  [⟨58, .Sm70, .half_t, .half_t, .half_t, ⟨128, 256, 32⟩,
    ⟨.half_t, .half_t, .half_t, .half_t, .Sm80, ⟨128, 256, 32⟩, ⟨64, 64, 32⟩, ⟨8, 8, 4⟩, 2⟩⟩,
  ⟨81, .Sm80, .half_t, .half_t, .half_t, ⟨128, 256, 64⟩,
    ⟨.half_t, .half_t, .half_t, .half_t, .Sm80, ⟨128, 256, 64⟩, ⟨64, 64, 64⟩, ⟨16, 8, 16⟩, 3⟩⟩,
  ⟨101, .Sm80, .half_t, .half_t, .half_t, ⟨256, 128, 64⟩,
    ⟨.half_t, .half_t, .half_t, .half_t, .Sm80, ⟨256, 128, 64⟩, ⟨64, 64, 64⟩, ⟨16, 8, 16⟩, 3⟩⟩,
  ⟨121, .Sm80, .half_t, .half_t, .half_t, ⟨128, 128, 64⟩,
    ⟨.half_t, .half_t, .half_t, .half_t, .Sm80, ⟨128, 128, 64⟩, ⟨64, 64, 64⟩, ⟨16, 8, 16⟩, 3⟩⟩,
  ⟨141, .Sm80, .half_t, .half_t, .half_t, ⟨256, 64, 64⟩,
    ⟨.half_t, .half_t, .half_t, .half_t, .Sm80, ⟨256, 64, 64⟩, ⟨64, 64, 64⟩, ⟨16, 8, 16⟩, 3⟩⟩,
  ⟨161, .Sm80, .half_t, .half_t, .half_t, ⟨64, 256, 64⟩,
    ⟨.half_t, .half_t, .half_t, .half_t, .Sm80, ⟨64, 256, 64⟩, ⟨64, 64, 64⟩, ⟨16, 8, 16⟩, 3⟩⟩,
  ⟨181, .Sm80, .half_t, .half_t, .half_t, ⟨64, 128, 64⟩,
    ⟨.half_t, .half_t, .half_t, .half_t, .Sm80, ⟨64, 128, 64⟩, ⟨32, 64, 64⟩, ⟨16, 8, 16⟩, 4⟩⟩,
  ⟨201, .Sm80, .half_t, .half_t, .half_t, ⟨128, 64, 64⟩,
    ⟨.half_t, .half_t, .half_t, .half_t, .Sm80, ⟨128, 64, 64⟩, ⟨64, 32, 64⟩, ⟨16, 8, 16⟩, 4⟩⟩,
  ⟨221, .Sm80, .half_t, .half_t, .half_t, ⟨64, 64, 64⟩,
    ⟨.half_t, .half_t, .half_t, .half_t, .Sm80, ⟨64, 64, 64⟩, ⟨32, 32, 64⟩, ⟨16, 8, 16⟩, 6⟩⟩,
  ⟨241, .Sm80, .half_t, .half_t, .half_t, ⟨128, 256, 32⟩,
    ⟨.half_t, .half_t, .half_t, .half_t, .Sm80, ⟨128, 256, 32⟩, ⟨64, 64, 32⟩, ⟨16, 8, 16⟩, 3⟩⟩,
  ⟨261, .Sm80, .half_t, .half_t, .half_t, ⟨256, 128, 32⟩,
    ⟨.half_t, .half_t, .half_t, .half_t, .Sm80, ⟨256, 128, 32⟩, ⟨64, 64, 32⟩, ⟨16, 8, 16⟩, 3⟩⟩,
  ⟨281, .Sm80, .half_t, .half_t, .half_t, ⟨128, 128, 32⟩,
    ⟨.half_t, .half_t, .half_t, .half_t, .Sm80, ⟨128, 128, 32⟩, ⟨64, 64, 32⟩, ⟨16, 8, 16⟩, 4⟩⟩,
  ⟨301, .Sm80, .half_t, .half_t, .half_t, ⟨256, 64, 32⟩,
    ⟨.half_t, .half_t, .half_t, .half_t, .Sm80, ⟨256, 64, 32⟩, ⟨64, 64, 32⟩, ⟨16, 8, 16⟩, 4⟩⟩,
  ⟨321, .Sm80, .half_t, .half_t, .half_t, ⟨64, 256, 32⟩,
    ⟨.half_t, .half_t, .half_t, .half_t, .Sm80, ⟨64, 256, 32⟩, ⟨64, 64, 32⟩, ⟨16, 8, 16⟩, 4⟩⟩,
  ⟨341, .Sm80, .half_t, .half_t, .half_t, ⟨64, 128, 32⟩,
    ⟨.half_t, .half_t, .half_t, .half_t, .Sm80, ⟨64, 128, 32⟩, ⟨32, 64, 32⟩, ⟨16, 8, 16⟩, 6⟩⟩,
  ⟨361, .Sm80, .half_t, .half_t, .half_t, ⟨128, 64, 32⟩,
    ⟨.half_t, .half_t, .half_t, .half_t, .Sm80, ⟨128, 64, 32⟩, ⟨64, 32, 32⟩, ⟨16, 8, 16⟩, 6⟩⟩,
  ⟨381, .Sm80, .half_t, .half_t, .half_t, ⟨64, 64, 32⟩,
    ⟨.half_t, .half_t, .half_t, .half_t, .Sm80, ⟨64, 64, 32⟩, ⟨32, 32, 32⟩, ⟨16, 8, 16⟩, 10⟩⟩,
  ⟨405, .Sm80, .bfloat16_t, .bfloat16_t, .bfloat16_t, ⟨128, 256, 64⟩,
    ⟨.bfloat16_t, .bfloat16_t, .bfloat16_t, .float, .Sm80, ⟨128, 256, 64⟩, ⟨64, 64, 64⟩, ⟨16, 8, 16⟩, 3⟩⟩,
  ⟨426, .Sm80, .bfloat16_t, .bfloat16_t, .bfloat16_t, ⟨256, 128, 64⟩,
    ⟨.bfloat16_t, .bfloat16_t, .bfloat16_t, .float, .Sm80, ⟨256, 128, 64⟩, ⟨64, 64, 64⟩, ⟨16, 8, 16⟩, 3⟩⟩,
  ⟨447, .Sm80, .bfloat16_t, .bfloat16_t, .bfloat16_t, ⟨128, 128, 64⟩,
    ⟨.bfloat16_t, .bfloat16_t, .bfloat16_t, .float, .Sm80, ⟨128, 128, 64⟩, ⟨64, 64, 64⟩, ⟨16, 8, 16⟩, 3⟩⟩,
  ⟨468, .Sm80, .bfloat16_t, .bfloat16_t, .bfloat16_t, ⟨256, 64, 64⟩,
    ⟨.bfloat16_t, .bfloat16_t, .bfloat16_t, .float, .Sm80, ⟨256, 64, 64⟩, ⟨64, 64, 64⟩, ⟨16, 8, 16⟩, 3⟩⟩,
  ⟨489, .Sm80, .bfloat16_t, .bfloat16_t, .bfloat16_t, ⟨64, 256, 64⟩,
    ⟨.bfloat16_t, .bfloat16_t, .bfloat16_t, .float, .Sm80, ⟨64, 256, 64⟩, ⟨64, 64, 64⟩, ⟨16, 8, 16⟩, 3⟩⟩,
  ⟨510, .Sm80, .bfloat16_t, .bfloat16_t, .bfloat16_t, ⟨64, 128, 64⟩,
    ⟨.bfloat16_t, .bfloat16_t, .bfloat16_t, .float, .Sm80, ⟨64, 128, 64⟩, ⟨32, 64, 64⟩, ⟨16, 8, 16⟩, 4⟩⟩,
  ⟨531, .Sm80, .bfloat16_t, .bfloat16_t, .bfloat16_t, ⟨128, 64, 64⟩,
    ⟨.bfloat16_t, .bfloat16_t, .bfloat16_t, .float, .Sm80, ⟨128, 64, 64⟩, ⟨64, 32, 64⟩, ⟨16, 8, 16⟩, 4⟩⟩,
  ⟨552, .Sm80, .bfloat16_t, .bfloat16_t, .bfloat16_t, ⟨64, 64, 64⟩,
    ⟨.bfloat16_t, .bfloat16_t, .bfloat16_t, .float, .Sm80, ⟨64, 64, 64⟩, ⟨32, 32, 64⟩, ⟨16, 8, 16⟩, 6⟩⟩,
  ⟨573, .Sm80, .bfloat16_t, .bfloat16_t, .bfloat16_t, ⟨128, 256, 32⟩,
    ⟨.bfloat16_t, .bfloat16_t, .bfloat16_t, .float, .Sm80, ⟨128, 256, 32⟩, ⟨64, 64, 32⟩, ⟨16, 8, 16⟩, 3⟩⟩,
  ⟨594, .Sm80, .bfloat16_t, .bfloat16_t, .bfloat16_t, ⟨256, 128, 32⟩,
    ⟨.bfloat16_t, .bfloat16_t, .bfloat16_t, .float, .Sm80, ⟨256, 128, 32⟩, ⟨64, 64, 32⟩, ⟨16, 8, 16⟩, 3⟩⟩,
  ⟨615, .Sm80, .bfloat16_t, .bfloat16_t, .bfloat16_t, ⟨128, 128, 32⟩,
    ⟨.bfloat16_t, .bfloat16_t, .bfloat16_t, .float, .Sm80, ⟨128, 128, 32⟩, ⟨64, 64, 32⟩, ⟨16, 8, 16⟩, 4⟩⟩,
  ⟨636, .Sm80, .bfloat16_t, .bfloat16_t, .bfloat16_t, ⟨256, 64, 32⟩,
    ⟨.bfloat16_t, .bfloat16_t, .bfloat16_t, .float, .Sm80, ⟨256, 64, 32⟩, ⟨64, 64, 32⟩, ⟨16, 8, 16⟩, 4⟩⟩,
  ⟨657, .Sm80, .bfloat16_t, .bfloat16_t, .bfloat16_t, ⟨64, 256, 32⟩,
    ⟨.bfloat16_t, .bfloat16_t, .bfloat16_t, .float, .Sm80, ⟨64, 256, 32⟩, ⟨64, 64, 32⟩, ⟨16, 8, 16⟩, 4⟩⟩,
  ⟨678, .Sm80, .bfloat16_t, .bfloat16_t, .bfloat16_t, ⟨64, 128, 32⟩,
    ⟨.bfloat16_t, .bfloat16_t, .bfloat16_t, .float, .Sm80, ⟨64, 128, 32⟩, ⟨32, 64, 32⟩, ⟨16, 8, 16⟩, 6⟩⟩,
  ⟨699, .Sm80, .bfloat16_t, .bfloat16_t, .bfloat16_t, ⟨128, 64, 32⟩,
    ⟨.bfloat16_t, .bfloat16_t, .bfloat16_t, .float, .Sm80, ⟨128, 64, 32⟩, ⟨64, 32, 32⟩, ⟨16, 8, 16⟩, 6⟩⟩,
  ⟨720, .Sm80, .bfloat16_t, .bfloat16_t, .bfloat16_t, ⟨64, 64, 32⟩,
    ⟨.half_t, .half_t, .bfloat16_t, .float, .Sm80, ⟨64, 64, 32⟩, ⟨32, 32, 32⟩, ⟨16, 8, 16⟩, 10⟩⟩,
  ⟨744, .Sm80, .float, .float, .float, ⟨128, 256, 32⟩,
    ⟨.float, .float, .float, .float, .Sm80, ⟨128, 256, 32⟩, ⟨64, 64, 32⟩, ⟨16, 8, 8⟩, 3⟩⟩,
  ⟨763, .Sm80, .float, .float, .float, ⟨128, 128, 32⟩,
    ⟨.float, .float, .float, .float, .Sm80, ⟨128, 128, 32⟩, ⟨64, 64, 32⟩, ⟨16, 8, 8⟩, 3⟩⟩,
  ⟨782, .Sm80, .float, .float, .float, ⟨64, 64, 32⟩,
    ⟨.float, .float, .float, .float, .Sm80, ⟨64, 64, 32⟩, ⟨32, 32, 32⟩, ⟨16, 8, 8⟩, 3⟩⟩]

/-- Whether the `Gemm` of a specialization has the operand element types, the
architecture tag and the threadblock shape of the specialization's key. -/
def GemmConfiguration.matchesKey (c : GemmConfiguration) : Bool :=
  decide (c.Gemm.ElementA = c.ElementA ∧ c.Gemm.ElementB = c.ElementB ∧
    c.Gemm.ArchTag = c.ArchTag ∧ c.Gemm.ThreadblockShape = c.Shape)

/-! ## Operations and operation sequences: vocabulary -/

/-- Spec side of the order of arguments: "ordered first by argument type and
then by value": the code of the type, then the value as an integer. -/
def OpArg.key : OpArg → Int × Int
  | .int v => (OpArgType.OP_ARG_INT.code, v)
  | .int64 v => (OpArgType.OP_ARG_INT64.code, v)
  | .uint64 v => (OpArgType.OP_ARG_UINT64.code, (v : Int))
  | .bool v => (OpArgType.OP_ARG_BOOL.code, if v then 1 else 0)
  | .float v => (OpArgType.OP_ARG_FLOAT.code, (v : Int))

/-- Spec side of the order of argument lists: the keys of the arguments laid
out in a row. -/
def OpArg.keys (args : List OpArg) : List Int :=
  args.flatMap (fun x => [x.key.1, x.key.2])

/-- Spec side of the order of operations: the sequence
`(type, precision type, args[0], args[1], ...)`, each argument as its type
and its value. -/
def Op.key (op : Op) : List Int :=
  op.type :: op.prec_type :: OpArg.keys op.args

/-- A stand-in for the comparisons of `float` values, by bit pattern, for
statements in which no `float` argument occurs. -/
def bitwise : FloatCmp := ⟨fun a b => decide (a = b), fun a b => decide (a < b)⟩

/-- An operation of type 14 with the one argument `1`. -/
def opOneArg : Op := ⟨14, 0, [], [], [.int 1], "a", 0⟩

/-- An operation of type 14 with the two arguments `1` and `2`. -/
def opTwoArgs : Op := ⟨14, 0, [], [], [.int 1, .int 2], "b", 0⟩

/-- Modelled from the spec: the comparison of the op lists in `operator==` on
`SchedOpSeq`, with `operator==` on `Op` for each pair of operations. -/
def SchedOpSeq.seqEq (fc : FloatCmp) : List SchedOp → List SchedOp → Option Bool
  | [], [] => some true
  | a :: as, b :: bs =>
    match Op.eq fc a.op b.op with
    | some true => SchedOpSeq.seqEq fc as bs
    | r => r
  | _, _ => some false

/-- Modelled from the spec: the function `operator==` on `SchedOpSeq`, which
the header only declares: "Equality/ordering is by (warp count, shared-mem,
tile dims, op list)". -/
def SchedOpSeq.eq (fc : FloatCmp) (ops1 ops2 : SchedOpSeq) : Option Bool :=
  if ops1.num_warps ≠ ops2.num_warps then
    some false
  else if ops1.smem_bytes ≠ ops2.smem_bytes then
    some false
  else if ops1.tdims ≠ ops2.tdims then
    some false
  else
    SchedOpSeq.seqEq fc ops1.seq ops2.seq

theorem after_res {α : Type} (e : Event) (r : Ret α) : (r.after e).res = r.res := rfl

theorem after_st {α : Type} (e : Event) (r : Ret α) : (r.after e).st = r.st := rfl

theorem after_ev {α : Type} (e : Event) (r : Ret α) : (r.after e).ev = e :: r.ev := rfl

/-- The state `stopped` is reached from a fresh compiled controller by an
untimed launch on stream 1 followed by a stop. -/
theorem stopped_reachable : Reachable stopped :=
  Reachable.stop (fun _ => .gpuSuccess) 0 []
    (Reachable.launch (some 1) true
      (Reachable.init ⟨true, 0, none, false, -1⟩ rfl rfl))

/-- The busy-wait of `run` either is still spinning, having loaded only
positive values, or has stored `iter` right after the first non-positive
load. -/
theorem runLoop_spec (iter : Int) : ∀ (ws : Ticks) (s : GpuLoopKernel),
    ((runLoop iter s ws).res = .spinning ∧
      (∀ v ∈ loadsOf ws s.flag, 0 < v) ∧
      (runLoop iter s ws).ev = (loadsOf ws s.flag).map .atomicLoad) ∨
    ((runLoop iter s ws).res = .ret () ∧
      (runLoop iter s ws).st = { s with flag := iter } ∧
      ∃ pos v rest, loadsOf ws s.flag = pos ++ v :: rest ∧
        (∀ u ∈ pos, 0 < u) ∧ v ≤ 0 ∧
        (runLoop iter s ws).ev
          = pos.map .atomicLoad ++ [.atomicLoad v, .atomicStore iter]) := by
  intro ws
  induction ws with
  | nil => intro s; left; simp [runLoop, loadsOf]
  | cons w ws ih =>
    intro s
    by_cases hv : w.getD s.flag > 0
    · have hstep : runLoop iter s (w :: ws)
          = (runLoop iter { s with flag := w.getD s.flag } ws).after
              (.atomicLoad (w.getD s.flag)) := by
        simp [runLoop, hv]
      rw [hstep]
      rcases ih { s with flag := w.getD s.flag } with ⟨h1, h2, h3⟩ | ⟨h1, h2, pos, v, rest, h3, h4, h5, h6⟩
      · left
        refine ⟨by simpa [after_res] using h1, ?_, ?_⟩
        · intro v hmem
          simp only [loadsOf, List.mem_cons] at hmem
          rcases hmem with rfl | hmem
          · exact hv
          · exact h2 v hmem
        · simp only [after_ev, loadsOf, List.map_cons]
          rw [h3]
      · right
        refine ⟨by simpa [after_res] using h1, ?_, w.getD s.flag :: pos, v, rest, ?_, ?_, h5, ?_⟩
        · rw [after_st, h2]
        · simp only [loadsOf, List.cons_append]
          rw [← h3]
        · intro u hu
          simp only [List.mem_cons] at hu
          rcases hu with rfl | hu
          · exact hv
          · exact h4 u hu
        · simp only [after_ev, List.map_cons, List.cons_append]
          rw [h6]
    · right
      have hstep : runLoop iter s (w :: ws)
          = ⟨.ret (), { s with flag := iter },
              [.atomicLoad (w.getD s.flag), .atomicStore iter]⟩ := by
        simp [runLoop, hv]
      rw [hstep]
      exact ⟨rfl, rfl, [], w.getD s.flag, loadsOf ws (w.getD s.flag), by simp [loadsOf],
        by simp, not_lt.mp hv, by simp⟩

/-- C1 (as amended): for `iter > 0`, `run(iter)` returns exactly when some load
of the flag returns a non-positive value (zero or negative); it then has
loaded only positive values before that load, stores `iter` right after it,
and leaves the flag equal to `iter` and every other field as it was; as long
as it has not returned it has stored nothing. -/
theorem run_stores_after_nonpositive_load (iter : Int) (h : 0 < iter)
    (s : GpuLoopKernel) (ws : Ticks) :
    ((run iter s ws).res = .ret () ↔ ∃ v ∈ loadsOf (none :: ws) s.flag, v ≤ 0) ∧
    ((run iter s ws).res = .ret () →
      (run iter s ws).st = { s with flag := iter } ∧
      ∃ (pos : List Int) (v : Int), (∀ u ∈ pos, 0 < u) ∧ v ≤ 0 ∧
        (run iter s ws).ev
          = pos.map .atomicLoad ++ [.atomicLoad v, .atomicStore iter]) ∧
    ((run iter s ws).res ≠ .ret () →
      ∀ e ∈ (run iter s ws).ev, ∃ u, 0 < u ∧ e = .atomicLoad u) := by
  have hrun : run iter s ws = runLoop iter s (none :: ws) := by simp [run, h]
  rw [hrun]
  rcases runLoop_spec iter (none :: ws) s with ⟨h1, h2, h3⟩ | ⟨h1, h2, pos, v, rest, h3, h4, h5, h6⟩
  · refine ⟨?_, ?_, ?_⟩
    · constructor
      · intro hr; rw [h1] at hr; cases hr
      · rintro ⟨v, hv, hle⟩
        exact absurd (h2 v hv) (not_lt.mpr hle)
    · intro hr; rw [h1] at hr; cases hr
    · intro _ e he
      rw [h3, List.mem_map] at he
      obtain ⟨u, hu, rfl⟩ := he
      exact ⟨u, h2 u hu, rfl⟩
  · refine ⟨?_, ?_, ?_⟩
    · constructor
      · intro _
        exact ⟨v, by rw [h3]; simp, h5⟩
      · intro _; exact h1
    · intro _
      exact ⟨h2, pos, v, h4, h5, h6⟩
    · intro hne; exact absurd h1 hne

/-- Witness for C1: a batch of five published behind a batch of three that the
device drains after one more load. -/
theorem run_stores_after_nonpositive_load_witness :
    (0 : Int) < 5 ∧ (run 5 busy [some 0]).st = { busy with flag := 5 } :=
  ⟨by decide,
    ((run_stores_after_nonpositive_load 5 (by decide) busy [some 0]).2.1
      (by decide)).1⟩

/-- C1 (as stated) fails: on a stopped controller, a state reached by a
launch and a stop, `run(5)` loads the stop sentinel `-1`, never loads zero,
and publishes `5`. -/
theorem run_publishes_after_negative_load :
    Reachable stopped ∧
    (run 5 stopped []).res = .ret () ∧
    (run 5 stopped []).ev = [.atomicLoad (-1), .atomicStore 5] ∧
    (run 5 stopped []).st.flag = 5 :=
  ⟨stopped_reachable, by decide, by decide, by decide⟩

/-- C10: for `iter <= 0`, `run(iter)` returns at once, whatever the device
does to the flag meanwhile: it performs no load and no store and leaves the
whole controller state as it was. -/
theorem run_nonpositive_noop (iter : Int) (h : iter ≤ 0) (s : GpuLoopKernel)
    (ws : Ticks) :
    (run iter s ws).res = .ret () ∧ (run iter s ws).st = s ∧
    (run iter s ws).ev = [] := by
  have hn : ¬ iter > 0 := not_lt.mpr h
  simp [run, hn]

/-- Witness for C10: `run(-1)` on a running controller. -/
theorem run_nonpositive_noop_witness :
    (-1 : Int) ≤ 0 ∧ (run (-1) busy [none, some 0]).st = busy :=
  ⟨by decide, (run_nonpositive_noop (-1) (by decide) busy [none, some 0]).2.1⟩

/-- C9 (as amended): `poll()` returns true exactly when the flag reads zero or
negative and false exactly when it reads positive; it loads the flag once,
stores nothing and leaves the controller state as it was. -/
theorem poll_true_iff_nonpositive (s : GpuLoopKernel) :
    ((poll s).res = .ret true ↔ s.flag ≤ 0) ∧
    ((poll s).res = .ret false ↔ 0 < s.flag) ∧
    (poll s).st = s ∧ (poll s).ev = [.atomicLoad s.flag] := by
  refine ⟨?_, ?_, rfl, rfl⟩
  · simp [poll]
  · simp [poll]

/-- C9 (as stated) fails: on a stopped controller, a state reached by a
launch and a stop, the flag holds the stop sentinel `-1`, which is not zero,
and `poll()` returns true. -/
theorem poll_true_on_stop_sentinel :
    Reachable stopped ∧ stopped.flag ≠ 0 ∧ (poll stopped).res = .ret true :=
  ⟨stopped_reachable, by decide, by decide⟩

/-! ## The emitted device loop: theorems -/

/-- The inner `for` loop, given enough unrolling, calls the body for
`_i, _i + 1, .., _ITER - 1` in this order with a barrier after each call. -/
theorem innerLoop_eq (K : Int) : ∀ (n : Nat) (i : Int), (K - i).toNat ≤ n →
    innerLoop K n i
      = (List.range (K - i).toNat).flatMap
          (fun j => [DevEvent.ark_loop_body (i + j), DevEvent.sync_gpu]) := by
  intro n
  induction n with
  | zero =>
    intro i hn
    have h0 : (K - i).toNat = 0 := Nat.le_zero.mp hn
    simp [innerLoop, h0]
  | succ n ih =>
    intro i hn
    by_cases hlt : i < K
    · have hm : (K - i).toNat = (K - (i + 1)).toNat + 1 := by omega
      have hle : (K - (i + 1)).toNat ≤ n := by omega
      have hstep : innerLoop K (n + 1) i
          = .ark_loop_body i :: .sync_gpu :: innerLoop K n (i + 1) := by
        simp [innerLoop, hlt]
      rw [hstep, ih (i + 1) hle, hm, List.range_succ_eq_map]
      simp only [List.flatMap_cons, List.flatMap_map, Nat.cast_zero, add_zero,
        List.cons_append, List.nil_append, List.singleton_append]
      congr 2
      apply congrArg
      funext j
      simp only [Function.comp, Nat.cast_succ]
      congr 2
      ring
    · have h0 : (K - i).toNat = 0 := by omega
      simp [innerLoop, hlt, h0]

/-- The poll of the designated thread on a counter that reads zero `n` times
and then a nonzero `k` loads exactly these values and ends with `iter = k`. -/
theorem pollIt_of_loads (k : Int) (hk : k ≠ 0) : ∀ (n : Nat) (hs : Ticks) (it : Int)
    (rest : List Int), loadsOf hs it = List.replicate n 0 ++ k :: rest →
    (pollIt hs it).1 = List.replicate n 0 ++ [k] ∧ (pollIt hs it).2.1 = some k := by
  intro n
  induction n with
  | zero =>
    intro hs it rest h
    cases hs with
    | nil => simp [loadsOf] at h
    | cons w ws =>
      simp only [loadsOf, List.replicate_zero, List.nil_append, List.cons.injEq] at h
      simp [pollIt, h.1, hk]
  | succ n ih =>
    intro hs it rest h
    cases hs with
    | nil => simp [loadsOf] at h
    | cons w ws =>
      simp only [loadsOf, List.replicate_succ, List.cons_append, List.cons.injEq] at h
      obtain ⟨h0, hrest⟩ := h
      rw [h0] at hrest
      have := ih ws 0 rest hrest
      simp [pollIt, h0, this.1, this.2, List.replicate_succ]

/-- The poll of the designated thread on a counter that reads zero all
through the window is still polling at its end. -/
theorem pollIt_of_zeros : ∀ (hs : Ticks) (it : Int),
    (∀ v ∈ loadsOf hs it, v = 0) →
    (pollIt hs it).1 = loadsOf hs it ∧ (pollIt hs it).2.1 = none := by
  intro hs
  induction hs with
  | nil => intro it _; simp [pollIt, loadsOf]
  | cons w ws ih =>
    intro it h
    have h0 : w.getD it = 0 := h _ (by simp [loadsOf])
    have hr := ih (w.getD it) (fun v hv => h v (by simp [loadsOf, hv]))
    rw [h0] at hr
    simp [pollIt, loadsOf, h0, hr.1, hr.2]

/-- A poll of the designated thread that ended did so on a nonzero value. -/
theorem pollIt_some_ne_zero : ∀ (hs : Ticks) (it iter : Int),
    (pollIt hs it).2.1 = some iter → iter ≠ 0 := by
  intro hs
  induction hs with
  | nil => intro it iter h; simp [pollIt] at h
  | cons w ws ih =>
    intro it iter h
    by_cases h0 : w.getD it = 0
    · simp only [pollIt, h0, beq_self_eq_true, if_true] at h
      exact ih 0 iter h
    · simp only [pollIt, beq_iff_eq, h0, if_false, Option.some.injEq] at h
      rw [← h]; exact h0

/-- C2: when the counter reads zero `n` times and then a positive `k`, one pass
of the emitted loop makes every thread pass the barrier, call `ark_loop_body`
exactly `k` times with `_i = 0, 1, .., k-1` in this order, pass a barrier
after each call, and pass the closing barrier; the designated thread, and
only it, loads the counter, sets `_ITER = k` before the first barrier and
stores 0 to the counter after the barrier of the `k`-th call. -/
theorem outerPass_positive (designated : Bool) (d : DevState) (hs : Ticks)
    (n : Nat) (k : Int) (rest : List Int) (hk : 0 < k)
    (hobs : loadsOf (none :: hs) d.it = List.replicate n 0 ++ k :: rest) :
    (outerPass designated d hs).res = .next ∧
    (outerPass designated d hs).st = ⟨0, k⟩ ∧
    (outerPass designated d hs).ev
      = (if designated then
          List.replicate n (.atomicLoad 0) ++ [.atomicLoad k, .set_ITER k]
         else []) ++ [.sync_gpu]
        ++ (List.range k.toNat).flatMap
            (fun i => [DevEvent.ark_loop_body i, DevEvent.sync_gpu])
        ++ (if designated then [.atomicStore 0] else []) ++ [.sync_gpu] := by
  obtain ⟨h1, h2⟩ := pollIt_of_loads k (ne_of_gt hk) n (none :: hs) d.it rest hobs
  have hin := innerLoop_eq k k.toNat 0 (by simp)
  simp only [sub_zero, zero_add] at hin
  have hnk : ¬ k < 0 := not_lt.mpr (le_of_lt hk)
  cases designated <;>
    simp [outerPass, h1, h2, hnk, hin]

/-- Witness for C2: the counter reads 0, 0, 3. -/
theorem outerPass_positive_witness :
    (0 : Int) < 3 ∧
    (outerPass true ⟨0, 0⟩ [none, some 3]).ev
      = [.atomicLoad 0, .atomicLoad 0, .atomicLoad 3, .set_ITER 3, .sync_gpu,
         .ark_loop_body 0, .sync_gpu, .ark_loop_body 1, .sync_gpu,
         .ark_loop_body 2, .sync_gpu, .atomicStore 0, .sync_gpu] :=
  ⟨by decide,
    (outerPass_positive true ⟨0, 0⟩ [none, some 3] 2 3 [] (by decide)
      (by decide)).2.2⟩

/-- C3: when the counter reads zero `n` times and then a negative `k`, every
thread returns from the kernel right after the first barrier: it calls
`ark_loop_body` not once and stores nothing to the counter, which keeps the
negative `k`.  While the counter reads zero all through the window, the
designated thread is still polling at its end: it has only loaded zeros, has
not assigned `_ITER`, and no thread has passed the barrier.  In no pass is
zero ever assigned to `_ITER`. -/
theorem outerPass_negative_or_idle (designated : Bool) (d : DevState)
    (hs : Ticks) :
    (∀ (n : Nat) (k : Int) (rest : List Int), k < 0 →
      loadsOf (none :: hs) d.it = List.replicate n 0 ++ k :: rest →
      (outerPass designated d hs).res = .returned ∧
      (outerPass designated d hs).st = ⟨k, k⟩ ∧
      (outerPass designated d hs).ev
        = (if designated then
            List.replicate n (.atomicLoad 0) ++ [.atomicLoad k, .set_ITER k]
           else []) ++ [.sync_gpu, .ret]) ∧
    ((∀ v ∈ loadsOf (none :: hs) d.it, v = 0) →
      (outerPass designated d hs).res = .polling ∧
      (outerPass designated d hs).st = ⟨0, d._ITER⟩ ∧
      (outerPass designated d hs).ev
        = if designated then List.replicate (hs.length + 1) (.atomicLoad 0)
          else []) ∧
    (∀ v, DevEvent.set_ITER v ∈ (outerPass designated d hs).ev → v ≠ 0) := by
  refine ⟨?_, ?_, ?_⟩
  · intro n k rest hk hobs
    obtain ⟨h1, h2⟩ := pollIt_of_loads k (ne_of_lt hk) n (none :: hs) d.it rest hobs
    cases designated <;> simp [outerPass, h1, h2, hk]
  · intro hz
    obtain ⟨h1, h2⟩ := pollIt_of_zeros (none :: hs) d.it hz
    have hall : loadsOf (none :: hs) d.it = List.replicate (hs.length + 1) 0 := by
      apply List.eq_replicate_iff.mpr
      refine ⟨?_, hz⟩
      have hlen : ∀ (ws : Ticks) (it : Int), (loadsOf ws it).length = ws.length := by
        intro ws
        induction ws with
        | nil => intro it; rfl
        | cons w ws ih => intro it; simp [loadsOf, ih]
      simp [hlen]
    cases designated <;> simp [outerPass, h1, h2, hall, List.getLast?_replicate]
  · intro v hv
    cases hp : (pollIt (none :: hs) d.it).2.1 with
    | none =>
      cases designated <;> simp [outerPass, hp] at hv
    | some iter =>
      have hne := pollIt_some_ne_zero (none :: hs) d.it iter hp
      have hnin : ∀ (K : Int) (m : Nat) (i : Int),
          DevEvent.set_ITER v ∉ innerLoop K m i := by
        intro K m
        induction m with
        | zero => intro i; simp [innerLoop]
        | succ m ih =>
          intro i
          by_cases hlt : i < K
          · simp [innerLoop, hlt, ih]
          · simp [innerLoop, hlt]
      cases designated <;> by_cases hneg : iter < 0 <;>
        simp [outerPass, hp, hneg, hnin] at hv
      all_goals (rw [hv]; exact hne)

/-- Witness for C3: the counter reads 0 and then the stop sentinel; and the
counter reads 0 three times. -/
theorem outerPass_negative_or_idle_witness :
    (outerPass false ⟨0, 0⟩ [some (-1)]).ev = [.sync_gpu, .ret] ∧
    (outerPass true ⟨0, 7⟩ [none, none]).res = .polling :=
  ⟨((outerPass_negative_or_idle false ⟨0, 0⟩ [some (-1)]).1 1 (-1) []
      (by decide) (by decide)).2.2,
   ((outerPass_negative_or_idle true ⟨0, 7⟩ [none, none]).2.1 (by decide)).1⟩

/-! ## `wait`: what it leaves alone, and when it returns -/

/-- The busy-wait of `run` changes no field but the flag. -/
theorem runLoop_frame (iter : Int) : ∀ (ws : Ticks) (s : GpuLoopKernel),
    (runLoop iter s ws).st = { s with flag := (runLoop iter s ws).st.flag } := by
  intro ws
  induction ws with
  | nil => intro s; rfl
  | cons w ws ih =>
    intro s
    by_cases hv : w.getD s.flag > 0
    · have hstep : runLoop iter s (w :: ws)
          = (runLoop iter { s with flag := w.getD s.flag } ws).after
              (.atomicLoad (w.getD s.flag)) := by
        simp [runLoop, hv]
      rw [hstep, after_st]
      have := ih { s with flag := w.getD s.flag }
      rw [this]
    · simp [runLoop, hv]

/-- The method `run` changes no field but the flag. -/
theorem run_frame (iter : Int) (s : GpuLoopKernel) (ws : Ticks) :
    (run iter s ws).st = { s with flag := (run iter s ws).st.flag } := by
  by_cases h : iter > 0
  · simp only [run, h, if_true]
    exact runLoop_frame iter (none :: ws) s
  · simp [run, h]

/-- The loop of `wait` on an empty window. -/
theorem waitLoop_nil (query : Nat → gpuError) (s : GpuLoopKernel) (cnt : Int)
    (q : Nat) : waitLoop query [] s cnt q = ⟨.spinning, s, []⟩ := rfl

/-- The loop of `wait` ends at a non-positive load. -/
theorem waitLoop_nonpos (query : Nat → gpuError) (w : Option Int) (ws : Ticks)
    (s : GpuLoopKernel) (cnt : Int) (q : Nat) (hv : ¬ w.getD s.flag > 0) :
    waitLoop query (w :: ws) s cnt q
      = ⟨.ret (), { s with flag := w.getD s.flag }, [.atomicLoad (w.getD s.flag)]⟩ := by
  rw [waitLoop]; simp only [hv, if_false]

/-- The loop of `wait` goes round on a positive load within the budget. -/
theorem waitLoop_spin (query : Nat → gpuError) (w : Option Int) (ws : Ticks)
    (s : GpuLoopKernel) (cnt : Int) (q : Nat) (hv : w.getD s.flag > 0)
    (hc : cnt - 1 > 0) :
    waitLoop query (w :: ws) s cnt q
      = (waitLoop query ws { s with flag := w.getD s.flag } (cnt - 1) q).after
          (.atomicLoad (w.getD s.flag)) := by
  rw [waitLoop]; simp only [hv, hc, if_true]

/-- The loop of `wait`, budget exhausted, calls `query` through a null
`stream_`. -/
theorem waitLoop_null (query : Nat → gpuError) (w : Option Int) (ws : Ticks)
    (s : GpuLoopKernel) (cnt : Int) (q : Nat) (hv : w.getD s.flag > 0)
    (hc : ¬ cnt - 1 > 0) (hs : s.stream_ = none) :
    waitLoop query (w :: ws) s cnt q
      = ⟨.nullDeref, { s with flag := w.getD s.flag }, [.atomicLoad (w.getD s.flag)]⟩ := by
  rw [waitLoop]; simp only [hv, hc, if_true, if_false, hs]

/-- The loop of `wait`, budget exhausted, stream reporting success: one more
load, a warning, and `break`. -/
theorem waitLoop_success (query : Nat → gpuError) (w w2 : Option Int) (ws : Ticks)
    (s : GpuLoopKernel) (cnt : Int) (q : Nat) (st : Nat)
    (hv : w.getD s.flag > 0) (hc : ¬ cnt - 1 > 0) (hs : s.stream_ = some st)
    (hq : query q = .gpuSuccess) :
    waitLoop query (w :: w2 :: ws) s cnt q
      = ⟨.ret (), { s with flag := w2.getD (w.getD s.flag) },
          [.atomicLoad (w.getD s.flag), .query .gpuSuccess,
           .atomicLoad (w2.getD (w.getD s.flag)),
           .warn (if w2.getD (w.getD s.flag) > 0 then .flag_still_set
                  else .delayed_by_query)]⟩ := by
  rw [waitLoop]; simp only [hv, hc, if_true, if_false, hs, hq]
  split_ifs <;> rfl

/-- The loop of `wait`, budget exhausted, stream reporting success, at the end
of the window. -/
theorem waitLoop_success_end (query : Nat → gpuError) (w : Option Int)
    (s : GpuLoopKernel) (cnt : Int) (q : Nat) (st : Nat)
    (hv : w.getD s.flag > 0) (hc : ¬ cnt - 1 > 0) (hs : s.stream_ = some st)
    (hq : query q = .gpuSuccess) :
    waitLoop query [w] s cnt q
      = ⟨.spinning, { s with flag := w.getD s.flag },
          [.atomicLoad (w.getD s.flag), .query .gpuSuccess]⟩ := by
  rw [waitLoop]; simp only [hv, hc, if_true, if_false, hs, hq]

/-- The loop of `wait`, budget exhausted, stream not ready: the budget is
refilled and the loop goes round. -/
theorem waitLoop_not_ready (query : Nat → gpuError) (w : Option Int) (ws : Ticks)
    (s : GpuLoopKernel) (cnt : Int) (q : Nat) (st : Nat)
    (hv : w.getD s.flag > 0) (hc : ¬ cnt - 1 > 0) (hs : s.stream_ = some st)
    (hq : query q = .gpuErrorNotReady) :
    waitLoop query (w :: ws) s cnt q
      = ((waitLoop query ws { s with flag := w.getD s.flag } MAX_LOOP_COUNTER
            (q + 1)).after (.query .gpuErrorNotReady)).after
          (.atomicLoad (w.getD s.flag)) := by
  rw [waitLoop]; simp only [hv, hc, if_true, if_false, hs, hq]
  simp

/-- The loop of `wait`, budget exhausted, stream in error: the status is
raised. -/
theorem waitLoop_error (query : Nat → gpuError) (w : Option Int) (ws : Ticks)
    (s : GpuLoopKernel) (cnt : Int) (q : Nat) (st : Nat)
    (hv : w.getD s.flag > 0) (hc : ¬ cnt - 1 > 0) (hs : s.stream_ = some st)
    (hq1 : query q ≠ .gpuSuccess) (hq2 : query q ≠ .gpuErrorNotReady) :
    waitLoop query (w :: ws) s cnt q
      = ⟨.GpuError (query q), { s with flag := w.getD s.flag },
          [.atomicLoad (w.getD s.flag), .query (query q)]⟩ := by
  rw [waitLoop]; simp only [hv, hc, if_true, if_false, hs, hq1, hq2]
  rfl

/-- The loop of `wait` changes no field but the flag. -/
theorem waitLoop_frame (query : Nat → gpuError) :
    ∀ (ws : Ticks) (s : GpuLoopKernel) (cnt : Int) (q : Nat),
    (waitLoop query ws s cnt q).st
      = { s with flag := (waitLoop query ws s cnt q).st.flag } := by
  intro ws
  induction ws with
  | nil => intro s cnt q; rfl
  | cons w ws ih =>
    intro s cnt q
    by_cases hv : w.getD s.flag > 0
    · by_cases hc : cnt - 1 > 0
      · rw [waitLoop_spin query w ws s cnt q hv hc, after_st,
          ih { s with flag := w.getD s.flag } (cnt - 1) q]
      · have hcase : s.stream_ = none ∨ ∃ st, s.stream_ = some st := by
          cases s.stream_ <;> simp
        rcases hcase with hs | ⟨st, hs⟩
        · rw [waitLoop_null query w ws s cnt q hv hc hs]
        · by_cases hq1 : query q = .gpuSuccess
          · cases ws with
            | nil => rw [waitLoop_success_end query w s cnt q st hv hc hs hq1]
            | cons w2 ws => rw [waitLoop_success query w w2 ws s cnt q st hv hc hs hq1]
          · by_cases hq2 : query q = .gpuErrorNotReady
            · rw [waitLoop_not_ready query w ws s cnt q st hv hc hs hq2, after_st,
                after_st, ih { s with flag := w.getD s.flag } MAX_LOOP_COUNTER (q + 1)]
            · rw [waitLoop_error query w ws s cnt q st hv hc hs hq1 hq2]
    · rw [waitLoop_nonpos query w ws s cnt q hv]

/-- The method `wait` changes no field but the flag. -/
theorem wait_frame (query : Nat → gpuError) (s : GpuLoopKernel) (ws : Ticks) :
    (wait query s ws).st = { s with flag := (wait query s ws).st.flag } :=
  waitLoop_frame query (none :: ws) s MAX_LOOP_COUNTER 0

/-- The loop of `wait` returns at the first non-positive load when fewer
positive loads than the spin budget come before it; it then has made no stream
query. -/
theorem waitLoop_drained (query : Nat → gpuError) :
    ∀ (pos : List Int) (ws : Ticks) (s : GpuLoopKernel) (cnt : Int) (q : Nat)
      (v : Int) (rest : List Int),
    loadsOf ws s.flag = pos ++ v :: rest → (∀ u ∈ pos, 0 < u) → v ≤ 0 →
    (pos.length : Int) < cnt →
    waitLoop query ws s cnt q
      = ⟨.ret (), { s with flag := v }, (pos ++ [v]).map .atomicLoad⟩ := by
  intro pos
  induction pos with
  | nil =>
    intro ws s cnt q v rest h _ hv _
    cases ws with
    | nil => simp [loadsOf] at h
    | cons w ws =>
      simp only [loadsOf, List.nil_append, List.cons.injEq] at h
      have hn : ¬ w.getD s.flag > 0 := by rw [h.1]; exact not_lt.mpr hv
      rw [waitLoop_nonpos query w ws s cnt q hn, h.1]
      rfl
  | cons u pos ih =>
    intro ws s cnt q v rest h hpos hv hlen
    cases ws with
    | nil => simp [loadsOf] at h
    | cons w ws =>
      simp only [loadsOf, List.cons_append, List.cons.injEq] at h
      obtain ⟨hu, hrest⟩ := h
      have hup : w.getD s.flag > 0 := by rw [hu]; exact hpos u (by simp)
      have hc : cnt - 1 > 0 := by
        simp only [List.length_cons, Nat.cast_succ] at hlen
        have : (0 : Int) ≤ pos.length := Int.natCast_nonneg _
        omega
      have hl : (pos.length : Int) < cnt - 1 := by
        simp only [List.length_cons, Nat.cast_succ] at hlen
        omega
      have := ih ws { s with flag := w.getD s.flag } (cnt - 1) q v rest hrest
        (fun x hx => hpos x (by simp [hx])) hv hl
      rw [waitLoop_spin query w ws s (cnt) q hup hc, this, hu]
      rfl

/-! ## `stop` -/

/-- When its `wait()` returned and a stream is bound, `stop()` publishes the
sentinel, synchronises the stream, takes the timing if one was running,
unbinds the stream and stops the request loop. -/
theorem stop_of_wait_ret (query : Nat → gpuError) (interval : Msec)
    (s : GpuLoopKernel) (ws : Ticks) (st : Nat)
    (hw : (wait query s ws).res = .ret ()) (hb : s.stream_ = some st) :
    stop query interval s ws
      = ⟨.ret (),
          ⟨s.compiled, -1, none, false,
            if s.is_recording_ then interval else s.elapsed_msec_⟩,
          (wait query s ws).ev ++ [.atomicStore (-1), .sync]
            ++ (if s.is_recording_ then [.elapsed] else [])
            ++ [.stop_request_loop]⟩ := by
  have hf := wait_frame query s ws
  have h1 : (wait query s ws).st.stream_ = some st := by rw [hf]; exact hb
  have h2 : (wait query s ws).st.is_recording_ = s.is_recording_ := by rw [hf]
  have h3 : (wait query s ws).st.elapsed_msec_ = s.elapsed_msec_ := by rw [hf]
  have h4 : (wait query s ws).st.compiled = s.compiled := by rw [hf]
  simp only [stop, hw, h1, h2, h3, h4]
  cases s.is_recording_ <;> simp

/-- When its `wait()` returned and no stream is bound, `stop()` publishes the
sentinel and then calls `sync` through the null `stream_`. -/
theorem stop_of_wait_ret_unbound (query : Nat → gpuError) (interval : Msec)
    (s : GpuLoopKernel) (ws : Ticks)
    (hw : (wait query s ws).res = .ret ()) (hb : s.stream_ = none) :
    stop query interval s ws
      = ⟨.nullDeref, { (wait query s ws).st with flag := -1 },
          (wait query s ws).ev ++ [.atomicStore (-1)]⟩ := by
  have hf := wait_frame query s ws
  have h1 : (wait query s ws).st.stream_ = none := by rw [hf]; exact hb
  simp only [stop, hw, h1]

/-- When its `wait()` did not return, `stop()` ends the way `wait()` did. -/
theorem stop_of_wait_not_ret (query : Nat → gpuError) (interval : Msec)
    (s : GpuLoopKernel) (ws : Ticks)
    (hw : (wait query s ws).res ≠ .ret ()) :
    stop query interval s ws = wait query s ws := by
  unfold stop
  simp only []

/-- C4: with a stream bound, `stop()` returns exactly when its `wait()` does,
which is the case whenever the flag drains to a non-positive value within the
spin budget.  When it returns, the flag is `-1`, the stream is unbound, no
timed run is in flight, and the stored interval is the one measured between
the two markers if timing was active (and is untouched otherwise); the
sentinel was stored after the wait and before the stream was synchronised,
the interval was taken after that, and the request loop stopped last. -/
theorem stop_leaves_sentinel_unbound (query : Nat → gpuError) (interval : Msec)
    (s : GpuLoopKernel) (ws : Ticks) (hb : s.stream_ ≠ none) :
    ((stop query interval s ws).res = .ret () ↔ (wait query s ws).res = .ret ()) ∧
    ((stop query interval s ws).res = .ret () →
      (stop query interval s ws).st.flag = -1 ∧
      (stop query interval s ws).st.stream_ = none ∧
      (stop query interval s ws).st.is_recording_ = false ∧
      (stop query interval s ws).st.elapsed_msec_
        = (if s.is_recording_ then interval else s.elapsed_msec_) ∧
      (stop query interval s ws).st.compiled = s.compiled ∧
      (stop query interval s ws).ev
        = (wait query s ws).ev ++ [.atomicStore (-1), .sync]
            ++ (if s.is_recording_ then [.elapsed] else [])
            ++ [.stop_request_loop]) ∧
    (∀ (pos : List Int) (v : Int) (rest : List Int),
      loadsOf (none :: ws) s.flag = pos ++ v :: rest → (∀ u ∈ pos, 0 < u) →
      v ≤ 0 → (pos.length : Int) < MAX_LOOP_COUNTER →
      (stop query interval s ws).res = .ret ()) := by
  obtain ⟨st, hst⟩ : ∃ st, s.stream_ = some st := by
    cases h : s.stream_ with
    | none => exact absurd h hb
    | some st => exact ⟨st, rfl⟩
  have hiff : (stop query interval s ws).res = .ret ()
      ↔ (wait query s ws).res = .ret () := by
    constructor
    · intro h
      by_contra hw
      rw [stop_of_wait_not_ret query interval s ws hw] at h
      exact hw h
    · intro hw
      rw [stop_of_wait_ret query interval s ws st hw hst]
  refine ⟨hiff, ?_, ?_⟩
  · intro h
    rw [stop_of_wait_ret query interval s ws st (hiff.mp h) hst]
    exact ⟨rfl, rfl, rfl, rfl, rfl, rfl⟩
  · intro pos v rest hl hpos hv hlen
    apply hiff.mpr
    have := waitLoop_drained query pos (none :: ws) s MAX_LOOP_COUNTER 0 v rest
      hl hpos hv hlen
    unfold wait
    rw [this]

/-- Witness for C4: a timed run with a batch of three in flight that the
device drains after one more load; the interval measured is 42. -/
theorem stop_leaves_sentinel_unbound_witness :
    busy.stream_ ≠ none ∧
    (stop (fun _ => .gpuErrorNotReady) 42 busy [some 0]).res = .ret () ∧
    (stop (fun _ => .gpuErrorNotReady) 42 busy [some 0]).st.elapsed_msec_ = 42 :=
  ⟨by decide,
   (stop_leaves_sentinel_unbound (fun _ => .gpuErrorNotReady) 42 busy [some 0]
      (by decide)).2.2 [3] 0 [] (by decide) (by decide) (by decide) (by decide),
   ((stop_leaves_sentinel_unbound (fun _ => .gpuErrorNotReady) 42 busy [some 0]
      (by decide)).2.1 (by decide)).2.2.2.1⟩

/-- C5 fails on the code: a `stop()` right after a `stop()` that returned
does not complete.  Its `wait()` loads the sentinel and returns, the sentinel
is stored again, and then `stream_->sync()` is called through the null
`stream_`. -/
theorem stop_twice_null_stream (query query2 : Nat → gpuError)
    (interval interval2 : Msec) (s : GpuLoopKernel) (ws ws2 : Ticks)
    (h1 : (stop query interval s ws).res = .ret ()) :
    (stop query2 interval2 (stop query interval s ws).st ws2).res = .nullDeref ∧
    (stop query2 interval2 (stop query interval s ws).st ws2).ev
      = [.atomicLoad (-1), .atomicStore (-1)] := by
  have hw : (wait query s ws).res = .ret () := by
    by_contra hw
    rw [stop_of_wait_not_ret query interval s ws hw] at h1
    exact hw h1
  have hcase : s.stream_ = none ∨ ∃ st, s.stream_ = some st := by
    cases s.stream_ <;> simp
  rcases hcase with hs | ⟨st, hs⟩
  · rw [stop_of_wait_ret_unbound query interval s ws hw hs] at h1
    cases h1
  · rw [stop_of_wait_ret query interval s ws st hw hs]
    have hret : ∀ t : GpuLoopKernel, t.flag = -1 →
        wait query2 t ws2 = ⟨.ret (), t, [.atomicLoad (-1)]⟩ := by
      intro t ht
      unfold wait
      rw [waitLoop_nonpos query2 none ws2 t MAX_LOOP_COUNTER 0 (by simp [ht])]
      simp [ht]
      cases t; simp_all
    have hw2 := hret ⟨s.compiled, -1, none, false,
      if s.is_recording_ then interval else s.elapsed_msec_⟩ rfl
    rw [stop_of_wait_ret_unbound query2 interval2 _ ws2 (by rw [hw2]) rfl, hw2]
    exact ⟨rfl, rfl⟩

/-- Witness for C5: the second of two consecutive `stop()` calls on a running
controller. -/
theorem stop_twice_null_stream_witness :
    (stop (fun _ => .gpuSuccess) 42 busy [some 0]).res = .ret () ∧
    (stop (fun _ => .gpuSuccess) 7
      (stop (fun _ => .gpuSuccess) 42 busy [some 0]).st []).res = .nullDeref :=
  ⟨by decide,
   (stop_twice_null_stream (fun _ => .gpuSuccess) (fun _ => .gpuSuccess) 42 7 busy
      [some 0] [] (by decide)).1⟩

/-! ## The invariant of reachable controller states -/

/-- The invariant does not look at the flag. -/
theorem Inv_of_frame (s t : GpuLoopKernel) (h : t = { s with flag := t.flag })
    (hs : Inv s) : Inv t := by
  rw [h]; exact hs

/-- The method `load` changes no field but the flag. -/
theorem load_frame (c : LoadEnv) (query : Nat → gpuError) (s : GpuLoopKernel)
    (ws : Ticks) :
    (load c query s ws).st = { s with flag := (load c query s ws).st.flag } := by
  unfold load
  split_ifs
  · rfl
  · exact wait_frame query s ws
  · rfl

/-- The method `launch` keeps the invariant. -/
theorem Inv_launch (stream : Stream) (disable_timing : Bool) (s : GpuLoopKernel)
    (hs : Inv s) : Inv (launch stream disable_timing s).st := by
  obtain ⟨c, f, b, r, e⟩ := s
  obtain ⟨h1, h2⟩ := hs
  simp only at h1 h2
  cases c <;> cases stream <;> cases b <;> cases disable_timing <;>
    simp_all [launch, Inv] <;> split_ifs <;> simp_all

/-- The method `stop` keeps the invariant. -/
theorem Inv_stop (query : Nat → gpuError) (interval : Msec) (s : GpuLoopKernel)
    (ws : Ticks) (hs : Inv s) : Inv (stop query interval s ws).st := by
  by_cases hw : (wait query s ws).res = .ret ()
  · have hcase : s.stream_ = none ∨ ∃ st, s.stream_ = some st := by
      cases s.stream_ <;> simp
    rcases hcase with hb | ⟨st, hb⟩
    · rw [stop_of_wait_ret_unbound query interval s ws hw hb]
      have hf := wait_frame query s ws
      have hi := Inv_of_frame s _ hf hs
      exact hi
    · rw [stop_of_wait_ret query interval s ws st hw hb]
      simp [Inv]
  · rw [stop_of_wait_not_ret query interval s ws hw]
    exact Inv_of_frame s _ (wait_frame query s ws) hs

/-- Every reachable controller state satisfies the invariant. -/
theorem Inv_of_Reachable (s : GpuLoopKernel) (h : Reachable s) : Inv s := by
  induction h with
  | init s h1 h2 => simp [Inv, h1, h2]
  | load c query ws _ ih => exact Inv_of_frame _ _ (load_frame c query _ ws) ih
  | launch stream dt _ ih => exact Inv_launch stream dt _ ih
  | run iter ws _ ih => exact Inv_of_frame _ _ (run_frame iter _ ws) ih
  | poll _ ih => exact ih
  | wait query ws _ ih => exact Inv_of_frame _ _ (wait_frame query _ ws) ih
  | stop query interval ws _ ih => exact Inv_stop query interval _ ws ih
  | get_elapsed_msec _ ih =>
    unfold get_elapsed_msec
    split_ifs <;> exact ih

/-! ## `launch`: theorems -/

/-- C6: `launch(stream, disable_timing)` raises an invalid-usage error exactly
when the kernel is not compiled, or `stream` is null, or a stream other than
`stream` is bound; in every other case it returns. -/
theorem launch_invalid_usage_iff (stream : Stream) (disable_timing : Bool)
    (s : GpuLoopKernel) :
    ((launch stream disable_timing s).res = .InvalidUsageError ↔
      (s.compiled = false ∨ stream = none ∨
        (s.stream_ ≠ none ∧ s.stream_ ≠ stream))) ∧
    ((launch stream disable_timing s).res ≠ .InvalidUsageError →
      (launch stream disable_timing s).res = .ret ()) := by
  obtain ⟨c, f, b, r, e⟩ := s
  cases c <;> cases stream <;> cases b <;> simp [launch]
  all_goals (split_ifs <;> simp_all)

/-- C7: on a compiled controller with no stream bound, `launch(s, disable_timing)`
with a non-null stream `s` returns after, in this order, recording the begin
marker if timing is enabled, starting the request loop, storing 0 to the flag,
submitting the device program, and recording the end marker if timing is
enabled; it leaves the flag 0, the stream bound to `s`, and a timed run in
flight exactly when `disable_timing` is false. -/
theorem launch_on_idle (st : Nat) (disable_timing : Bool) (s : GpuLoopKernel)
    (hr : Reachable s) (hc : s.compiled = true) (hn : s.stream_ = none) :
    (launch (some st) disable_timing s).res = .ret () ∧
    (launch (some st) disable_timing s).ev
      = (if disable_timing then [] else [.record_begin st])
        ++ [.launch_request_loop, .atomicStore 0, .kernel_launch st]
        ++ (if disable_timing then [] else [.record_end st]) ∧
    (launch (some st) disable_timing s).st.flag = 0 ∧
    (launch (some st) disable_timing s).st.stream_ = some st ∧
    ((launch (some st) disable_timing s).st.is_recording_ = true
      ↔ disable_timing = false) := by
  have hi := (Inv_of_Reachable s hr).2
  obtain ⟨c, f, b, r, e⟩ := s
  simp only at hc hn hi
  subst hc hn
  cases disable_timing <;> cases r <;> simp_all [launch]

/-- Witness for C7: a timed launch on stream 1 of a fresh compiled controller. -/
theorem launch_on_idle_witness :
    (launch (some 1) false ⟨true, 0, none, false, -1⟩).ev
      = [.record_begin 1, .launch_request_loop, .atomicStore 0, .kernel_launch 1,
         .record_end 1] :=
  (launch_on_idle 1 false ⟨true, 0, none, false, -1⟩
    (Reachable.init _ rfl rfl) rfl rfl).2.1

/-- C8: in a reachable controller state with stream `s` bound, `launch(s)`
returns without error, only logs the warning (no marker is recorded, the
request loop is not started, the flag is not stored to, the device program is
not submitted), and leaves the whole controller state, the stored interval
included, as it was. -/
theorem launch_same_stream_noop (st : Nat) (disable_timing : Bool)
    (s : GpuLoopKernel) (hr : Reachable s) (hb : s.stream_ = some st) :
    (launch (some st) disable_timing s).res = .ret () ∧
    (launch (some st) disable_timing s).st = s ∧
    (launch (some st) disable_timing s).ev = [.warn .ignore_launching_twice] := by
  have hi := (Inv_of_Reachable s hr).1 (by rw [hb]; simp)
  obtain ⟨c, f, b, r, e⟩ := s
  simp only at hb hi
  obtain ⟨hc, he⟩ := hi
  subst hb hc he
  simp [launch]

/-- Witness for C8: a second launch on stream 1 after a launch and a
`run(3)`. -/
theorem launch_same_stream_noop_witness :
    (launch (some 1) true busy).st = busy :=
  (launch_same_stream_noop 1 true busy
    (Reachable.run 3 []
      (Reachable.launch (some 1) false
        (Reachable.init ⟨true, 0, none, false, -1⟩ rfl rfl)))
    rfl).2.1

/-! ## `wait`: the spin budget and the stream status -/

theorem afterAll_res {α : Type} (es : List Event) (r : Ret α) :
    (r.afterAll es).res = r.res := rfl

theorem afterAll_st {α : Type} (es : List Event) (r : Ret α) :
    (r.afterAll es).st = r.st := rfl

theorem afterAll_ev {α : Type} (es : List Event) (r : Ret α) :
    (r.afterAll es).ev = es ++ r.ev := rfl

/-- The loads over two windows in a row. -/
theorem loadsOf_append : ∀ (ws1 ws2 : Ticks) (flag : Int),
    loadsOf (ws1 ++ ws2) flag
      = loadsOf ws1 flag ++ loadsOf ws2 (flagAfter ws1 flag) := by
  intro ws1
  induction ws1 with
  | nil => intro ws2 flag; rfl
  | cons w ws1 ih =>
    intro ws2 flag
    rw [List.cons_append]
    simp only [loadsOf, flagAfter]
    rw [ih, List.cons_append]

/-- Over a window without device stores every load returns the same value. -/
theorem loadsOf_quiet : ∀ (ws : Ticks) (flag : Int), (∀ w ∈ ws, w = none) →
    ∀ v ∈ loadsOf ws flag, v = flag := by
  intro ws
  induction ws with
  | nil => intro flag _ v hv; simp [loadsOf] at hv
  | cons w ws ih =>
    intro flag hq v hv
    have hw : w = none := hq w (by simp)
    subst hw
    simp only [loadsOf, Option.getD_none, List.mem_cons] at hv
    rcases hv with rfl | hv
    · rfl
    · exact ih flag (fun w hw => hq w (by simp [hw])) v hv

/-- While fewer positive loads than the budget have been made, the loop of
`wait` only loads: after `n` positive loads it stands at the loop head with
budget `cnt - n` and has made no stream query. -/
theorem waitLoop_spin_many (query : Nat → gpuError) :
    ∀ (ws1 ws2 : Ticks) (s : GpuLoopKernel) (cnt : Int) (q : Nat),
    (∀ v ∈ loadsOf ws1 s.flag, 0 < v) → (ws1.length : Int) < cnt →
    waitLoop query (ws1 ++ ws2) s cnt q
      = (waitLoop query ws2 { s with flag := flagAfter ws1 s.flag }
          (cnt - ws1.length) q).afterAll ((loadsOf ws1 s.flag).map .atomicLoad) := by
  intro ws1
  induction ws1 with
  | nil =>
    intro ws2 s cnt q _ _
    simp [flagAfter, loadsOf, Ret.afterAll]
  | cons w ws1 ih =>
    intro ws2 s cnt q hpos hlen
    have hv : w.getD s.flag > 0 := hpos _ (by simp [loadsOf])
    simp only [List.length_cons, Nat.cast_succ] at hlen
    have hge : (0 : Int) ≤ ws1.length := Int.natCast_nonneg _
    have hc : cnt - 1 > 0 := by omega
    have hl : (ws1.length : Int) < cnt - 1 := by omega
    have hrec := ih ws2 { s with flag := w.getD s.flag } (cnt - 1) q
      (fun v hv => hpos v (by simp [loadsOf, hv])) hl
    have hcnt : cnt - 1 - (ws1.length : Int) = cnt - ((ws1.length : Int) + 1) := by ring
    rw [List.cons_append, waitLoop_spin query w (ws1 ++ ws2) s cnt q hv hc, hrec, hcnt]
    simp [flagAfter, loadsOf, Ret.afterAll, Ret.after]

/-- A call of `wait` that returned did so either on a non-positive load or
after a stream query that reported success. -/
theorem waitLoop_ret_cause (query : Nat → gpuError) :
    ∀ (ws : Ticks) (s : GpuLoopKernel) (cnt : Int) (q : Nat),
    (waitLoop query ws s cnt q).res = .ret () →
    (∃ pre v, (waitLoop query ws s cnt q).ev = pre ++ [.atomicLoad v] ∧ v ≤ 0) ∨
    (∃ pre v v2 m, (waitLoop query ws s cnt q).ev
        = pre ++ [.atomicLoad v, .query .gpuSuccess, .atomicLoad v2, .warn m] ∧
      0 < v) := by
  intro ws
  induction ws with
  | nil => intro s cnt q h; rw [waitLoop_nil] at h; cases h
  | cons w ws ih =>
    intro s cnt q h
    by_cases hv : w.getD s.flag > 0
    · by_cases hc : cnt - 1 > 0
      · rw [waitLoop_spin query w ws s cnt q hv hc] at h ⊢
        rw [after_res] at h
        rw [after_ev]
        rcases ih _ _ _ h with ⟨pre, v, he, hle⟩ | ⟨pre, v, v2, m, he, hp⟩
        · left; exact ⟨_ :: pre, v, by rw [he]; rfl, hle⟩
        · right; exact ⟨_ :: pre, v, v2, m, by rw [he]; rfl, hp⟩
      · have hcase : s.stream_ = none ∨ ∃ st, s.stream_ = some st := by
          cases s.stream_ <;> simp
        rcases hcase with hs | ⟨st, hs⟩
        · rw [waitLoop_null query w ws s cnt q hv hc hs] at h; cases h
        · by_cases hq1 : query q = .gpuSuccess
          · cases ws with
            | nil =>
              rw [waitLoop_success_end query w s cnt q st hv hc hs hq1] at h; cases h
            | cons w2 ws =>
              rw [waitLoop_success query w w2 ws s cnt q st hv hc hs hq1]
              right
              exact ⟨[], _, _, _, rfl, hv⟩
          · by_cases hq2 : query q = .gpuErrorNotReady
            · rw [waitLoop_not_ready query w ws s cnt q st hv hc hs hq2] at h ⊢
              rw [after_res, after_res] at h
              rw [after_ev, after_ev]
              rcases ih _ _ _ h with ⟨pre, v, he, hle⟩ | ⟨pre, v, v2, m, he, hp⟩
              · left; exact ⟨_ :: _ :: pre, v, by rw [he]; rfl, hle⟩
              · right; exact ⟨_ :: _ :: pre, v, v2, m, by rw [he]; rfl, hp⟩
            · rw [waitLoop_error query w ws s cnt q st hv hc hs hq1 hq2] at h; cases h
    · rw [waitLoop_nonpos query w ws s cnt q hv]
      left
      exact ⟨[], _, rfl, not_lt.mp hv⟩

/-- C11: in `wait()`, at a positive load that exhausts the spin budget with a
stream bound, the stream status decides.  On not-ready the loop goes round
with the budget refilled (the call does not return there); on success the
call makes one more load and returns, also when that load is still positive;
on any other status that status is raised at once.  Hence a `wait()` that
returned did so right after a non-positive load, or after a positive load
followed by a success status. -/
theorem wait_status_decides (query : Nat → gpuError) (w : Option Int)
    (ws : Ticks) (s : GpuLoopKernel) (cnt : Int) (q : Nat) (st : Nat)
    (hv : w.getD s.flag > 0) (hc : cnt ≤ 1) (hs : s.stream_ = some st) :
    (query q = .gpuErrorNotReady →
      waitLoop query (w :: ws) s cnt q
        = ((waitLoop query ws { s with flag := w.getD s.flag } MAX_LOOP_COUNTER
              (q + 1)).after (.query .gpuErrorNotReady)).after
            (.atomicLoad (w.getD s.flag))) ∧
    (query q = .gpuSuccess → ∀ (w2 : Option Int) (ws2 : Ticks), ws = w2 :: ws2 →
      (waitLoop query (w :: ws) s cnt q).res = .ret () ∧
      (waitLoop query (w :: ws) s cnt q).st.flag = w2.getD (w.getD s.flag) ∧
      (waitLoop query (w :: ws) s cnt q).ev
        = [.atomicLoad (w.getD s.flag), .query .gpuSuccess,
           .atomicLoad (w2.getD (w.getD s.flag)),
           .warn (if w2.getD (w.getD s.flag) > 0 then .flag_still_set
                  else .delayed_by_query)]) ∧
    (query q ≠ .gpuSuccess → query q ≠ .gpuErrorNotReady →
      waitLoop query (w :: ws) s cnt q
        = ⟨.GpuError (query q), { s with flag := w.getD s.flag },
            [.atomicLoad (w.getD s.flag), .query (query q)]⟩) ∧
    (∀ (s0 : GpuLoopKernel) (ws0 : Ticks), (wait query s0 ws0).res = .ret () →
      (∃ pre v, (wait query s0 ws0).ev = pre ++ [.atomicLoad v] ∧ v ≤ 0) ∨
      (∃ pre v v2 m, (wait query s0 ws0).ev
          = pre ++ [.atomicLoad v, .query .gpuSuccess, .atomicLoad v2, .warn m] ∧
        0 < v)) := by
  have hc' : ¬ cnt - 1 > 0 := by omega
  refine ⟨?_, ?_, ?_, ?_⟩
  · intro hq
    exact waitLoop_not_ready query w ws s cnt q st hv hc' hs hq
  · intro hq w2 ws2 hws
    subst hws
    rw [waitLoop_success query w w2 ws2 s cnt q st hv hc' hs hq]
    exact ⟨rfl, rfl, rfl⟩
  · intro hq1 hq2
    exact waitLoop_error query w ws s cnt q st hv hc' hs hq1 hq2
  · intro s0 ws0 h
    exact waitLoop_ret_cause query (none :: ws0) s0 MAX_LOOP_COUNTER 0 h

/-- Witness for C11: the last load of the budget reads 3 on a running
controller, the stream reports success, and the next load still reads 3. -/
theorem wait_status_decides_witness :
    (waitLoop (fun _ => .gpuSuccess) [none, none] busy 1 0).res = .ret () ∧
    (waitLoop (fun _ => .gpuSuccess) [none, none] busy 1 0).st.flag = 3 :=
  ⟨((wait_status_decides (fun _ => .gpuSuccess) none [none] busy 1 0 1
      (by decide) (by decide) rfl).2.1 rfl none [] rfl).1,
   ((wait_status_decides (fun _ => .gpuSuccess) none [none] busy 1 0 1
      (by decide) (by decide) rfl).2.1 rfl none [] rfl).2.1⟩

/-- At a positive load that exhausts the budget with a stream bound, the next
action of `wait` is the stream query. -/
theorem waitLoop_exhausted_ev (query : Nat → gpuError) (w : Option Int)
    (ws : Ticks) (s : GpuLoopKernel) (cnt : Int) (q : Nat) (st : Nat)
    (hv : w.getD s.flag > 0) (hc : ¬ cnt - 1 > 0) (hs : s.stream_ = some st) :
    ∃ tail, (waitLoop query (w :: ws) s cnt q).ev
      = .atomicLoad (w.getD s.flag) :: .query (query q) :: tail := by
  by_cases hq1 : query q = .gpuSuccess
  · cases ws with
    | nil =>
      rw [waitLoop_success_end query w s cnt q st hv hc hs hq1, hq1]
      exact ⟨[], rfl⟩
    | cons w2 ws =>
      rw [waitLoop_success query w w2 ws s cnt q st hv hc hs hq1, hq1]
      exact ⟨_, rfl⟩
  · by_cases hq2 : query q = .gpuErrorNotReady
    · rw [waitLoop_not_ready query w ws s cnt q st hv hc hs hq2, hq2]
      exact ⟨_, rfl⟩
    · rw [waitLoop_error query w ws s cnt q st hv hc hs hq1 hq2]
      exact ⟨[], rfl⟩

/-- C12: `wait()` enters its loop with the budget `MAX_LOOP_COUNTER`, which is
10,000,000.  With a stream bound, whenever the loop is entered with that
budget (at the start of `wait()` and after every not-ready answer) and the
next 10,000,000 loads are all positive, its actions are exactly these
10,000,000 loads and then the stream query; if the answer is not-ready, what
follows is again the loop entered with the full budget.  If a non-positive
load comes after fewer than 10,000,000 positive ones, `wait()` returns having
only loaded: it makes no stream query at all. -/
theorem wait_queries_after_full_budget (query : Nat → gpuError)
    (s : GpuLoopKernel) (ws : Ticks) (st : Nat) (hs : s.stream_ = some st) :
    (wait query s ws = waitLoop query (none :: ws) s MAX_LOOP_COUNTER 0 ∧
      MAX_LOOP_COUNTER = 10000000) ∧
    (∀ (ws1 : Ticks) (w : Option Int) (ws2 : Ticks) (q : Nat),
      (ws1.length : Int) + 1 = 10000000 →
      (∀ v ∈ loadsOf (ws1 ++ [w]) s.flag, 0 < v) →
      ((loadsOf (ws1 ++ [w]) s.flag).length = 10000000 ∧
        ∃ tail, (waitLoop query (ws1 ++ w :: ws2) s MAX_LOOP_COUNTER q).ev
          = (loadsOf (ws1 ++ [w]) s.flag).map .atomicLoad
              ++ .query (query q) :: tail) ∧
      (query q = .gpuErrorNotReady →
        waitLoop query (ws1 ++ w :: ws2) s MAX_LOOP_COUNTER q
          = (waitLoop query ws2 { s with flag := flagAfter (ws1 ++ [w]) s.flag }
              MAX_LOOP_COUNTER (q + 1)).afterAll
              ((loadsOf (ws1 ++ [w]) s.flag).map .atomicLoad
                ++ [.query .gpuErrorNotReady]))) ∧
    (∀ (pos : List Int) (v : Int) (rest : List Int),
      loadsOf (none :: ws) s.flag = pos ++ v :: rest → (∀ u ∈ pos, 0 < u) →
      v ≤ 0 → (pos.length : Int) < 10000000 →
      (wait query s ws).res = .ret () ∧
      (wait query s ws).ev = (pos ++ [v]).map .atomicLoad ∧
      ∀ r, Event.query r ∉ (wait query s ws).ev) := by
  refine ⟨⟨rfl, rfl⟩, ?_, ?_⟩
  · intro ws1 w ws2 q hlen hpos
    have hlen' : (ws1.length : Int) < MAX_LOOP_COUNTER := by
      unfold MAX_LOOP_COUNTER; omega
    have hsplit := loadsOf_append ws1 [w] s.flag
    have hpos1 : ∀ v ∈ loadsOf ws1 s.flag, 0 < v := by
      intro v hv
      exact hpos v (by rw [hsplit]; exact List.mem_append_left _ hv)
    have hw : w.getD (flagAfter ws1 s.flag) > 0 := by
      apply hpos
      rw [hsplit]
      apply List.mem_append_right
      simp [loadsOf]
    have hmany := waitLoop_spin_many query ws1 (w :: ws2) s MAX_LOOP_COUNTER q
      hpos1 hlen'
    have hone : MAX_LOOP_COUNTER - (ws1.length : Int) = 1 := by
      unfold MAX_LOOP_COUNTER; omega
    rw [hone] at hmany
    have hc : ¬ (1 : Int) - 1 > 0 := by decide
    have hloads : loadsOf (ws1 ++ [w]) s.flag
        = loadsOf ws1 s.flag ++ [w.getD (flagAfter ws1 s.flag)] := by
      rw [hsplit]; rfl
    have hflag : flagAfter (ws1 ++ [w]) s.flag = w.getD (flagAfter ws1 s.flag) := by
      have : ∀ (ws : Ticks) (f : Int),
          flagAfter (ws ++ [w]) f = w.getD (flagAfter ws f) := by
        intro ws
        induction ws with
        | nil => intro f; rfl
        | cons a ws ih => intro f; rw [List.cons_append]; simp only [flagAfter]; rw [ih]
      exact this ws1 s.flag
    refine ⟨⟨?_, ?_⟩, ?_⟩
    · rw [hloads, List.length_append]
      have hl : ∀ (ws : Ticks) (f : Int), (loadsOf ws f).length = ws.length := by
        intro ws
        induction ws with
        | nil => intro f; rfl
        | cons a ws ih => intro f; simp only [loadsOf, List.length_cons, ih]
      rw [hl, List.length_singleton]
      omega
    · obtain ⟨tail, htail⟩ := waitLoop_exhausted_ev query w ws2
        { s with flag := flagAfter ws1 s.flag } 1 q st hw hc hs
      refine ⟨tail, ?_⟩
      rw [hmany, afterAll_ev, htail, hloads]
      simp
    · intro hq
      rw [hmany, waitLoop_not_ready query w ws2
        { s with flag := flagAfter ws1 s.flag } 1 q st hw hc hs hq, hloads, hflag]
      simp [Ret.afterAll, Ret.after]
  · intro pos v rest hl hpos hv hlen
    have hlen' : (pos.length : Int) < MAX_LOOP_COUNTER := by
      unfold MAX_LOOP_COUNTER; exact hlen
    have := waitLoop_drained query pos (none :: ws) s MAX_LOOP_COUNTER 0 v rest
      hl hpos hv hlen'
    unfold wait
    rw [this]
    refine ⟨rfl, rfl, ?_⟩
    intro r hr
    simp at hr

/-- Witness for C12: a running controller whose flag stays at 3 while the
stream answers not-ready; the window has 9,999,999 + 1 entries before the
query and one after it. -/
theorem wait_queries_after_full_budget_witness :
    (quietWindow.length : Int) + 1 = 10000000 ∧
    (waitLoop (fun _ => .gpuErrorNotReady) (quietWindow ++ none :: [none]) busy
        MAX_LOOP_COUNTER 0
      = (waitLoop (fun _ => .gpuErrorNotReady) [none]
          { busy with flag := flagAfter (quietWindow ++ [none]) busy.flag }
          MAX_LOOP_COUNTER (0 + 1)).afterAll
          ((loadsOf (quietWindow ++ [none]) busy.flag).map .atomicLoad
            ++ [.query .gpuErrorNotReady])) :=
  have hlen : (quietWindow.length : Int) + 1 = 10000000 := by
    unfold quietWindow
    rw [List.length_replicate]
    rfl
  have hquiet : ∀ w ∈ quietWindow ++ [none], w = (none : Option Int) := by
    intro w hw
    rcases List.mem_append.mp hw with h | h
    · exact List.eq_of_mem_replicate h
    · exact List.mem_singleton.mp h
  have hpos : ∀ v ∈ loadsOf (quietWindow ++ [none]) busy.flag, 0 < v := by
    intro v hv
    rw [loadsOf_quiet _ _ hquiet v hv]
    decide
  ⟨hlen,
   ((wait_queries_after_full_budget (fun _ => .gpuErrorNotReady) busy [] 1 rfl).2.1
      quietWindow none [none] 0 hlen hpos).2 rfl⟩

/-! ## `get_elapsed_msec` and the timing state -/

/-- The state `measured` is reached from a fresh compiled controller by a
timed launch on stream 1 followed by a stop that measures 42. -/
theorem measured_reachable : Reachable measured :=
  Reachable.stop (fun _ => .gpuSuccess) 42 []
    (Reachable.launch (some 1) false (Reachable.init fresh rfl rfl))

/-- With a stream bound, `launch` changes at most the stored interval, which
it sets to `-1`. -/
theorem launch_bound_st (stream : Stream) (disable_timing : Bool)
    (s : GpuLoopKernel) (st : Nat) (hb : s.stream_ = some st) :
    (launch stream disable_timing s).st = { s with elapsed_msec_ := -1 } := by
  obtain ⟨c, f, b, r, e⟩ := s
  simp only at hb
  subst hb
  cases c <;> cases stream <;> simp [launch]
  split_ifs <;> rfl

/-- Between a call that left a stream bound and the following `stop()`, the
stream binding, the recording status and the compiled status stay as they
are, and the stored interval is the one left by that call or `-1`. -/
theorem BeforeStop_frame (s0 t : GpuLoopKernel) (st : Nat)
    (hb : s0.stream_ = some st) (h : BeforeStop s0 t) :
    t.stream_ = some st ∧ t.is_recording_ = s0.is_recording_ ∧
    t.compiled = s0.compiled ∧
    (t.elapsed_msec_ = s0.elapsed_msec_ ∨ t.elapsed_msec_ = -1) := by
  induction h with
  | start => exact ⟨hb, rfl, rfl, Or.inl rfl⟩
  | load c query ws _ ih => rw [load_frame c query _ ws]; exact ih
  | launch stream dt _ ih =>
    rw [launch_bound_st stream dt _ st ih.1]
    exact ⟨ih.1, ih.2.1, ih.2.2.1, Or.inr rfl⟩
  | run iter ws _ ih => rw [run_frame iter _ ws]; exact ih
  | poll _ ih => exact ih
  | wait query ws _ ih => rw [wait_frame query _ ws]; exact ih
  | get_elapsed_msec _ ih =>
    unfold get_elapsed_msec
    split_ifs <;> exact ih

/-- A launch that starts a run: on a reachable, compiled controller with no
stream bound it returns with the stream bound, the stored interval `-1`, and
a timed run in flight exactly when timing is enabled. -/
theorem launch_starts_run (st : Nat) (disable_timing : Bool) (s : GpuLoopKernel)
    (hr : Reachable s) (hc : s.compiled = true) (hn : s.stream_ = none) :
    (launch (some st) disable_timing s).res = .ret () ∧
    (launch (some st) disable_timing s).st.stream_ = some st ∧
    (launch (some st) disable_timing s).st.is_recording_ = !disable_timing ∧
    (launch (some st) disable_timing s).st.elapsed_msec_ = -1 := by
  have hi := (Inv_of_Reachable s hr).2
  obtain ⟨c, f, b, r, e⟩ := s
  simp only at hc hn hi
  subst hc hn
  cases disable_timing <;> cases r <;> simp_all [launch]

/-- C13: `get_elapsed_msec()` raises an invalid-usage error exactly when
`is_recording_` is set; otherwise it returns the stored interval; in both
cases it changes no state and performs no action.  `is_recording_` is set
exactly while a timed run is in flight: at every point between a launch that
started a run and the following `stop()` it is set if and only if that launch
had timing enabled, it is clear after a `stop()` that returned, and it is
clear in every reachable state without a bound stream. -/
theorem get_elapsed_msec_fails_iff_recording (s : GpuLoopKernel) :
    ((get_elapsed_msec s).res = .InvalidUsageError ↔ s.is_recording_ = true) ∧
    (s.is_recording_ = false → (get_elapsed_msec s).res = .ret s.elapsed_msec_) ∧
    (get_elapsed_msec s).st = s ∧ (get_elapsed_msec s).ev = [] ∧
    (∀ (st : Nat) (disable_timing : Bool) (s0 : GpuLoopKernel), Reachable s0 →
      s0.compiled = true → s0.stream_ = none →
      BeforeStop (launch (some st) disable_timing s0).st s →
      (s.is_recording_ = true ↔ disable_timing = false)) ∧
    (∀ (query : Nat → gpuError) (interval : Msec) (s0 : GpuLoopKernel) (ws : Ticks),
      (stop query interval s0 ws).res = .ret () →
      s = (stop query interval s0 ws).st → s.is_recording_ = false) ∧
    (Reachable s → s.stream_ = none → s.is_recording_ = false) := by
  refine ⟨?_, ?_, ?_, ?_, ?_, ?_, ?_⟩
  · cases h : s.is_recording_ <;> simp [get_elapsed_msec, h]
  · intro h; simp [get_elapsed_msec, h]
  · unfold get_elapsed_msec; split_ifs <;> rfl
  · unfold get_elapsed_msec; split_ifs <;> rfl
  · intro st dt s0 hr hc hn hb
    obtain ⟨_, h2, h3, _⟩ := launch_starts_run st dt s0 hr hc hn
    obtain ⟨_, h5, _, _⟩ := BeforeStop_frame _ s st h2 hb
    rw [h5, h3]
    cases dt <;> simp
  · intro query interval s0 ws hret hs
    have hw : (wait query s0 ws).res = .ret () := by
      by_contra hw
      rw [stop_of_wait_not_ret query interval s0 ws hw] at hret
      exact hw hret
    have hcase : s0.stream_ = none ∨ ∃ st, s0.stream_ = some st := by
      cases s0.stream_ <;> simp
    rcases hcase with hb | ⟨st, hb⟩
    · rw [stop_of_wait_ret_unbound query interval s0 ws hw hb] at hret
      cases hret
    · rw [hs, stop_of_wait_ret query interval s0 ws st hw hb]
  · intro hr hn
    have hi := (Inv_of_Reachable s hr).2
    cases h : s.is_recording_
    · rfl
    · exact absurd hn (hi h)

/-- C14 (as amended): after a launch that started a run (reachable, compiled
controller, no stream bound, non-null stream), at every point before the
following `stop()`, `get_elapsed_msec()` fails with an invalid-usage error
when the launch had timing enabled, and returns `-1` without error when the
launch had timing disabled. -/
theorem get_elapsed_msec_between_launch_and_stop (st : Nat)
    (disable_timing : Bool) (s0 t : GpuLoopKernel) (hr : Reachable s0)
    (hc : s0.compiled = true) (hn : s0.stream_ = none)
    (ht : BeforeStop (launch (some st) disable_timing s0).st t) :
    (launch (some st) disable_timing s0).res = .ret () ∧
    (disable_timing = false → (get_elapsed_msec t).res = .InvalidUsageError) ∧
    (disable_timing = true → (get_elapsed_msec t).res = .ret (-1)) := by
  obtain ⟨h1, h2, h3, h4⟩ := launch_starts_run st disable_timing s0 hr hc hn
  obtain ⟨_, h5, _, h6⟩ := BeforeStop_frame _ t st h2 ht
  rw [h3] at h5
  rw [h4] at h6
  have he : t.elapsed_msec_ = -1 := by rcases h6 with h | h <;> exact h
  refine ⟨h1, ?_, ?_⟩
  · intro hd
    subst hd
    simp [get_elapsed_msec, h5]
  · intro hd
    subst hd
    simp [get_elapsed_msec, h5, he]

/-- Witness for C14: a timed launch on stream 1 of a fresh controller, then
`run(3)` and `poll()`, then `get_elapsed_msec()`. -/
theorem get_elapsed_msec_between_launch_and_stop_witness :
    (get_elapsed_msec (poll (run 3 (launch (some 1) false fresh).st []).st).st).res
      = .InvalidUsageError :=
  (get_elapsed_msec_between_launch_and_stop 1 false fresh
    (poll (run 3 (launch (some 1) false fresh).st []).st).st
    (Reachable.init fresh rfl rfl) rfl rfl
    (BeforeStop.poll (BeforeStop.run 3 [] BeforeStop.start))).2.1 rfl

/-- C14 (as stated) fails: after an untimed launch on a fresh controller,
which returns, `get_elapsed_msec()` does not fail; it returns `-1`. -/
theorem get_elapsed_msec_after_untimed_launch :
    (launch (some 1) true fresh).res = .ret () ∧
    (get_elapsed_msec (launch (some 1) true fresh).st).res = .ret (-1) := by
  decide

/-- C15 (as amended): a `launch` that fails with an invalid-usage error
performs no action and leaves the flag, the stream binding, the recording
status and the compiled status as they were, but sets the stored interval to
`-1`; a `get_elapsed_msec()` after it fails if a timed run is in flight and
otherwise returns `-1`. -/
theorem launch_failure_resets_interval (stream : Stream) (disable_timing : Bool)
    (s : GpuLoopKernel)
    (h : (launch stream disable_timing s).res = .InvalidUsageError) :
    (launch stream disable_timing s).st = { s with elapsed_msec_ := -1 } ∧
    (launch stream disable_timing s).ev = [] ∧
    (get_elapsed_msec (launch stream disable_timing s).st).res
      = (if s.is_recording_ then .InvalidUsageError else .ret (-1)) := by
  obtain ⟨c, f, b, r, e⟩ := s
  cases c <;> cases stream <;> cases b <;> cases r <;>
    simp_all [launch, get_elapsed_msec]
  all_goals (split_ifs at h ⊢ <;> simp_all)

/-- Witness for C15: a launch with a null stream on a controller that holds a
measured interval. -/
theorem launch_failure_resets_interval_witness :
    (launch none false measured).res = .InvalidUsageError ∧
    (launch none false measured).st = { measured with elapsed_msec_ := -1 } :=
  ⟨by decide, (launch_failure_resets_interval none false measured (by decide)).1⟩

/-- C15 (as stated) fails: on a controller that holds a measured interval of
42, a state reached by a timed launch and a stop, `get_elapsed_msec()` returns
42; a launch with a null stream fails with an invalid-usage error; after it
`get_elapsed_msec()` returns `-1`. -/
theorem launch_failure_changes_interval :
    Reachable measured ∧
    (get_elapsed_msec measured).res = .ret 42 ∧
    (launch none false measured).res = .InvalidUsageError ∧
    (get_elapsed_msec (launch none false measured).st).res = .ret (-1) :=
  ⟨measured_reachable, by decide, by decide, by decide⟩

/-! ## `load`: theorems -/

/-- The loop of `wait` only loads the flag, queries the stream and logs. -/
theorem waitLoop_events (query : Nat → gpuError) :
    ∀ (ws : Ticks) (s : GpuLoopKernel) (cnt : Int) (q : Nat),
    ∀ e ∈ (waitLoop query ws s cnt q).ev,
      e.isDeviceWrite = false ∧ e.isLookup = false := by
  intro ws
  induction ws with
  | nil => intro s cnt q e he; simp [waitLoop_nil] at he
  | cons w ws ih =>
    intro s cnt q e he
    by_cases hv : w.getD s.flag > 0
    · by_cases hc : cnt - 1 > 0
      · rw [waitLoop_spin query w ws s cnt q hv hc, after_ev, List.mem_cons] at he
        rcases he with rfl | he
        · exact ⟨rfl, rfl⟩
        · exact ih _ _ _ e he
      · have hcase : s.stream_ = none ∨ ∃ st, s.stream_ = some st := by
          cases s.stream_ <;> simp
        rcases hcase with hs | ⟨st, hs⟩
        · rw [waitLoop_null query w ws s cnt q hv hc hs] at he
          simp only [List.mem_singleton] at he
          subst he; exact ⟨rfl, rfl⟩
        · by_cases hq1 : query q = .gpuSuccess
          · cases ws with
            | nil =>
              rw [waitLoop_success_end query w s cnt q st hv hc hs hq1] at he
              simp only [List.mem_cons, List.mem_singleton, List.not_mem_nil, or_false] at he
              rcases he with rfl | rfl <;> exact ⟨rfl, rfl⟩
            | cons w2 ws =>
              rw [waitLoop_success query w w2 ws s cnt q st hv hc hs hq1] at he
              simp only [List.mem_cons, List.mem_singleton, List.not_mem_nil, or_false] at he
              rcases he with rfl | rfl | rfl | rfl <;> exact ⟨rfl, rfl⟩
          · by_cases hq2 : query q = .gpuErrorNotReady
            · rw [waitLoop_not_ready query w ws s cnt q st hv hc hs hq2, after_ev,
                after_ev, List.mem_cons, List.mem_cons] at he
              rcases he with rfl | rfl | he
              · exact ⟨rfl, rfl⟩
              · exact ⟨rfl, rfl⟩
              · exact ih _ _ _ e he
            · rw [waitLoop_error query w ws s cnt q st hv hc hs hq1 hq2] at he
              simp only [List.mem_cons, List.mem_singleton, List.not_mem_nil, or_false] at he
              rcases he with rfl | rfl <;> exact ⟨rfl, rfl⟩
    · rw [waitLoop_nonpos query w ws s cnt q hv] at he
      simp only [List.mem_singleton] at he
      subst he; exact ⟨rfl, rfl⟩

/-- C16: on a controller that is not compiled, `load()` raises an
invalid-usage error whether or not a stream is bound; it has then performed
no action at all (no lookup, no write to device memory, no wait) and the
controller state is as it was. -/
theorem load_not_compiled (c : LoadEnv) (query : Nat → gpuError)
    (s : GpuLoopKernel) (ws : Ticks) (h : s.compiled = false) :
    (load c query s ws).res = .InvalidUsageError ∧
    (load c query s ws).ev = [] ∧ (load c query s ws).st = s := by
  simp [load, h]

/-- Witness for C16: `load()` on a controller that is not compiled and has
stream 1 bound. -/
theorem load_not_compiled_witness :
    (load healthyEnv (fun _ => .gpuSuccess) ⟨false, 3, some 1, false, -1⟩ []).ev
      = [] :=
  (load_not_compiled healthyEnv (fun _ => .gpuSuccess)
    ⟨false, 3, some 1, false, -1⟩ [] rfl).2.1

/-- C17: on a compiled controller with a stream bound, `load()` is `wait()`:
same outcome, same state, same actions; none of its actions is a symbol
lookup or a write to device memory. -/
theorem load_while_bound_only_waits (c : LoadEnv) (query : Nat → gpuError)
    (s : GpuLoopKernel) (ws : Ticks) (st : Nat) (hc : s.compiled = true)
    (hb : s.stream_ = some st) :
    load c query s ws = wait query s ws ∧
    ∀ e ∈ (load c query s ws).ev,
      e.isDeviceWrite = false ∧ e.isLookup = false := by
  have h : load c query s ws = wait query s ws := by
    simp [load, hc, hb]
  refine ⟨h, ?_⟩
  rw [h]
  exact waitLoop_events query (none :: ws) s MAX_LOOP_COUNTER 0

/-- Witness for C17: `load()` on a running controller whose batch the device
drains after one more load. -/
theorem load_while_bound_only_waits_witness :
    (load healthyEnv (fun _ => .gpuErrorNotReady) busy [some 0]).ev
      = (wait (fun _ => .gpuErrorNotReady) busy [some 0]).ev :=
  congrArg Ret.ev
    (load_while_bound_only_waits healthyEnv (fun _ => .gpuErrorNotReady) busy
      [some 0] 1 rfl rfl).1

/-- Arithmetic on `int` is exact as long as the result fits 32 bits. -/
theorem int32_of_range (x : Int) (h1 : -2147483648 ≤ x) (h2 : x < 2147483648) :
    int32 x = x := by
  unfold int32; omega

/-- The peer loop of `load`, given enough unrolling, runs its body for
`i, i + 1, ..` up to the smaller of `hi` and the world size. -/
theorem loadPeers_eq (c : LoadEnv) (hi : Int) (hhi : hi < 2147483648) :
    ∀ (n : Nat) (i : Int), -2147483648 ≤ i →
    (min hi c.world_size - i).toNat ≤ n →
    loadPeers c hi n i
      = (List.range (min hi c.world_size - i).toNat).flatMap
          (fun j => loadPeer c (i + (j : Int))) := by
  intro n
  induction n with
  | zero =>
    intro i _ hn
    have h0 : (min hi c.world_size - i).toNat = 0 := Nat.le_zero.mp hn
    simp [loadPeers, h0]
  | succ n ih =>
    intro i hlo hn
    by_cases hcond : i < hi ∧ i < c.world_size
    · have hm : (min hi c.world_size - i).toNat
          = (min hi c.world_size - (i + 1)).toNat + 1 := by omega
      have hle : (min hi c.world_size - (i + 1)).toNat ≤ n := by omega
      have h32 : int32 (i + 1) = i + 1 := int32_of_range _ (by omega) (by omega)
      have hstep : loadPeers c hi (n + 1) i
          = loadPeer c i ++ loadPeers c hi n (i + 1) := by
        simp [loadPeers, hcond, h32]
      rw [hstep, ih (i + 1) (by omega) hle, hm, List.range_succ_eq_map]
      simp only [List.flatMap_cons, List.flatMap_map, Nat.cast_zero, add_zero]
      congr 1
      apply congrArg
      funext j
      simp only [Function.comp, Nat.cast_succ]
      congr 1
      ring
    · have h0 : (min hi c.world_size - i).toNat = 0 := by omega
      simp [loadPeers, hcond, h0]

/-- With a positive number of ranks per host, a non-negative rank and no
32-bit overflow, the peer block of `load` runs the peer body for the ranks
`peerRanks`, in this order, and raises nothing. -/
theorem loadDataBufs_eq (c : LoadEnv) (hr : 0 < c.num_ranks_per_host)
    (hg : 0 ≤ c.gpu_id) (hno : c.gpu_id + c.num_ranks_per_host < 2147483648) :
    loadDataBufs c = ((peerRanks c).flatMap (loadPeer c), none) := by
  have hq : Int.tdiv c.gpu_id c.num_ranks_per_host
      = c.gpu_id / c.num_ranks_per_host := Int.tdiv_eq_ediv hg (le_of_lt hr)
  have hq0 : 0 ≤ c.gpu_id / c.num_ranks_per_host := Int.ediv_nonneg hg (le_of_lt hr)
  have hqle : c.gpu_id / c.num_ranks_per_host ≤ c.gpu_id := Int.ediv_le_self _ hg
  have hmul : c.gpu_id / c.num_ranks_per_host * c.num_ranks_per_host ≤ c.gpu_id :=
    Int.ediv_mul_le _ (ne_of_gt hr)
  have hmul0 : 0 ≤ c.gpu_id / c.num_ranks_per_host * c.num_ranks_per_host :=
    mul_nonneg hq0 (le_of_lt hr)
  have hexp : (c.gpu_id / c.num_ranks_per_host + 1) * c.num_ranks_per_host
      = c.gpu_id / c.num_ranks_per_host * c.num_ranks_per_host
        + c.num_ranks_per_host := by ring
  have e1 : int32 (c.gpu_id / c.num_ranks_per_host)
      = c.gpu_id / c.num_ranks_per_host := int32_of_range _ (by omega) (by omega)
  have e2 : int32 (c.gpu_id / c.num_ranks_per_host * c.num_ranks_per_host)
      = c.gpu_id / c.num_ranks_per_host * c.num_ranks_per_host :=
    int32_of_range _ (by omega) (by omega)
  have e3 : int32 (c.gpu_id / c.num_ranks_per_host + 1)
      = c.gpu_id / c.num_ranks_per_host + 1 := int32_of_range _ (by omega) (by omega)
  have e4 : int32 ((c.gpu_id / c.num_ranks_per_host + 1) * c.num_ranks_per_host)
      = c.gpu_id / c.num_ranks_per_host * c.num_ranks_per_host
        + c.num_ranks_per_host := by
    rw [hexp]; exact int32_of_range _ (by omega) (by omega)
  have hne : c.num_ranks_per_host ≠ 0 := ne_of_gt hr
  unfold loadDataBufs peerRanks hostFirst
  simp only [hne, if_false, hq, e1, e2, e3, e4]
  rw [loadPeers_eq c _ (by omega) _ _ (by omega) (by omega), List.flatMap_map]

/-- The ranks `peerRanks` are exactly the ranks of the host of this device. -/
theorem mem_peerRanks_iff (c : LoadEnv) (hr : 0 < c.num_ranks_per_host)
    (hg : 0 ≤ c.gpu_id) (i : Int) :
    i ∈ peerRanks c ↔
      (0 ≤ i ∧ i < c.world_size ∧
        Int.tdiv i c.num_ranks_per_host
          = Int.tdiv c.gpu_id c.num_ranks_per_host) := by
  have hq : Int.tdiv c.gpu_id c.num_ranks_per_host
      = c.gpu_id / c.num_ranks_per_host := Int.tdiv_eq_ediv hg (le_of_lt hr)
  have hq0 : 0 ≤ c.gpu_id / c.num_ranks_per_host := Int.ediv_nonneg hg (le_of_lt hr)
  have hmul0 : 0 ≤ c.gpu_id / c.num_ranks_per_host * c.num_ranks_per_host :=
    mul_nonneg hq0 (le_of_lt hr)
  have hexp : (c.gpu_id / c.num_ranks_per_host + 1) * c.num_ranks_per_host
      = c.gpu_id / c.num_ranks_per_host * c.num_ranks_per_host
        + c.num_ranks_per_host := by ring
  have hmem : i ∈ peerRanks c ↔
      (c.gpu_id / c.num_ranks_per_host * c.num_ranks_per_host ≤ i ∧
        i < c.gpu_id / c.num_ranks_per_host * c.num_ranks_per_host
              + c.num_ranks_per_host ∧ i < c.world_size) := by
    unfold peerRanks hostFirst
    rw [hq]
    simp only [List.mem_map, List.mem_range]
    constructor
    · rintro ⟨j, hj, rfl⟩
      omega
    · rintro ⟨h1, h2, h3⟩
      refine ⟨(i - c.gpu_id / c.num_ranks_per_host * c.num_ranks_per_host).toNat,
        by omega, by omega⟩
  rw [hmem, hq]
  constructor
  · rintro ⟨h1, h2, h3⟩
    have hi0 : 0 ≤ i := le_trans hmul0 h1
    refine ⟨hi0, h3, ?_⟩
    rw [Int.tdiv_eq_ediv hi0 (le_of_lt hr)]
    apply le_antisymm
    · have : i / c.num_ranks_per_host < c.gpu_id / c.num_ranks_per_host + 1 := by
        rw [Int.ediv_lt_iff_lt_mul hr, hexp]; exact h2
      omega
    · rw [Int.le_ediv_iff_mul_le hr]; exact h1
  · rintro ⟨hi0, h3, h4⟩
    rw [Int.tdiv_eq_ediv hi0 (le_of_lt hr)] at h4
    refine ⟨?_, ?_, h3⟩
    · rw [← h4]; exact Int.ediv_mul_le _ (ne_of_gt hr)
    · rw [← hexp, ← h4]; exact Int.lt_ediv_add_one_mul_self _ hr

/-- The peer body for rank `i` issues a copy of that rank's pointer exactly
when the rank has a data buffer and the lookup of its slot did not report
not-found. -/
theorem loadPeer_write_iff (c : LoadEnv) (i : Int) :
    (∃ dst, Event.memcpy_htod dst (.pointer (c.data_memory_of i)) ∈ loadPeer c i) ↔
      (c.data_memory_of i ≠ 0 ∧
        (c.gpuModuleGetGlobal (.data_buf i)).1 ≠ .gpuErrorNotFound) := by
  unfold loadPeer
  by_cases h0 : c.data_memory_of i = 0
  · simp [h0]
  · by_cases h1 : (c.gpuModuleGetGlobal (.data_buf i)).1 = .gpuErrorNotFound
    · simp [h0, h1]
    · simp [h0, h1]

/-- The peer body for rank `i` copies that rank's pointer to the address the
lookup of its slot returned exactly when the rank has a data buffer and the
lookup succeeded. -/
theorem loadPeer_slot_write_iff (c : LoadEnv) (i : Int) :
    Event.memcpy_htod (some (c.gpuModuleGetGlobal (.data_buf i)).2)
        (.pointer (c.data_memory_of i)) ∈ loadPeer c i ↔
      (c.data_memory_of i ≠ 0 ∧
        (c.gpuModuleGetGlobal (.data_buf i)).1 = .gpuDrvSuccess) := by
  unfold loadPeer
  by_cases h0 : c.data_memory_of i = 0
  · simp [h0]
  · by_cases h1 : (c.gpuModuleGetGlobal (.data_buf i)).1 = .gpuErrorNotFound
    · simp [h0, h1]
    · by_cases h2 : (c.gpuModuleGetGlobal (.data_buf i)).1 = .gpuDrvSuccess
      · simp [h0, h2]
      · simp [h0, h1, h2]

/-- Every write of the peer body for rank `i` copies that rank's pointer. -/
theorem loadPeer_writes (c : LoadEnv) (i : Int) :
    ∀ e ∈ loadPeer c i, e.isDeviceWrite = true →
      ∃ dst, e = .memcpy_htod dst (.pointer (c.data_memory_of i)) := by
  intro e he hw
  unfold loadPeer at he
  by_cases h0 : c.data_memory_of i = 0
  · simp [h0] at he
  · by_cases h1 : (c.gpuModuleGetGlobal (.data_buf i)).1 = .gpuErrorNotFound
    · simp [h0, h1] at he
      subst he
      simp [Event.isDeviceWrite] at hw
    · simp [h0, h1] at he
      rcases he with rfl | rfl
      · simp [Event.isDeviceWrite] at hw
      · exact ⟨_, rfl⟩

/-- Sequencing after a run of statements that fell through. -/
theorem andThen_of_none (a b : Block) (h : a.2 = none) :
    a.andThen b = (a.1 ++ b.1, b.2) := by
  simp [Block.andThen, h]

/-- Sequencing after a run of statements that was left early. -/
theorem andThen_of_some (a b : Block) (o : Outcome Unit) (h : a.2 = some o) :
    a.andThen b = a := by
  simp [Block.andThen, h]

/-- The actions of two runs in sequence start like the actions of the first
followed by those of the second. -/
theorem andThen_initial (a b : Block) : (a.andThen b).1 <+: a.1 ++ b.1 := by
  cases h : a.2 with
  | none => rw [andThen_of_none a b h]
  | some o => rw [andThen_of_some a b o h]; exact List.prefix_append _ _

/-- Every action of two runs in sequence is an action of one of them. -/
theorem andThen_mem (a b : Block) (e : Event) (h : e ∈ (a.andThen b).1) :
    e ∈ a.1 ∨ e ∈ b.1 :=
  List.mem_append.mp ((andThen_initial a b).subset h)

/-- Two runs in sequence fell through only if both did, and then all their
actions were performed. -/
theorem andThen_none (a b : Block) (h : (a.andThen b).2 = none) :
    a.2 = none ∧ b.2 = none ∧ (a.andThen b).1 = a.1 ++ b.1 := by
  cases ha : a.2 with
  | none =>
    rw [andThen_of_none a b ha] at h ⊢
    exact ⟨rfl, h, rfl⟩
  | some o =>
    rw [andThen_of_some a b o ha, ha] at h
    cases h

/-- Two runs in sequence do not end in a return if neither does. -/
theorem andThen_no_ret (a b : Block) (ha : a.2 ≠ some (.ret ()))
    (hb : b.2 ≠ some (.ret ())) : (a.andThen b).2 ≠ some (.ret ()) := by
  cases h : a.2 with
  | none => rw [andThen_of_none a b h]; exact hb
  | some o => rw [andThen_of_some a b o h]; exact ha

theorem GLOG_DRV_no_ret (name : Symbol) (r : gpuDrvError) :
    (GLOG_DRV name r).2 ≠ some (.ret ()) := by
  unfold GLOG_DRV
  split_ifs <;> simp

theorem loadGlobals_no_ret (c : LoadEnv) : (loadGlobals c).2 ≠ some (.ret ()) := by
  unfold loadGlobals
  exact andThen_no_ret _ _ (GLOG_DRV_no_ret _ _)
    (andThen_no_ret _ _ (GLOG_DRV_no_ret _ _) (by simp))

theorem loadOptionalLss_no_ret (c : LoadEnv) (name : Symbol) :
    (loadOptionalLss c name).2 ≠ some (.ret ()) := by
  unfold loadOptionalLss
  simp only []
  split_ifs
  · simp
  · exact GLOG_DRV_no_ret _ _
  · simp

theorem loadDataBufs_no_ret (c : LoadEnv) : (loadDataBufs c).2 ≠ some (.ret ()) := by
  unfold loadDataBufs
  simp only []
  split_ifs <;> simp

theorem loadChannels_no_ret (c : LoadEnv) (num : Int) (name : Symbol)
    (ref bytes : Nat) : (loadChannels c num name ref bytes).2 ≠ some (.ret ()) := by
  unfold loadChannels
  split_ifs
  · exact andThen_no_ret _ _ (GLOG_DRV_no_ret _ _) (by simp)
  · simp

/-- On a compiled controller with no stream bound, `load()` runs the
statements `loadBlocks` and leaves the controller state as it was. -/
theorem load_idle (c : LoadEnv) (query : Nat → gpuError) (s : GpuLoopKernel)
    (ws : Ticks) (hc : s.compiled = true) (hn : s.stream_ = none) :
    load c query s ws = ⟨(loadBlocks c).2.getD (.ret ()), s, (loadBlocks c).1⟩ := by
  simp [load, loadBlocks, hc, hn]

/-- When the statements of `load()` returned, none of its six parts was left
early, and the actions are those of the six parts in program order. -/
theorem loadBlocks_ret (c : LoadEnv)
    (h : (loadBlocks c).2.getD (.ret ()) = .ret ()) :
    (loadGlobals c).2 = none ∧ (loadOptionalLss c .lss_0).2 = none ∧
    (loadOptionalLss c .lss_1).2 = none ∧ (loadDataBufs c).2 = none ∧
    (loadChannels c c.proxy_channels_num .proxy_chans
      c.proxy_channels_ref c.proxy_channels_bytes).2 = none ∧
    (loadChannels c c.sm_channels_num .sm_chans
      c.sm_channels_ref c.sm_channels_bytes).2 = none ∧
    (loadBlocks c).1
      = (loadGlobals c).1 ++ ((loadOptionalLss c .lss_0).1 ++
          ((loadOptionalLss c .lss_1).1 ++ ((loadDataBufs c).1 ++
            ((loadChannels c c.proxy_channels_num .proxy_chans
                c.proxy_channels_ref c.proxy_channels_bytes).1 ++
              (loadChannels c c.sm_channels_num .sm_chans
                c.sm_channels_ref c.sm_channels_bytes).1)))) := by
  have hno : (loadBlocks c).2 ≠ some (.ret ()) := by
    unfold loadBlocks
    exact andThen_no_ret _ _ (loadGlobals_no_ret c)
      (andThen_no_ret _ _ (loadOptionalLss_no_ret c _)
        (andThen_no_ret _ _ (loadOptionalLss_no_ret c _)
          (andThen_no_ret _ _ (loadDataBufs_no_ret c)
            (andThen_no_ret _ _ (loadChannels_no_ret c _ _ _ _)
              (loadChannels_no_ret c _ _ _ _)))))
  have hnone : (loadBlocks c).2 = none := by
    cases hb : (loadBlocks c).2 with
    | none => rfl
    | some o =>
      rw [hb] at h hno
      simp only [Option.getD_some] at h
      rw [h] at hno
      exact absurd rfl hno
  unfold loadBlocks at hnone ⊢
  obtain ⟨h1, r1, e1⟩ := andThen_none _ _ hnone
  obtain ⟨h2, r2, e2⟩ := andThen_none _ _ r1
  obtain ⟨h3, r3, e3⟩ := andThen_none _ _ r2
  obtain ⟨h4, r4, e4⟩ := andThen_none _ _ r3
  obtain ⟨h5, h6, e5⟩ := andThen_none _ _ r4
  refine ⟨h1, h2, h3, h4, h5, h6, ?_⟩
  rw [e1, e2, e3, e4, e5]

/-- The peer loop of `load()`: with `r > 0` ranks per host, a non-negative rank
of this device and no 32-bit overflow, the peer loop runs its body for the ranks
`i` with `0 <= i < world_size` and `i / r == gpu_id / r`, each once in
increasing order, and for no other rank.  Its body for rank `i` copies a raw
pointer exactly when rank `i` has a non-null data buffer and the lookup of
its slot did not report not-found; the pointer copied is that of rank `i`,
and it goes to the address the lookup returned exactly when the lookup
succeeded.  In an idle `load()` that returns, these are the actions between
those on the barrier states and those on the channel tables. -/
theorem load_writes_host_local_pointers (c : LoadEnv)
    (hr : 0 < c.num_ranks_per_host) (hg : 0 ≤ c.gpu_id)
    (hno : c.gpu_id + c.num_ranks_per_host < 2147483648) :
    loadDataBufs c = ((peerRanks c).flatMap (loadPeer c), none) ∧
    (peerRanks c).Nodup ∧
    (∀ i : Int, i ∈ peerRanks c ↔
      (0 ≤ i ∧ i < c.world_size ∧
        Int.tdiv i c.num_ranks_per_host
          = Int.tdiv c.gpu_id c.num_ranks_per_host)) ∧
    (∀ i : Int,
      (∃ dst, Event.memcpy_htod dst (.pointer (c.data_memory_of i)) ∈ loadPeer c i) ↔
        (c.data_memory_of i ≠ 0 ∧
          (c.gpuModuleGetGlobal (.data_buf i)).1 ≠ .gpuErrorNotFound)) ∧
    (∀ i : Int,
      Event.memcpy_htod (some (c.gpuModuleGetGlobal (.data_buf i)).2)
          (.pointer (c.data_memory_of i)) ∈ loadPeer c i ↔
        (c.data_memory_of i ≠ 0 ∧
          (c.gpuModuleGetGlobal (.data_buf i)).1 = .gpuDrvSuccess)) ∧
    (∀ (i : Int) (e : Event), e ∈ loadPeer c i → e.isDeviceWrite = true →
      ∃ dst, e = .memcpy_htod dst (.pointer (c.data_memory_of i))) ∧
    (∀ (query : Nat → gpuError) (s : GpuLoopKernel) (ws : Ticks),
      s.compiled = true → s.stream_ = none →
      (load c query s ws).res = .ret () →
      (load c query s ws).ev
        = (loadGlobals c).1 ++ ((loadOptionalLss c .lss_0).1 ++
            ((loadOptionalLss c .lss_1).1 ++ ((peerRanks c).flatMap (loadPeer c) ++
              ((loadChannels c c.proxy_channels_num .proxy_chans
                  c.proxy_channels_ref c.proxy_channels_bytes).1 ++
                (loadChannels c c.sm_channels_num .sm_chans
                  c.sm_channels_ref c.sm_channels_bytes).1))))) := by
  have hblock := loadDataBufs_eq c hr hg hno
  refine ⟨hblock, ?_, mem_peerRanks_iff c hr hg, loadPeer_write_iff c,
    loadPeer_slot_write_iff c, loadPeer_writes c, ?_⟩
  · unfold peerRanks
    apply List.Nodup.map
    · intro a b hab
      simp only at hab
      omega
    · exact List.nodup_range _
  · intro query s ws hc hn hret
    rw [load_idle c query s ws hc hn] at hret ⊢
    obtain ⟨_, _, _, _, _, _, hev⟩ := loadBlocks_ret c hret
    simp only [hev, hblock]

/-- The peer loop on rank 3 of four ranks, two per host; rank 2 has a buffer
but no slot, rank 3 has both. -/
theorem load_writes_host_local_pointers_witness :
    (loadDataBufs healthyEnv).1
      = [.getGlobal (.data_buf 2) .gpuErrorNotFound,
         .getGlobal (.data_buf 3) .gpuDrvSuccess,
         .memcpy_htod (some 73) (.pointer 203)] ∧
    ((3 : Int) ∈ peerRanks healthyEnv ↔
      ((0 : Int) ≤ 3 ∧ (3 : Int) < healthyEnv.world_size ∧
        Int.tdiv 3 healthyEnv.num_ranks_per_host
          = Int.tdiv healthyEnv.gpu_id healthyEnv.num_ranks_per_host)) :=
  ⟨by decide,
   (load_writes_host_local_pointers healthyEnv (by decide) (by decide)
      (by decide)).2.2.1 3⟩

/-- C18 fails on the code: in an idle `load()` on rank 3 of four ranks, two per
host, rank 3 is host-local and has a data buffer (at 203), and the lookup of
its device-global slot fails with driver status 700, so no slot was found;
`load()` still returns and has copied the raw pointer of rank 3, through the
address variable that the lookup never wrote.  The same holds for every rank
with a data buffer whose lookup ends with a status that is neither success
nor not-found: the peer body does the lookup and then copies the pointer
through the unwritten address. -/
theorem load_writes_pointer_without_slot :
    ((0 : Int) < faultyEnv.num_ranks_per_host ∧ (0 : Int) ≤ 3 ∧
      (3 : Int) < faultyEnv.world_size ∧
      Int.tdiv 3 faultyEnv.num_ranks_per_host
        = Int.tdiv faultyEnv.gpu_id faultyEnv.num_ranks_per_host ∧
      faultyEnv.data_memory_of 3 = 203) ∧
    ((faultyEnv.gpuModuleGetGlobal (.data_buf 3)).1 = .other 700 ∧
      (faultyEnv.gpuModuleGetGlobal (.data_buf 3)).1 ≠ .gpuDrvSuccess) ∧
    stopped.compiled = true ∧ stopped.stream_ = none ∧
    (load faultyEnv (fun _ => .gpuSuccess) stopped []).res = .ret () ∧
    Event.memcpy_htod none (.pointer 203)
      ∈ (load faultyEnv (fun _ => .gpuSuccess) stopped []).ev ∧
    (∀ e ∈ (load faultyEnv (fun _ => .gpuSuccess) stopped []).ev,
      e ≠ Event.getGlobal (.data_buf 3) .gpuDrvSuccess) ∧
    (∀ (c : LoadEnv) (i : Int), c.data_memory_of i ≠ 0 →
      (c.gpuModuleGetGlobal (.data_buf i)).1 ≠ .gpuErrorNotFound →
      (c.gpuModuleGetGlobal (.data_buf i)).1 ≠ .gpuDrvSuccess →
      loadPeer c i
        = [.getGlobal (.data_buf i) (c.gpuModuleGetGlobal (.data_buf i)).1,
           .memcpy_htod none (.pointer (c.data_memory_of i))]) := by
  refine ⟨by decide, by decide, rfl, rfl, by decide, by decide, by decide, ?_⟩
  intro c i h0 h1 h2
  unfold loadPeer
  simp [h0, h1, h2]

/-- C19 fails on the code: in an idle `load()` where the lookup of the slot
of host-local rank 3 fails with driver status 700, neither success nor
not-found, the call does not abort: it copies the pointer of rank 3 through
the address variable the failed lookup never wrote, goes on to the channel
tables, and returns. -/
theorem load_peer_lookup_failure_not_raised :
    (faultyEnv.gpuModuleGetGlobal (.data_buf 3)).1 = .other 700 ∧
    (3 : Int) ∈ peerRanks faultyEnv ∧
    (load faultyEnv (fun _ => .gpuSuccess) fresh []).res = .ret () ∧
    (load faultyEnv (fun _ => .gpuSuccess) fresh []).ev
      = [.getGlobal .lss .gpuDrvSuccess, .getGlobal .buf .gpuDrvSuccess,
         .memcpy_htod (some 10) .zeros4, .memcpy_htod (some 20) (.pointer 203),
         .getGlobal .lss_0 .gpuDrvSuccess, .memcpy_htod (some 30) .zeros4,
         .getGlobal .lss_1 .gpuErrorNotFound,
         .getGlobal (.data_buf 2) .gpuErrorNotFound,
         .getGlobal (.data_buf 3) (.other 700),
         .memcpy_htod none (.pointer 203),
         .getGlobal .proxy_chans .gpuDrvSuccess,
         .memcpy_htod (some 80) (.table 900 64)] := by
  refine ⟨by decide, ?_, by decide, by decide⟩
  decide

/-! ## `load`: the channel-descriptor tables -/

theorem loadGlobals_not_channel (c : LoadEnv) :
    ∀ e ∈ (loadGlobals c).1, e.isChannel = false := by
  intro e he
  unfold loadGlobals at he
  rcases andThen_mem _ _ e he with h | h
  · simp only [GLOG_DRV, List.mem_singleton] at h
    subst h; rfl
  · rcases andThen_mem _ _ e h with h | h
    · simp only [GLOG_DRV, List.mem_singleton] at h
      subst h; rfl
    · simp only [List.mem_cons, List.mem_singleton, List.not_mem_nil, or_false] at h
      rcases h with rfl | rfl <;> rfl

theorem loadOptionalLss_not_channel (c : LoadEnv) (name : Symbol)
    (h1 : name ≠ .proxy_chans) (h2 : name ≠ .sm_chans) :
    ∀ e ∈ (loadOptionalLss c name).1, e.isChannel = false := by
  intro e he
  have hlook : ∀ r, (Event.getGlobal name r).isChannel = false := by
    intro r
    cases name <;> first | rfl | exact absurd rfl h1 | exact absurd rfl h2
  unfold loadOptionalLss at he
  simp only [] at he
  split_ifs at he
  · simp only [List.mem_cons, List.mem_singleton, List.not_mem_nil, or_false] at he
    rcases he with rfl | rfl
    · exact hlook _
    · rfl
  · simp only [GLOG_DRV, List.mem_singleton] at he
    subst he; exact hlook _
  · simp only [List.mem_singleton] at he
    subst he; exact hlook _

theorem loadPeer_not_channel (c : LoadEnv) (i : Int) :
    ∀ e ∈ loadPeer c i, e.isChannel = false := by
  intro e he
  unfold loadPeer at he
  simp only [] at he
  split_ifs at he <;>
    simp only [List.mem_cons, List.mem_singleton, List.not_mem_nil, or_false] at he
  all_goals (rcases he with rfl | rfl <;> rfl)

theorem loadPeers_not_channel (c : LoadEnv) (hi : Int) :
    ∀ (n : Nat) (i : Int), ∀ e ∈ loadPeers c hi n i, e.isChannel = false := by
  intro n
  induction n with
  | zero => intro i e he; simp [loadPeers] at he
  | succ n ih =>
    intro i e he
    unfold loadPeers at he
    split_ifs at he
    · rcases List.mem_append.mp he with h | h
      · exact loadPeer_not_channel c i e h
      · exact ih _ e h
    · simp at he

theorem loadDataBufs_not_channel (c : LoadEnv) :
    ∀ e ∈ (loadDataBufs c).1, e.isChannel = false := by
  intro e he
  unfold loadDataBufs at he
  simp only [] at he
  split_ifs at he
  · simp at he
  · exact loadPeers_not_channel c _ _ _ e he

/-- What the channel part of `load()` does for one kind of channel: nothing
when the count is not positive; else the lookup, which is raised when it
failed, and after a successful lookup the copy of the whole table to the
address found. -/
theorem loadChannels_cases (c : LoadEnv) (num : Int) (name : Symbol)
    (ref bytes : Nat) :
    loadChannels c num name ref bytes
      = if num > 0 then
          if (c.gpuModuleGetGlobal name).1 = .gpuDrvSuccess then
            ([.getGlobal name .gpuDrvSuccess,
              .memcpy_htod (some (c.gpuModuleGetGlobal name).2) (.table ref bytes)],
             none)
          else
            ([.getGlobal name (c.gpuModuleGetGlobal name).1],
             some (.DrvError (c.gpuModuleGetGlobal name).1))
        else ([], none) := by
  unfold loadChannels
  by_cases hnum : num > 0
  · by_cases hs : (c.gpuModuleGetGlobal name).1 = .gpuDrvSuccess
    · simp [hnum, hs, GLOG_DRV, Block.andThen]
    · simp [hnum, hs, GLOG_DRV, Block.andThen]
  · simp [hnum]

/-- The channel part of `load()` for one kind, when it was not left early. -/
theorem loadChannels_of_none (c : LoadEnv) (num : Int) (name : Symbol)
    (ref bytes : Nat) (h : (loadChannels c num name ref bytes).2 = none) :
    (loadChannels c num name ref bytes).1
      = if num > 0 then
          [.getGlobal name .gpuDrvSuccess,
           .memcpy_htod (some (c.gpuModuleGetGlobal name).2) (.table ref bytes)]
        else [] := by
  rw [loadChannels_cases] at h ⊢
  by_cases hnum : num > 0
  · by_cases hs : (c.gpuModuleGetGlobal name).1 = .gpuDrvSuccess
    · simp [hnum, hs]
    · simp [hnum, hs] at h
  · simp [hnum]

/-- Every action of the channel part of `load()` is a channel action. -/
theorem loadChannels_filter (c : LoadEnv) (num : Int) (name : Symbol)
    (ref bytes : Nat) (hname : name = .proxy_chans ∨ name = .sm_chans) :
    (loadChannels c num name ref bytes).1.filter Event.isChannel
      = (loadChannels c num name ref bytes).1 := by
  rw [List.filter_eq_self]
  intro e he
  rw [loadChannels_cases] at he
  split_ifs at he
  · simp only [List.mem_cons, List.mem_singleton, List.not_mem_nil, or_false] at he
    rcases hname with rfl | rfl <;> rcases he with rfl | rfl <;> rfl
  · simp only [List.mem_singleton] at he
    rcases hname with rfl | rfl <;> subst he <;> rfl
  · simp at he

/-- Of the actions of the six parts of `load()`, the channel actions are
those of its two channel parts. -/
theorem filter_channel_blocks (c : LoadEnv) :
    ((loadGlobals c).1 ++ ((loadOptionalLss c .lss_0).1 ++
        ((loadOptionalLss c .lss_1).1 ++ ((loadDataBufs c).1 ++
          ((loadChannels c c.proxy_channels_num .proxy_chans
              c.proxy_channels_ref c.proxy_channels_bytes).1 ++
            (loadChannels c c.sm_channels_num .sm_chans
              c.sm_channels_ref c.sm_channels_bytes).1))))).filter Event.isChannel
      = (loadChannels c c.proxy_channels_num .proxy_chans
            c.proxy_channels_ref c.proxy_channels_bytes).1 ++
          (loadChannels c c.sm_channels_num .sm_chans
            c.sm_channels_ref c.sm_channels_bytes).1 := by
  have hnil : ∀ l : List Event, (∀ e ∈ l, e.isChannel = false) →
      l.filter Event.isChannel = [] := by
    intro l hl
    rw [List.filter_eq_nil_iff]
    intro e he
    rw [hl e he]
    simp
  simp only [List.filter_append,
    hnil _ (loadGlobals_not_channel c),
    hnil _ (loadOptionalLss_not_channel c .lss_0 (by decide) (by decide)),
    hnil _ (loadOptionalLss_not_channel c .lss_1 (by decide) (by decide)),
    hnil _ (loadDataBufs_not_channel c),
    loadChannels_filter c _ .proxy_chans _ _ (Or.inl rfl),
    loadChannels_filter c _ .sm_chans _ _ (Or.inr rfl), List.nil_append]

/-- The actions of the statements of `load()` start like the actions of its
six parts in program order. -/
theorem loadBlocks_initial (c : LoadEnv) :
    (loadBlocks c).1 <+:
      (loadGlobals c).1 ++ ((loadOptionalLss c .lss_0).1 ++
        ((loadOptionalLss c .lss_1).1 ++ ((loadDataBufs c).1 ++
          ((loadChannels c c.proxy_channels_num .proxy_chans
              c.proxy_channels_ref c.proxy_channels_bytes).1 ++
            (loadChannels c c.sm_channels_num .sm_chans
              c.sm_channels_ref c.sm_channels_bytes).1)))) := by
  unfold loadBlocks
  have step : ∀ (a b : Block) (l : List Event), b.1 <+: l →
      (a.andThen b).1 <+: a.1 ++ l := by
    intro a b l h
    exact (andThen_initial a b).trans ((List.prefix_append_right_inj a.1).mpr h)
  exact step _ _ _ (step _ _ _ (step _ _ _ (step _ _ _ (andThen_initial _ _))))

/-- C20: in an idle `load()` that returns, the channel actions are, in this
order: if the proxy channel count is positive, the lookup of the proxy table
symbol and the copy of all `get_proxy_channels_bytes()` bytes at
`get_proxy_channels_ref()` to the address found, else nothing; then, if the SM
channel count is positive, the same for the SM table, else nothing.  In any
idle `load()`, returning or not, the channel actions are an initial part of
the actions of the two channel parts, and a channel part whose count is not
positive has no action: no lookup and no copy; a channel part whose count is
positive looks its symbol up, raises the status if the lookup failed, and
else copies the table. -/
theorem load_copies_channel_tables (c : LoadEnv) (query : Nat → gpuError)
    (s : GpuLoopKernel) (ws : Ticks) (hc : s.compiled = true)
    (hn : s.stream_ = none) :
    ((load c query s ws).res = .ret () →
      (load c query s ws).ev.filter Event.isChannel
        = (if c.proxy_channels_num > 0 then
            [.getGlobal .proxy_chans .gpuDrvSuccess,
             .memcpy_htod (some (c.gpuModuleGetGlobal .proxy_chans).2)
               (.table c.proxy_channels_ref c.proxy_channels_bytes)]
           else []) ++
          (if c.sm_channels_num > 0 then
            [.getGlobal .sm_chans .gpuDrvSuccess,
             .memcpy_htod (some (c.gpuModuleGetGlobal .sm_chans).2)
               (.table c.sm_channels_ref c.sm_channels_bytes)]
           else [])) ∧
    ((load c query s ws).ev.filter Event.isChannel <+:
      (loadChannels c c.proxy_channels_num .proxy_chans
          c.proxy_channels_ref c.proxy_channels_bytes).1 ++
        (loadChannels c c.sm_channels_num .sm_chans
          c.sm_channels_ref c.sm_channels_bytes).1) ∧
    (¬ c.proxy_channels_num > 0 →
      loadChannels c c.proxy_channels_num .proxy_chans
        c.proxy_channels_ref c.proxy_channels_bytes = ([], none)) ∧
    (¬ c.sm_channels_num > 0 →
      loadChannels c c.sm_channels_num .sm_chans
        c.sm_channels_ref c.sm_channels_bytes = ([], none)) ∧
    (∀ (num : Int) (name : Symbol) (ref bytes : Nat), num > 0 →
      loadChannels c num name ref bytes
        = if (c.gpuModuleGetGlobal name).1 = .gpuDrvSuccess then
            ([.getGlobal name .gpuDrvSuccess,
              .memcpy_htod (some (c.gpuModuleGetGlobal name).2) (.table ref bytes)],
             none)
          else
            ([.getGlobal name (c.gpuModuleGetGlobal name).1],
             some (.DrvError (c.gpuModuleGetGlobal name).1))) := by
  refine ⟨?_, ?_, ?_, ?_, ?_⟩
  · intro hret
    rw [load_idle c query s ws hc hn] at hret ⊢
    obtain ⟨_, _, _, _, h5, h6, hev⟩ := loadBlocks_ret c hret
    simp only [hev]
    rw [filter_channel_blocks, loadChannels_of_none c _ _ _ _ h5,
      loadChannels_of_none c _ _ _ _ h6]
  · rw [load_idle c query s ws hc hn]
    have h := (loadBlocks_initial c).filter Event.isChannel
    rw [filter_channel_blocks] at h
    exact h
  · intro h
    rw [loadChannels_cases]
    simp [h]
  · intro h
    rw [loadChannels_cases]
    simp [h]
  · intro num name ref bytes h
    rw [loadChannels_cases]
    simp [h]

/-- Witness for C20: an idle `load()` with one proxy channel and no SM
channel. -/
theorem load_copies_channel_tables_witness :
    (load healthyEnv (fun _ => .gpuSuccess) fresh []).res = .ret () ∧
    (load healthyEnv (fun _ => .gpuSuccess) fresh []).ev.filter Event.isChannel
      = [.getGlobal .proxy_chans .gpuDrvSuccess,
         .memcpy_htod (some 80) (.table 900 64)] :=
  ⟨by decide,
   (load_copies_channel_tables healthyEnv (fun _ => .gpuSuccess) fresh [] rfl
      rfl).1 (by decide)⟩

/-! ## Scheduling records: theorems -/

/-- Adding a multiple of `2^32` does not change a value taken in `int`. -/
theorem int32_add_mul (x m : Int) : int32 (x + m * 4294967296) = int32 x := by
  unfold int32
  have : x + m * 4294967296 + 2147483648 = x + 2147483648 + m * 4294967296 := by ring
  rw [this, Int.add_mul_emod_self]

/-- A value taken in `int` differs from the value by a multiple of `2^32`. -/
theorem int32_eq_sub (x : Int) :
    int32 x = x + -((x + 2147483648) / 4294967296) * 4294967296 := by
  unfold int32
  have := Int.emod_add_ediv (x + 2147483648) 4294967296
  omega

/-- A product in `int` of a factor already taken in `int`. -/
theorem int32_mul_left (a b : Int) : int32 (int32 a * b) = int32 (a * b) := by
  rw [int32_eq_sub a]
  have : (a + -((a + 2147483648) / 4294967296) * 4294967296) * b
      = a * b + (-((a + 2147483648) / 4294967296) * b) * 4294967296 := by ring
  rw [this, int32_add_mul]

/-- C22: `get_tdims_size()` is `get_tdim_z() * get_tdim_y() * get_tdim_x()`
taken in `int`, with depth `tdims[0]`, height `tdims[1]` and width
`tdims[2]`; it equals `get_tdim_xz() * get_tdim_y()` taken in `int`; both are
the product of the three tile dims modulo `2^32`, and the product itself when
that fits an `int`. -/
theorem get_tdims_size_eq_product (s : SchedOpSeq) :
    (s.get_tdim_z = s.tdims.1 ∧ s.get_tdim_y = s.tdims.2.1 ∧
      s.get_tdim_x = s.tdims.2.2) ∧
    s.get_tdims_size = int32 (int32 (s.get_tdim_z * s.get_tdim_y) * s.get_tdim_x) ∧
    s.get_tdims_size = int32 (s.get_tdim_xz * s.get_tdim_y) ∧
    s.get_tdims_size = int32 (s.tdims.1 * s.tdims.2.1 * s.tdims.2.2) ∧
    (-2147483648 ≤ s.tdims.1 * s.tdims.2.1 * s.tdims.2.2 →
      s.tdims.1 * s.tdims.2.1 * s.tdims.2.2 < 2147483648 →
      s.get_tdims_size = s.tdims.1 * s.tdims.2.1 * s.tdims.2.2) := by
  have h3 : s.get_tdims_size = int32 (s.tdims.1 * s.tdims.2.1 * s.tdims.2.2) := by
    unfold SchedOpSeq.get_tdims_size
    rw [int32_mul_left]
  refine ⟨⟨rfl, rfl, rfl⟩, rfl, ?_, h3, ?_⟩
  · rw [h3]
    unfold SchedOpSeq.get_tdim_xz SchedOpSeq.get_tdim_y
    rw [int32_mul_left]
    congr 1
    ring
  · intro h1 h2
    rw [h3, int32_of_range _ h1 h2]

/-- C21: for an assignment with unit range `[sm_b, sm_e)`, unit `u` serves the
tile instance `alpha * (u - sm_b) + beta`.  With `alpha = 1, beta = 0` (and
`0 <= sm_b`, `sm_e` an `int`) every unit of the range serves instance
`u - sm_b`, and every instance `0, .., sm_e - sm_b - 1` is served by exactly
one unit of the range.  With `alpha = 0, beta = k` every unit serves instance
`k`.  Two assignments with the unit ranges `[0, 4)` and `[4, 8)` are never
both active on the same unit. -/
theorem sched_affine_map (s : Sched) :
    (s.alpha = 1 → s.beta = 0 → 0 ≤ s.sm_b → s.sm_e < 2147483648 →
      (∀ u, s.sm_b ≤ u → u < s.sm_e →
        s.tile u = u - s.sm_b ∧ 0 ≤ s.tile u ∧ s.tile u < s.sm_e - s.sm_b) ∧
      (∀ t, 0 ≤ t → t < s.sm_e - s.sm_b →
        ∃! u, s.sm_b ≤ u ∧ u < s.sm_e ∧ s.tile u = t)) ∧
    (s.alpha = 0 → -2147483648 ≤ s.beta → s.beta < 2147483648 →
      ∀ u, s.tile u = s.beta) ∧
    (∀ s2 : Sched, s.sm_b = 0 → s.sm_e = 4 → s2.sm_b = 4 → s2.sm_e = 8 →
      ∀ u t1 t2, ¬ (s.active u t1 = true ∧ s2.active u t2 = true)) := by
  refine ⟨?_, ?_, ?_⟩
  · intro ha hb h0 he
    have htile : ∀ u, s.sm_b ≤ u → u < s.sm_e → s.tile u = u - s.sm_b := by
      intro u h1 h2
      unfold Sched.tile
      rw [ha, hb, int32_of_range (u - s.sm_b) (by omega) (by omega), one_mul,
        int32_of_range (u - s.sm_b) (by omega) (by omega), add_zero,
        int32_of_range (u - s.sm_b) (by omega) (by omega)]
    refine ⟨?_, ?_⟩
    · intro u h1 h2
      rw [htile u h1 h2]
      exact ⟨rfl, by omega, by omega⟩
    · intro t h1 h2
      refine ⟨t + s.sm_b, ⟨by omega, by omega, ?_⟩, ?_⟩
      · rw [htile _ (by omega) (by omega)]; omega
      · rintro u ⟨hu1, hu2, hu3⟩
        rw [htile u hu1 hu2] at hu3
        omega
  · intro ha h1 h2 u
    unfold Sched.tile
    rw [ha, zero_mul, int32_of_range 0 (by omega) (by omega), zero_add,
      int32_of_range _ h1 h2]
  · intro s2 h1 h2 h3 h4 u t1 t2
    unfold Sched.active
    simp only [decide_eq_true_eq]
    omega

/-- Witness for C21: a direct mapping on the units `[4, 8)`; unit 6 serves
instance 2. -/
theorem sched_affine_map_witness :
    (⟨some 1, 4, 8, 0, 128, 1, 0⟩ : Sched).tile 6 = 6 - 4 :=
  (((sched_affine_map ⟨some 1, 4, 8, 0, 128, 1, 0⟩).1 rfl rfl (by decide)
      (by decide)).1 6 (by decide) (by decide)).1

/-! ## The recording invariant -/

/-- The state `busy` is reached from a fresh controller by a timed launch on
stream 1 and `run(3)`. -/
theorem busy_reachable : Reachable busy :=
  Reachable.run 3 [] (Reachable.launch (some 1) false (Reachable.init fresh rfl rfl))

/-- C24: in every controller state reached from a fresh controller (no stream
bound, no timed run in flight) through any sequence of `load`, `launch`,
`run`, `poll`, `wait`, `stop` and `get_elapsed_msec` calls, however each call
ended, a timed run is recorded as in flight only while a stream is bound. -/
theorem recording_implies_stream_bound (s : GpuLoopKernel) (h : Reachable s)
    (hr : s.is_recording_ = true) : s.stream_ ≠ none :=
  (Inv_of_Reachable s h).2 hr

/-- Witness for C24: a controller running a timed batch on stream 1. -/
theorem recording_implies_stream_bound_witness :
    Reachable busy ∧ busy.is_recording_ = true ∧ busy.stream_ ≠ none :=
  ⟨busy_reachable, rfl, recording_implies_stream_bound busy busy_reachable rfl⟩

/-! ## Reductions, send and receive, GELU: theorems -/

/-- C27: for an input of 1 to 4 dimensions and an axis with
`0 <= axis < ndims`, each of `reduce_sum`, `reduce_mean`, `reduce_max` creates
its warp-wise operation exactly when `axis == ndims - 1` and its element-wise
operation otherwise, with that input and that axis; for a warp-wise operation
so created `function_name` translates the axis to 3 and its check passes; for
an element-wise one it translates the axis to `axis + 4 - ndims`. -/
theorem reduce_warp_wise_iff_last_axis (ndims axis : Int) (hn1 : 1 ≤ ndims)
    (hn4 : ndims ≤ 4) (ha0 : 0 ≤ axis) (ha : axis < ndims) :
    (Model.reduce_sum ndims axis
      = ⟨if axis = ndims - 1 then .OP_REDUCE_W_SUM else .OP_REDUCE_E_SUM,
          ndims, axis⟩) ∧
    (Model.reduce_mean ndims axis
      = ⟨if axis = ndims - 1 then .OP_REDUCE_W_MEAN else .OP_REDUCE_E_MEAN,
          ndims, axis⟩) ∧
    (Model.reduce_max ndims axis
      = ⟨if axis = ndims - 1 then .OP_REDUCE_W_MAX else .OP_REDUCE_E_MAX,
          ndims, axis⟩) ∧
    (∀ op ∈ [Model.reduce_sum ndims axis, Model.reduce_mean ndims axis,
        Model.reduce_max ndims axis],
      (op.type_str.head? = some 'w' → op.function_name_axis = some 3) ∧
      (op.type_str.head? ≠ some 'w' →
        op.function_name_axis = some (axis + 4 - ndims))) := by
  have hcases : (ndims = 1 ∨ ndims = 2 ∨ ndims = 3 ∨ ndims = 4) := by omega
  have hax : (axis = 0 ∨ axis = 1 ∨ axis = 2 ∨ axis = 3) := by omega
  rcases hcases with rfl | rfl | rfl | rfl <;> rcases hax with rfl | rfl | rfl | rfl <;>
    first
    | (exfalso; omega)
    | decide

/-- Witness for C27: the last axis of a 3-D input. -/
theorem reduce_warp_wise_iff_last_axis_witness :
    Model.reduce_sum 3 2 = ⟨.OP_REDUCE_W_SUM, 3, 2⟩ :=
  (reduce_warp_wise_iff_last_axis 3 2 (by decide) (by decide) (by decide)
    (by decide)).1

/-- C28: with `max = input->ldims_bytes()`, `Model::send` and `Model::recv`
report an error when `bytes > max`; else the operation they create stores
`max` when `bytes == 0` and `bytes` when `0 < bytes <= max`, so the stored
byte count never exceeds `max`.  A send of 1024 bytes from a tensor of 1024
two-byte elements stores 1024; a recv with `bytes` 0 on it stores 2048. -/
theorem send_recv_bytes (max_bytes : Nat) (id gpu : Int) (bytes : Nat) :
    (max_bytes < bytes →
      Model.send max_bytes id gpu bytes = none ∧
      Model.recv max_bytes id gpu bytes = none) ∧
    (bytes = 0 →
      Model.send max_bytes id gpu bytes = some ⟨.OP_SEND, id, gpu, max_bytes⟩ ∧
      Model.recv max_bytes id gpu bytes = some ⟨.OP_RECV, id, gpu, max_bytes⟩) ∧
    (0 < bytes → bytes ≤ max_bytes →
      Model.send max_bytes id gpu bytes = some ⟨.OP_SEND, id, gpu, bytes⟩ ∧
      Model.recv max_bytes id gpu bytes = some ⟨.OP_RECV, id, gpu, bytes⟩) ∧
    (∀ op, (Model.send max_bytes id gpu bytes = some op ∨
        Model.recv max_bytes id gpu bytes = some op) → op.bytes ≤ max_bytes) ∧
    Model.send (ldims_bytes [1024] 2) 0 1 1024 = some ⟨.OP_SEND, 0, 1, 1024⟩ ∧
    Model.recv (ldims_bytes [1024] 2) 0 0 0 = some ⟨.OP_RECV, 0, 0, 2048⟩ := by
  refine ⟨?_, ?_, ?_, ?_, by decide, by decide⟩
  · intro h
    simp [Model.send, Model.recv, LOGERR, h]
  · intro h
    subst h
    simp [Model.send, Model.recv]
  · intro h0 hle
    have h1 : ¬ max_bytes < bytes := by omega
    have h2 : bytes ≠ 0 := by omega
    simp [Model.send, Model.recv, h1, h2]
  · intro op hop
    by_cases h : max_bytes < bytes
    · simp [Model.send, Model.recv, LOGERR, h] at hop
    · by_cases h0 : bytes = 0
      · simp [Model.send, Model.recv, h, h0] at hop
        rcases hop with rfl | rfl <;> simp
      · simp [Model.send, Model.recv, h, h0] at hop
        rcases hop with rfl | rfl <;> simp <;> omega

/-- C29 fails on the code: `Gelu<InDims, OutDims>::compute` adds to `in` the
offset computed with `OutDims`, not with `InDims`.  With an input of leading
dimensions (1, 1, 2, 8), an output of leading dimensions (1, 1, 2, 16) and the
coordinates (0, 0, 1, 0) it reads the input at offset 16, while the row-major
offset under the input's own dimensions is 8.  For all dimensions and
coordinates the offset added to `in` is the row-major offset under `OutDims`,
as is the offset added to `out`. -/
theorem gelu_reads_input_at_output_offset :
    Gelu.in_offset ⟨1, 1, 2, 8⟩ ⟨1, 1, 2, 16⟩ 0 0 1 0 = 16 ∧
    rowMajor ⟨1, 1, 2, 8⟩ 0 0 1 0 = 8 ∧
    (∀ (InDims OutDims : Vec) (n c h w : Int),
      Gelu.in_offset InDims OutDims n c h w = rowMajor OutDims n c h w) ∧
    (∀ (InDims OutDims : Vec) (n c h w : Int),
      Gelu.out_offset InDims OutDims n c h w = rowMajor OutDims n c h w) := by
  refine ⟨by decide, by decide, ?_, ?_⟩
  · intro I O n c h w
    unfold Gelu.in_offset rowMajor
    ring
  · intro I O n c h w
    unfold Gelu.out_offset rowMajor
    ring

/-! ## GEMM configurations: theorem -/

/-- C30 fails on the code: of the 36 specializations of `GemmConfiguration`,
two build a `Gemm` that differs from their own key.  The one for `Sm70`,
`half_t`, 128x256x32 (line 58) builds a `Gemm` with the architecture tag
`Sm80`; the one for `Sm80`, `bfloat16_t`, 64x64x32 (line 720) builds a `Gemm`
over `half_t` operands.  The other 34 match their key. -/
theorem gemm_configurations_not_matching_key :
    GemmConfigurations.length = 36 ∧
    GemmConfigurations.filter (fun c => !c.matchesKey)
      = [⟨58, .Sm70, .half_t, .half_t, .half_t, ⟨128, 256, 32⟩,
          ⟨.half_t, .half_t, .half_t, .half_t, .Sm80, ⟨128, 256, 32⟩,
            ⟨64, 64, 32⟩, ⟨8, 8, 4⟩, 2⟩⟩,
         ⟨720, .Sm80, .bfloat16_t, .bfloat16_t, .bfloat16_t, ⟨64, 64, 32⟩,
          ⟨.half_t, .half_t, .bfloat16_t, .float, .Sm80, ⟨64, 64, 32⟩,
            ⟨32, 32, 32⟩, ⟨16, 8, 16⟩, 10⟩⟩] ∧
    (GemmConfigurations.filter (fun c => c.matchesKey)).length = 34 := by
  decide

/-! ## Operations: theorems -/

/-- On arguments that are not `float`, `operator==` holds exactly for equal
arguments, which is exactly when the keys are equal. -/
theorem OpArg_eq_iff (fc : FloatCmp) (x y : OpArg)
    (hx : x.type ≠ .OP_ARG_FLOAT) :
    (OpArg.eq fc x y = true ↔ x = y) ∧ (x = y ↔ x.key = y.key) := by
  cases x <;> cases y <;>
    simp_all [OpArg.eq, OpArg.type, OpArg.key, OpArgType.code]
  all_goals (rename_i a b; cases a <;> cases b <;> simp)

/-- On arguments that are not `float`, `operator<` is the order by type code
and then by value. -/
theorem OpArg_lt_iff (fc : FloatCmp) (x y : OpArg)
    (hx : x.type ≠ .OP_ARG_FLOAT) (hy : y.type ≠ .OP_ARG_FLOAT) :
    OpArg.lt fc x y = true ↔
      (x.key.1 < y.key.1 ∨ (x.key.1 = y.key.1 ∧ x.key.2 < y.key.2)) := by
  cases x <;> cases y <;>
    simp_all [OpArg.lt, OpArg.type, OpArg.key, OpArgType.code]
  all_goals (rename_i a b; cases a <;> cases b <;> simp)

/-- The lexicographic order on integer sequences, one step. -/
theorem lex_cons_iff (x y : Int) (l1 l2 : List Int) :
    List.Lex (· < ·) (x :: l1) (y :: l2) ↔
      (x < y ∨ (x = y ∧ List.Lex (· < ·) l1 l2)) := by
  constructor
  · intro h
    cases h with
    | cons h => exact Or.inr ⟨rfl, h⟩
    | rel h => exact Or.inl h
  · rintro (h | ⟨rfl, h⟩)
    · exact List.Lex.rel h
    · exact List.Lex.cons h

theorem keys_cons (a : OpArg) (as : List OpArg) :
    OpArg.keys (a :: as) = a.key.1 :: a.key.2 :: OpArg.keys as := by
  simp [OpArg.keys]

/-- The loop of `operator==` on argument lists of equal length always ends
with a result, and the result is true exactly when the arguments are
pairwise `==`. -/
theorem argsEq_iff (fc : FloatCmp) : ∀ (as bs : List OpArg),
    as.length = bs.length →
    (Op.argsEq fc as bs = some true ∨ Op.argsEq fc as bs = some false) ∧
    (Op.argsEq fc as bs = some true ↔
      List.Forall₂ (fun x y => OpArg.eq fc x y = true) as bs) := by
  intro as
  induction as with
  | nil =>
    intro bs h
    cases bs with
    | nil => simp [Op.argsEq]
    | cons b bs => simp at h
  | cons a as ih =>
    intro bs h
    cases bs with
    | nil => simp at h
    | cons b bs =>
      have hl : as.length = bs.length := by simpa using h
      obtain ⟨h1, h2⟩ := ih bs hl
      by_cases he : OpArg.eq fc a b = true
      · simp only [Op.argsEq, he, if_true, List.forall₂_cons, true_and]
        exact ⟨h1, h2⟩
      · simp [Op.argsEq, he]

/-- The loop of `operator==` does not look at arguments of the second
operation beyond the number of arguments of the first. -/
theorem argsEq_append (fc : FloatCmp) : ∀ (as bs extra : List OpArg),
    as.length = bs.length →
    Op.argsEq fc as (bs ++ extra) = Op.argsEq fc as bs := by
  intro as
  induction as with
  | nil =>
    intro bs extra h
    cases bs with
    | nil => cases extra <;> rfl
    | cons b bs => simp at h
  | cons a as ih =>
    intro bs extra h
    cases bs with
    | nil => simp at h
    | cons b bs =>
      have hl : as.length = bs.length := by simpa using h
      by_cases he : OpArg.eq fc a b = true
      · simp only [List.cons_append, Op.argsEq, he, if_true]
        exact ih bs extra hl
      · simp [Op.argsEq, he]

/-- On argument lists of equal length without `float` arguments, the loop of
`operator<` always ends with a result; it is true exactly when the keys of
the first list come before those of the second in the lexicographic order,
and the loop of `operator==` is true exactly when the keys are the same. -/
theorem argsLt_iff (fc : FloatCmp) : ∀ (as bs : List OpArg),
    as.length = bs.length →
    (∀ x ∈ as, x.type ≠ .OP_ARG_FLOAT) → (∀ y ∈ bs, y.type ≠ .OP_ARG_FLOAT) →
    (Op.argsLt fc as bs = some true ∨ Op.argsLt fc as bs = some false) ∧
    (Op.argsLt fc as bs = some true ↔
      List.Lex (· < ·) (OpArg.keys as) (OpArg.keys bs)) ∧
    (Op.argsEq fc as bs = some true ↔ OpArg.keys as = OpArg.keys bs) := by
  intro as
  induction as with
  | nil =>
    intro bs h _ _
    cases bs with
    | nil => simp [Op.argsLt, Op.argsEq, OpArg.keys]
    | cons b bs => simp at h
  | cons a as ih =>
    intro bs h ha hb
    cases bs with
    | nil => simp at h
    | cons b bs =>
      have hl : as.length = bs.length := by simpa using h
      have hax : a.type ≠ .OP_ARG_FLOAT := ha a (by simp)
      have hbx : b.type ≠ .OP_ARG_FLOAT := hb b (by simp)
      obtain ⟨h1, h2, h3⟩ := ih bs hl (fun x hx => ha x (by simp [hx]))
        (fun y hy => hb y (by simp [hy]))
      obtain ⟨e1, e2⟩ := OpArg_eq_iff fc a b hax
      have e3 := OpArg_lt_iff fc a b hax hbx
      rw [keys_cons, keys_cons, lex_cons_iff, lex_cons_iff]
      by_cases he : OpArg.eq fc a b = true
      · have hab : a = b := e1.mp he
        subst hab
        simp only [Op.argsLt, Op.argsEq, he, if_true, lt_irrefl, false_or, true_and,
          List.cons.injEq]
        exact ⟨h1, h2, h3⟩
      · have hne : a.key ≠ b.key := fun hk => he (e1.mpr (e2.mpr hk))
        have hne' : ¬ (a.key.1 = b.key.1 ∧ a.key.2 = b.key.2) := by
          rintro ⟨k1, k2⟩
          exact hne (Prod.ext k1 k2)
        simp only [Op.argsLt, Op.argsEq, he, if_false, Bool.false_eq_true,
          Option.some.injEq, List.cons.injEq]
        refine ⟨?_, ?_, ?_⟩
        · cases OpArg.lt fc a b <;> simp
        · rw [e3]
          constructor
          · rintro (h | ⟨h, h'⟩)
            · exact Or.inl h
            · exact Or.inr ⟨h, Or.inl h'⟩
          · rintro (h | ⟨h, h' | ⟨h', _⟩⟩)
            · exact Or.inl h
            · exact Or.inr ⟨h, h'⟩
            · exact absurd ⟨h, h'⟩ hne'
        · constructor
          · intro hf; cases hf
          · rintro ⟨k1, k2, _⟩
            exact absurd ⟨k1, k2⟩ hne'

/-- C25 (as amended): for operations `a` and `b` with the same number of
arguments, `a == b` ends with a result, and it holds exactly when they have
the same type, the same precision type and pairwise `==` arguments.  Two
arguments are `==` only if they have the same argument type, and arguments
that are not `float` are `==` exactly when they are the same argument (type
and value); `float` arguments are compared by the `==` of `float`.  The name,
the input and output dependencies and the granularity level never affect the
result.  Arguments of `b` beyond the number of arguments of `a` are not
looked at. -/
theorem op_eq_iff_same_type_prec_args (fc : FloatCmp) (a b : Op)
    (hlen : a.args.length = b.args.length) :
    (Op.eq fc a b = some true ∨ Op.eq fc a b = some false) ∧
    (Op.eq fc a b = some true ↔
      (a.type = b.type ∧ a.prec_type = b.prec_type ∧
        List.Forall₂ (fun x y => OpArg.eq fc x y = true) a.args b.args)) ∧
    (∀ x y : OpArg, OpArg.eq fc x y = true → x.type = y.type) ∧
    (∀ x y : OpArg, x.type ≠ .OP_ARG_FLOAT → (OpArg.eq fc x y = true ↔ x = y)) ∧
    (∀ u v : Nat, OpArg.eq fc (.float u) (.float v) = fc.eq u v) ∧
    (∀ (n1 n2 : String) (i1 i2 o1 o2 : List Nat) (g1 g2 : Int),
      Op.eq fc { a with name := n1, in_deps := i1, out_deps := o1, gran_lev := g1 }
          { b with name := n2, in_deps := i2, out_deps := o2, gran_lev := g2 }
        = Op.eq fc a b) ∧
    (∀ extra : List OpArg,
      Op.eq fc a { b with args := b.args ++ extra } = Op.eq fc a b) := by
  obtain ⟨h1, h2⟩ := argsEq_iff fc a.args b.args hlen
  refine ⟨?_, ?_, ?_, ?_, ?_, ?_, ?_⟩
  · unfold Op.eq
    split_ifs
    · exact Or.inr rfl
    · exact Or.inr rfl
    · exact h1
  · unfold Op.eq
    split_ifs with ht hp
    · simp [ht]
    · simp [hp]
    · simp only [not_not] at ht hp
      simp only [ht, hp, true_and]
      exact h2
  · intro x y h
    unfold OpArg.eq at h
    by_contra hne
    simp [hne] at h
  · intro x y hx
    exact (OpArg_eq_iff fc x y hx).1
  · intro u v
    simp [OpArg.eq, OpArg.type]
  · intro n1 n2 i1 i2 o1 o2 g1 g2
    rfl
  · intro extra
    unfold Op.eq
    simp only [argsEq_append fc a.args b.args extra hlen]

/-- Witness for C25: an operation compared with a copy of it under another
name. -/
theorem op_eq_iff_same_type_prec_args_witness :
    Op.eq bitwise opOneArg { opOneArg with name := "c" } = some true :=
  ((op_eq_iff_same_type_prec_args bitwise opOneArg { opOneArg with name := "c" }
      rfl).2.1).mpr ⟨rfl, rfl, by decide⟩

/-- C25 (as stated) fails: two operations of the same type and precision
type, the first with the argument list `[1]` and the second with `[1, 2]`,
compare `==` although their argument lists differ in length. -/
theorem op_eq_ignores_extra_arguments :
    Op.eq bitwise opOneArg opTwoArgs = some true ∧
    opOneArg.type = opTwoArgs.type ∧ opOneArg.prec_type = opTwoArgs.prec_type ∧
    opOneArg.args = [.int 1] ∧ opTwoArgs.args = [.int 1, .int 2] ∧
    opOneArg.args.length ≠ opTwoArgs.args.length := by
  decide

/-- `operator<` on operations with argument lists of equal length without
`float` arguments: it ends with a result, which is true exactly when the key
of the first comes before the key of the second. -/
theorem Op_lt_iff (fc : FloatCmp) (a b : Op)
    (hlen : a.args.length = b.args.length)
    (ha : ∀ x ∈ a.args, x.type ≠ .OP_ARG_FLOAT)
    (hb : ∀ y ∈ b.args, y.type ≠ .OP_ARG_FLOAT) :
    (Op.lt fc a b = some true ∨ Op.lt fc a b = some false) ∧
    (Op.lt fc a b = some true ↔ List.Lex (· < ·) a.key b.key) := by
  obtain ⟨h1, h2, _⟩ := argsLt_iff fc a.args b.args hlen ha hb
  unfold Op.lt Op.key
  rw [lex_cons_iff, lex_cons_iff]
  split_ifs with ht hp
  · refine ⟨by by_cases h : a.type < b.type <;> simp [h], ?_⟩
    simp [ht]
  · simp only [not_not] at ht
    refine ⟨by by_cases h : a.prec_type < b.prec_type <;> simp [h], ?_⟩
    simp [ht, hp]
  · simp only [not_not] at ht hp
    refine ⟨h1, ?_⟩
    simp only [ht, hp, lt_irrefl, false_or, true_and]
    exact h2

/-- `operator==` on operations with argument lists of equal length without
`float` arguments is true exactly when the keys are the same. -/
theorem Op_eq_key_iff (fc : FloatCmp) (a b : Op)
    (hlen : a.args.length = b.args.length)
    (ha : ∀ x ∈ a.args, x.type ≠ .OP_ARG_FLOAT)
    (hb : ∀ y ∈ b.args, y.type ≠ .OP_ARG_FLOAT) :
    Op.eq fc a b = some true ↔ a.key = b.key := by
  obtain ⟨_, _, h3⟩ := argsLt_iff fc a.args b.args hlen ha hb
  unfold Op.eq Op.key
  split_ifs with ht hp
  · simp [ht]
  · simp [hp]
  · simp only [not_not] at ht hp
    simp only [ht, hp, List.cons.injEq, true_and]
    exact h3

/-- C26: on operations with the same number of arguments, none of them
`float`, `operator<` is the strict lexicographic order on the sequence
`(type, precision type, args[0], args[1], ...)`, where each argument counts
first by its argument type and then by its value, and `operator==` is
equality of these sequences; exactly one of `a < b`, `a == b`, `b < a`
holds. -/
theorem op_lt_lexicographic (fc : FloatCmp) (a b : Op)
    (hlen : a.args.length = b.args.length)
    (ha : ∀ x ∈ a.args, x.type ≠ .OP_ARG_FLOAT)
    (hb : ∀ y ∈ b.args, y.type ≠ .OP_ARG_FLOAT) :
    (Op.lt fc a b = some true ↔ List.Lex (· < ·) a.key b.key) ∧
    (Op.lt fc b a = some true ↔ List.Lex (· < ·) b.key a.key) ∧
    (Op.eq fc a b = some true ↔ a.key = b.key) ∧
    (∀ x y : OpArg, x.type ≠ .OP_ARG_FLOAT → y.type ≠ .OP_ARG_FLOAT →
      (OpArg.lt fc x y = true ↔
        (x.type.code < y.type.code ∨
          (x.type = y.type ∧ x.key.2 < y.key.2)))) ∧
    ((Op.lt fc a b = some true ∧ Op.eq fc a b ≠ some true ∧
        Op.lt fc b a ≠ some true) ∨
      (Op.lt fc a b ≠ some true ∧ Op.eq fc a b = some true ∧
        Op.lt fc b a ≠ some true) ∨
      (Op.lt fc a b ≠ some true ∧ Op.eq fc a b ≠ some true ∧
        Op.lt fc b a = some true)) := by
  have hab := (Op_lt_iff fc a b hlen ha hb).2
  have hba := (Op_lt_iff fc b a hlen.symm hb ha).2
  have heq := Op_eq_key_iff fc a b hlen ha hb
  refine ⟨hab, hba, heq, ?_, ?_⟩
  · intro x y hx hy
    rw [OpArg_lt_iff fc x y hx hy]
    cases x <;> cases y <;> simp_all [OpArg.type, OpArg.key, OpArgType.code]
  · have hirr : ∀ l : List Int, ¬ List.Lex (· < ·) l l :=
      fun l h => asymm_of (List.Lex (· < · : Int → Int → Prop)) h h
    rcases trichotomous_of (List.Lex (· < · : Int → Int → Prop)) a.key b.key
      with h | h | h
    · left
      refine ⟨hab.mpr h, fun he => ?_, fun h' =>
        asymm_of (List.Lex (· < · : Int → Int → Prop)) h (hba.mp h')⟩
      have hk := heq.mp he
      rw [hk] at h
      exact hirr _ h
    · right; left
      refine ⟨fun h' => ?_, heq.mpr h, fun h' => ?_⟩
      · have hl := hab.mp h'
        rw [h] at hl
        exact hirr _ hl
      · have hl := hba.mp h'
        rw [h] at hl
        exact hirr _ hl
    · right; right
      refine ⟨fun h' =>
        asymm_of (List.Lex (· < · : Int → Int → Prop)) h (hab.mp h'), fun he => ?_,
        hba.mpr h⟩
      have hk := heq.mp he
      rw [hk] at h
      exact hirr _ h

/-- Witness for C26: two operations of the same type and precision type with
the argument lists `[1, 2]` and `[1, 3]`. -/
theorem op_lt_lexicographic_witness :
    Op.lt bitwise opTwoArgs { opTwoArgs with args := [.int 1, .int 3] } = some true ∧
    List.Lex (· < ·) opTwoArgs.key
      (Op.key { opTwoArgs with args := [.int 1, .int 3] }) :=
  ⟨by decide,
   (op_lt_lexicographic bitwise opTwoArgs { opTwoArgs with args := [.int 1, .int 3] }
      rfl (by decide) (by decide)).1.mp (by decide)⟩

end ark
